import Mathlib

/-!
# Admin command processor of the NVMe controller emulation (hw/nvme_adm.c)

A shallow embedding of `hw/nvme_adm.c`: the controller state, the ten admin
command handlers and the dispatcher `nvme_admin_command`, followed by the
properties proved about them.

Conventions of the embedding.

* The header `nvme.h` (constants, structure declarations) is not part of the
  sources at hand.  Every constant the C file takes from it is a field of
  `NvmeH`; `nvme_h` is one concrete header, with the NVM Express 1.0 values.
* C integers are natural numbers.  Counters that the code increments or
  decrements wrap modulo `2 ^ bits`, the width being a field of `NvmeH`.
* `n->sq[...]` and `n->cq[...]` are tables of `NVME_MAX_QID` descriptors.  They
  are total functions here; a C access outside `[0, NVME_MAX_QID)` is undefined
  behaviour and makes the handler return `none`.
* The loop of `adm_cmd_abort` that walks the submission queue need not
  terminate; it takes a fuel argument and returns `none` when the fuel is spent.
* Host memory is reached through `nvme_dma_mem_read` / `nvme_dma_mem_write`.
  Reads are answered by a function from addresses to the command identifier
  stored there; writes are recorded in the result.
-/

namespace NvmeAdm

/-! ## Constants of nvme.h -/

/-- Constants and widths that `nvme_adm.c` takes from `nvme.h`. -/
structure NvmeH where
  NVME_MAX_QID : Nat
  NVME_ABORT_COMMAND_LIMIT : Nat
  NVME_EMPTY : Nat
  ASQ_ID : Nat
  FAIL : Nat
  NVME_ADM_CMD_DELETE_SQ : Nat
  NVME_ADM_CMD_CREATE_SQ : Nat
  NVME_ADM_CMD_GET_LOG_PAGE : Nat
  NVME_ADM_CMD_DELETE_CQ : Nat
  NVME_ADM_CMD_CREATE_CQ : Nat
  NVME_ADM_CMD_IDENTIFY : Nat
  NVME_ADM_CMD_ABORT : Nat
  NVME_ADM_CMD_SET_FEATURES : Nat
  NVME_ADM_CMD_GET_FEATURES : Nat
  NVME_ADM_CMD_ASYNC_EV_REQ : Nat
  NVME_ADM_CMD_LAST : Nat
  NVME_SC_SUCCESS : Nat
  NVME_SC_INVALID_OPCODE : Nat
  NVME_SC_INVALID_FIELD : Nat
  NVME_SC_DATA_XFER_ERROR : Nat
  NVME_SC_INTERNAL : Nat
  NVME_SC_INVALID_NAMESPACE : Nat
  NVME_SCT_CMD_SPEC_ERR : Nat
  NVME_COMPLETION_QUEUE_INVALID : Nat
  NVME_INVALID_QUEUE_IDENTIFIER : Nat
  NVME_MAX_QUEUE_SIZE_EXCEEDED : Nat
  NVME_ABORT_CMD_LIMIT_EXCEEDED : Nat
  NVME_REQ_CMD_TO_ABORT_NOT_FOUND : Nat
  NVME_INVALID_INTERRUPT_VECTOR : Nat
  NVME_FEATURE_ARBITRATION : Nat
  NVME_FEATURE_POWER_MANAGEMENT : Nat
  NVME_FEATURE_LBA_RANGE_TYPE : Nat
  NVME_FEATURE_TEMPERATURE_THRESHOLD : Nat
  NVME_FEATURE_ERROR_RECOVERY : Nat
  NVME_FEATURE_VOLATILE_WRITE_CACHE : Nat
  NVME_FEATURE_NUMBER_OF_QUEUES : Nat
  NVME_FEATURE_INTERRUPT_COALESCING : Nat
  NVME_FEATURE_INTERRUPT_VECTOR_CONF : Nat
  NVME_FEATURE_WRITE_ATOMICITY : Nat
  NVME_FEATURE_ASYNCHRONOUS_EVENT_CONF : Nat
  NVME_FEATURE_SOFTWARE_PROGRESS_MARKER : Nat
  NVME_IDENTIFY_CONTROLLER : Nat
  PAGE_SIZE : Nat
  /-- Value of `sizeof(*n->idtfy_ctrl)`. -/
  sizeof_idtfy_ctrl : Nat
  /-- Value of `sizeof(*n->disk[..].idtfy_ns)`. -/
  sizeof_idtfy_ns : Nat
  /-- Value of `sizeof(NVMECmd)`. -/
  sizeof_sqe : Nat
  /-- Width in bits of the field `usage_cnt` of a completion queue. -/
  usage_cnt_bits : Nat
  /-- Width in bits of the counter `n->abort`. -/
  abort_bits : Nat

/-- The header with the values of NVM Express 1.0: 64 queue identifiers, ten
abort slots, the empty marker `0xffffffff`, 16-bit counters. -/
def nvme_h : NvmeH where
  NVME_MAX_QID := 64
  NVME_ABORT_COMMAND_LIMIT := 10
  NVME_EMPTY := 0xffffffff
  ASQ_ID := 0
  FAIL := 1
  NVME_ADM_CMD_DELETE_SQ := 0x00
  NVME_ADM_CMD_CREATE_SQ := 0x01
  NVME_ADM_CMD_GET_LOG_PAGE := 0x02
  NVME_ADM_CMD_DELETE_CQ := 0x04
  NVME_ADM_CMD_CREATE_CQ := 0x05
  NVME_ADM_CMD_IDENTIFY := 0x06
  NVME_ADM_CMD_ABORT := 0x08
  NVME_ADM_CMD_SET_FEATURES := 0x09
  NVME_ADM_CMD_GET_FEATURES := 0x0a
  NVME_ADM_CMD_ASYNC_EV_REQ := 0x0c
  NVME_ADM_CMD_LAST := 0x0d
  NVME_SC_SUCCESS := 0x0
  NVME_SC_INVALID_OPCODE := 0x1
  NVME_SC_INVALID_FIELD := 0x2
  NVME_SC_DATA_XFER_ERROR := 0x4
  NVME_SC_INTERNAL := 0x6
  NVME_SC_INVALID_NAMESPACE := 0xb
  NVME_SCT_CMD_SPEC_ERR := 0x1
  NVME_COMPLETION_QUEUE_INVALID := 0x0
  NVME_INVALID_QUEUE_IDENTIFIER := 0x1
  NVME_MAX_QUEUE_SIZE_EXCEEDED := 0x2
  NVME_ABORT_CMD_LIMIT_EXCEEDED := 0x3
  NVME_REQ_CMD_TO_ABORT_NOT_FOUND := 0x4
  NVME_INVALID_INTERRUPT_VECTOR := 0x8
  NVME_FEATURE_ARBITRATION := 0x1
  NVME_FEATURE_POWER_MANAGEMENT := 0x2
  NVME_FEATURE_LBA_RANGE_TYPE := 0x3
  NVME_FEATURE_TEMPERATURE_THRESHOLD := 0x4
  NVME_FEATURE_ERROR_RECOVERY := 0x5
  NVME_FEATURE_VOLATILE_WRITE_CACHE := 0x6
  NVME_FEATURE_NUMBER_OF_QUEUES := 0x7
  NVME_FEATURE_INTERRUPT_COALESCING := 0x8
  NVME_FEATURE_INTERRUPT_VECTOR_CONF := 0x9
  NVME_FEATURE_WRITE_ATOMICITY := 0xa
  NVME_FEATURE_ASYNCHRONOUS_EVENT_CONF := 0xb
  NVME_FEATURE_SOFTWARE_PROGRESS_MARKER := 0x80
  NVME_IDENTIFY_CONTROLLER := 1
  PAGE_SIZE := 4096
  sizeof_idtfy_ctrl := 4096
  sizeof_idtfy_ns := 4096
  sizeof_sqe := 64
  usage_cnt_bits := 16
  abort_bits := 32

/-- What the C file relies on about the header: `FAIL` is a non-zero value, the
marker `NVME_EMPTY` is not a 16-bit command identifier, and the two counters
are wide enough for the number of queues and for the abort limit. -/
structure NvmeH.WF (P : NvmeH) : Prop where
  fail_ne : P.FAIL ≠ 0
  empty_not_cid : 65536 ≤ P.NVME_EMPTY
  limit_fits : P.NVME_ABORT_COMMAND_LIMIT < 2 ^ P.abort_bits
  qid_fits : P.NVME_MAX_QID ≤ 2 ^ P.usage_cnt_bits

/-! ## Data model -/

/-- Submission queue descriptor `NVMEIOSQueue`. -/
structure NVMEIOSQueue where
  id : Nat
  cq_id : Nat
  head : Nat
  tail : Nat
  prio : Nat
  phys_contig : Nat
  size : Nat
  dma_addr : Nat
  abort_cmd_id : Nat → Nat

/-- Completion queue descriptor `NVMEIOCQueue`. -/
structure NVMEIOCQueue where
  id : Nat
  usage_cnt : Nat
  head : Nat
  tail : Nat
  vector : Nat
  irq_enabled : Nat
  dma_addr : Nat
  phys_contig : Nat
  phase_tag : Nat
  size : Nat
deriving DecidableEq

/-- Feature table `n->feature`. -/
structure NVMEFeatureVal where
  arbitration : Nat
  power_management : Nat
  temperature_threshold : Nat
  error_recovery : Nat
  volatile_write_cache : Nat
  number_of_queues : Nat
  interrupt_coalescing : Nat
  interrupt_vector_configuration : Nat
  write_atomicity : Nat
  asynchronous_event_configuration : Nat
  software_progress_marker : Nat
deriving DecidableEq

/-- The part of `NVMEState` that `nvme_adm.c` reads or writes.  `cntrl_reg_mqes`
is the 16-bit word `*mqes` at the start of the capability register,
`cntrl_reg_cqr` the next 16-bit word `*(mqes + 1)`; `is_msix` is the value of
`IS_MSIX(n)`; `nn` is `n->idtfy_ctrl->nn`. -/
structure NVMEState where
  sq : Nat → NVMEIOSQueue
  cq : Nat → NVMEIOCQueue
  feature : NVMEFeatureVal
  abort : Nat
  cntrl_reg_mqes : Nat
  cntrl_reg_cqr : Nat
  msix_entries_nr : Int
  is_msix : Bool
  nn : Nat

/-- The 64-byte command `NVMECmd` together with the fields of the per-opcode
views (`NVMEAdmCmdCreateSQ`, `NVMEAdmCmdAbort`, ...) that overlay it.  A handler
reads only the fields of its own view. -/
structure NVMECmd where
  opcode : Nat
  cid : Nat
  nsid : Nat
  prp1 : Nat
  prp2 : Nat
  qid : Nat
  qsize : Nat
  pc : Nat
  qprio : Nat
  cqid : Nat
  ien : Nat
  iv : Nat
  sqid : Nat
  cmdid : Nat
  fid : Nat
  cdw11 : Nat
  cns : Nat
deriving DecidableEq

/-- The completion entry `NVMECQE`: the result word and the two parts of the
status field (`NVMEStatusField`) that the handlers write. -/
structure NVMECQE where
  cmd_specific : Nat
  sc : Nat
  sct : Nat
deriving DecidableEq

/-- Descriptor that an identify command copies from. -/
inductive IdSource where
  | ctrl : IdSource
  | ns : Nat → IdSource
deriving DecidableEq

/-- One call of `nvme_dma_mem_write`: destination address, source descriptor,
offset of the first byte taken from it, and number of bytes. -/
structure DmaWrite where
  addr : Nat
  src : IdSource
  off : Nat
  len : Nat
deriving DecidableEq

/-- Outcome of a handler: the new controller state, the completion entry, the
returned value, and the host-memory writes in the order they were made. -/
structure Res where
  n : NVMEState
  cqe : NVMECQE
  ret : Nat
  writes : List DmaWrite

/-- Host memory as seen by `nvme_dma_mem_read` in `adm_cmd_abort`: the field
`cid` of the command image stored at an address. -/
abbrev HostMem := Nat → Nat

/-- Assignment `t[i] = v` to one element of a table. -/
def arr_set {α : Type} (t : Nat → α) (i : Nat) (v : α) : Nat → α :=
  fun j => if j = i then v else t j

/-! ## Queue lookup -/

/-- C function `adm_check_cqid`: 0 when the completion queue is allocated. -/
def adm_check_cqid (P : NvmeH) (n : NVMEState) (cqid : Nat) : Nat :=
  if cqid ≥ P.NVME_MAX_QID then P.FAIL
  else if (n.cq cqid).dma_addr ≠ 0 ∧ (n.cq cqid).id = cqid then 0
  else P.FAIL

/-- C function `adm_check_sqid`: 0 when the submission queue is allocated. -/
def adm_check_sqid (P : NvmeH) (n : NVMEState) (sqid : Nat) : Nat :=
  if sqid ≥ P.NVME_MAX_QID then P.FAIL
  else if (n.sq sqid).dma_addr ≠ 0 ∧ (n.sq sqid).id = sqid then 0
  else P.FAIL

/-- C function `adm_get_sq`: the index, or `NVME_MAX_QID` when not allocated. -/
def adm_get_sq (P : NvmeH) (n : NVMEState) (sqid : Nat) : Nat :=
  if sqid ≥ P.NVME_MAX_QID then P.NVME_MAX_QID
  else if (n.sq sqid).dma_addr ≠ 0 ∧ (n.sq sqid).id = sqid then sqid
  else P.NVME_MAX_QID

/-- C function `adm_get_cq`: the index, or `NVME_MAX_QID` when not allocated. -/
def adm_get_cq (P : NvmeH) (n : NVMEState) (cqid : Nat) : Nat :=
  if cqid ≥ P.NVME_MAX_QID then P.NVME_MAX_QID
  else if (n.cq cqid).dma_addr ≠ 0 ∧ (n.cq cqid).id = cqid then cqid
  else P.NVME_MAX_QID

/-! ## Queue handlers -/

/-- Decrement `usage_cnt--` of an unsigned counter of `usage_cnt_bits` bits. -/
def usage_dec (P : NvmeH) (v : Nat) : Nat :=
  (v + 2 ^ P.usage_cnt_bits - 1) % 2 ^ P.usage_cnt_bits

/-- Increment `usage_cnt++` of an unsigned counter of `usage_cnt_bits` bits. -/
def usage_inc (P : NvmeH) (v : Nat) : Nat :=
  (v + 1) % 2 ^ P.usage_cnt_bits

/-- The assignments at the end of `adm_cmd_del_sq` (lines 183-188). -/
def sq_reset (P : NvmeH) (sq : NVMEIOSQueue) : NVMEIOSQueue :=
  { sq with id := P.NVME_MAX_QID, cq_id := P.NVME_MAX_QID, head := 0, tail := 0,
            size := 0, prio := 0, phys_contig := 0, dma_addr := 0 }

/-- The assignments at the end of `adm_cmd_del_cq` (lines 350-356). -/
def cq_reset (P : NvmeH) (cq : NVMEIOCQueue) : NVMEIOCQueue :=
  { cq with id := P.NVME_MAX_QID, head := 0, tail := 0, size := 0, irq_enabled := 0,
            vector := 0, dma_addr := 0, phys_contig := 0 }

/-- C function `adm_cmd_del_sq`.  The controller pointer `n` is never null here. -/
def adm_cmd_del_sq (P : NvmeH) (n : NVMEState) (cmd : NVMECmd) (cqe : NVMECQE) :
    Option Res :=
  let cqe := { cqe with sc := P.NVME_SC_SUCCESS }
  if cmd.opcode ≠ P.NVME_ADM_CMD_DELETE_SQ then
    some ⟨n, { cqe with sc := P.NVME_SC_INVALID_OPCODE }, P.FAIL, []⟩
  else if cmd.qid = 0 ∨ cmd.qid > P.NVME_MAX_QID then
    some ⟨n, { cqe with sct := P.NVME_SCT_CMD_SPEC_ERR,
                        sc := P.NVME_INVALID_QUEUE_IDENTIFIER }, P.FAIL, []⟩
  else if cmd.nsid ≠ 0 then
    some ⟨n, { cqe with sc := P.NVME_SC_INVALID_NAMESPACE }, P.FAIL, []⟩
  else
    let i := adm_get_sq P n cmd.qid
    if i = P.NVME_MAX_QID then
      some ⟨n, { cqe with sct := P.NVME_SCT_CMD_SPEC_ERR,
                          sc := P.NVME_INVALID_QUEUE_IDENTIFIER }, P.FAIL, []⟩
    else
      let sq := n.sq i
      if sq.cq_id ≠ P.NVME_MAX_QID then
        if sq.cq_id > P.NVME_MAX_QID then none -- `n->cq[sq->cq_id]` is outside the table
        else
          let cq := n.cq sq.cq_id
          if cq.id = P.NVME_MAX_QID then
            some ⟨n, { cqe with sct := P.NVME_SCT_CMD_SPEC_ERR,
                                sc := P.NVME_INVALID_QUEUE_IDENTIFIER }, P.FAIL, []⟩
          else
            let cq1 : NVMEIOCQueue := { cq with usage_cnt := usage_dec P cq.usage_cnt }
            let n1 := { n with cq := arr_set n.cq sq.cq_id cq1 }
            some ⟨{ n1 with sq := arr_set n1.sq i (sq_reset P sq) }, cqe, 0, []⟩
      else
        some ⟨{ n with sq := arr_set n.sq i (sq_reset P sq) }, cqe, 0, []⟩

/-- Lines 276-289 of `adm_cmd_alloc_sq`: the descriptor is filled in and the
linked completion queue, found again with `adm_get_cq`, counts one more user. -/
def alloc_sq_commit (P : NvmeH) (n : NVMEState) (cmd : NVMECmd) : Option NVMEState :=
  let sq : NVMEIOSQueue :=
    { n.sq cmd.qid with id := cmd.qid, size := cmd.qsize, phys_contig := cmd.pc,
                        cq_id := cmd.cqid, prio := cmd.qprio, dma_addr := cmd.prp1 }
  let n1 := { n with sq := arr_set n.sq cmd.qid sq }
  let k := adm_get_cq P n1 cmd.cqid
  if k ≥ P.NVME_MAX_QID then none -- `n->cq[NVME_MAX_QID]` is outside the table
  else
    let cq : NVMEIOCQueue := { n1.cq k with usage_cnt := usage_inc P (n1.cq k).usage_cnt }
    some { n1 with cq := arr_set n1.cq k cq }

/-- C function `adm_cmd_alloc_sq`. -/
def adm_cmd_alloc_sq (P : NvmeH) (n : NVMEState) (cmd : NVMECmd) (cqe : NVMECQE) :
    Option Res :=
  let cqe := { cqe with sc := P.NVME_SC_SUCCESS }
  if cmd.opcode ≠ P.NVME_ADM_CMD_CREATE_SQ then
    some ⟨n, { cqe with sc := P.NVME_SC_INVALID_OPCODE }, P.FAIL, []⟩
  else if cmd.qid = 0 ∨ cmd.qid ≥ P.NVME_MAX_QID then
    some ⟨n, { cqe with sct := P.NVME_SCT_CMD_SPEC_ERR,
                        sc := P.NVME_INVALID_QUEUE_IDENTIFIER }, P.FAIL, []⟩
  else if cmd.cqid = 0 then
    some ⟨n, { cqe with sct := P.NVME_SCT_CMD_SPEC_ERR,
                        sc := P.NVME_COMPLETION_QUEUE_INVALID }, P.FAIL, []⟩
  else if cmd.nsid ≠ 0 then
    some ⟨n, { cqe with sc := P.NVME_SC_INVALID_NAMESPACE }, P.FAIL, []⟩
  else if adm_check_sqid P n cmd.qid = 0 then
    some ⟨n, { cqe with sct := P.NVME_SCT_CMD_SPEC_ERR,
                        sc := P.NVME_INVALID_QUEUE_IDENTIFIER }, P.FAIL, []⟩
  else if adm_check_cqid P n cmd.cqid ≠ 0 then
    some ⟨n, { cqe with sct := P.NVME_SCT_CMD_SPEC_ERR,
                        sc := P.NVME_COMPLETION_QUEUE_INVALID }, P.FAIL, []⟩
  else if cmd.qsize > n.cntrl_reg_mqes + 1 then
    some ⟨n, { cqe with sct := P.NVME_SCT_CMD_SPEC_ERR,
                        sc := P.NVME_MAX_QUEUE_SIZE_EXCEEDED }, P.FAIL, []⟩
  else if cmd.pc = 0 ∧ n.cntrl_reg_cqr % 2 ≠ 0 then
    some ⟨n, { cqe with sc := P.NVME_SC_INVALID_FIELD }, P.FAIL, []⟩
  else if cmd.prp1 = 0 then
    some ⟨n, { cqe with sc := P.NVME_SC_INVALID_FIELD }, P.FAIL, []⟩
  else
    match alloc_sq_commit P n cmd with
    | none => none
    | some n2 => some ⟨n2, cqe, 0, []⟩

/-- C function `adm_cmd_del_cq`. -/
def adm_cmd_del_cq (P : NvmeH) (n : NVMEState) (cmd : NVMECmd) (cqe : NVMECQE) :
    Option Res :=
  let cqe := { cqe with sc := P.NVME_SC_SUCCESS }
  if cmd.opcode ≠ P.NVME_ADM_CMD_DELETE_CQ then
    some ⟨n, { cqe with sc := P.NVME_SC_INVALID_OPCODE }, P.FAIL, []⟩
  else if cmd.qid = 0 ∨ cmd.qid > P.NVME_MAX_QID then
    some ⟨n, { cqe with sct := P.NVME_SCT_CMD_SPEC_ERR,
                        sc := P.NVME_INVALID_QUEUE_IDENTIFIER }, P.FAIL, []⟩
  else if cmd.nsid ≠ 0 then
    some ⟨n, { cqe with sc := P.NVME_SC_INVALID_NAMESPACE }, P.FAIL, []⟩
  else
    let i := adm_get_cq P n cmd.qid
    if i = P.NVME_MAX_QID then
      some ⟨n, { cqe with sct := P.NVME_SCT_CMD_SPEC_ERR,
                          sc := P.NVME_INVALID_QUEUE_IDENTIFIER }, P.FAIL, []⟩
    else
      let cq := n.cq i
      if cq.usage_cnt ≠ 0 then
        some ⟨n, { cqe with sc := P.NVME_SC_INVALID_FIELD }, P.NVME_SC_INVALID_FIELD, []⟩
      else
        some ⟨{ n with cq := arr_set n.cq i (cq_reset P cq) }, cqe, 0, []⟩

/-- C function `adm_cmd_alloc_cq`.  The vector test compares as C `int`. -/
def adm_cmd_alloc_cq (P : NvmeH) (n : NVMEState) (cmd : NVMECmd) (cqe : NVMECQE) :
    Option Res :=
  let cqe := { cqe with sc := P.NVME_SC_SUCCESS }
  if cmd.opcode ≠ P.NVME_ADM_CMD_CREATE_CQ then
    some ⟨n, { cqe with sc := P.NVME_SC_INVALID_OPCODE }, P.FAIL, []⟩
  else if cmd.qid = 0 ∨ cmd.qid ≥ P.NVME_MAX_QID then
    some ⟨n, { cqe with sct := P.NVME_SCT_CMD_SPEC_ERR,
                        sc := P.NVME_INVALID_QUEUE_IDENTIFIER }, P.FAIL, []⟩
  else if cmd.nsid ≠ 0 then
    some ⟨n, { cqe with sc := P.NVME_SC_INVALID_NAMESPACE }, P.FAIL, []⟩
  else if adm_check_cqid P n cmd.qid = 0 then
    some ⟨n, { cqe with sct := P.NVME_SCT_CMD_SPEC_ERR,
                        sc := P.NVME_INVALID_QUEUE_IDENTIFIER }, P.FAIL, []⟩
  else if cmd.qsize > n.cntrl_reg_mqes + 1 then
    some ⟨n, { cqe with sct := P.NVME_SCT_CMD_SPEC_ERR,
                        sc := P.NVME_MAX_QUEUE_SIZE_EXCEEDED }, P.FAIL, []⟩
  else if cmd.pc = 0 ∧ n.cntrl_reg_cqr % 2 ≠ 0 then
    some ⟨n, { cqe with sc := P.NVME_SC_INVALID_FIELD }, P.FAIL, []⟩
  else if cmd.prp1 = 0 then
    some ⟨n, { cqe with sc := P.NVME_SC_INVALID_FIELD }, P.FAIL, []⟩
  else if (cmd.iv : Int) > n.msix_entries_nr - 1 ∧ n.is_msix = true then
    some ⟨n, { cqe with sct := P.NVME_SCT_CMD_SPEC_ERR,
                        sc := P.NVME_INVALID_INTERRUPT_VECTOR }, P.FAIL, []⟩
  else
    let cq : NVMEIOCQueue :=
      { n.cq cmd.qid with id := cmd.qid, dma_addr := cmd.prp1, irq_enabled := cmd.ien,
                          vector := cmd.iv, phase_tag := 1, size := cmd.qsize,
                          phys_contig := cmd.pc }
    some ⟨{ n with cq := arr_set n.cq cmd.qid cq }, cqe, 0, []⟩

/-- C function `adm_cmd_get_log_page`. -/
def adm_cmd_get_log_page (P : NvmeH) (n : NVMEState) (cmd : NVMECmd) (cqe : NVMECQE) :
    Option Res :=
  let cqe := { cqe with sc := P.NVME_SC_SUCCESS }
  if cmd.opcode ≠ P.NVME_ADM_CMD_GET_LOG_PAGE then
    some ⟨n, { cqe with sc := P.NVME_SC_INVALID_OPCODE }, P.FAIL, []⟩
  else
    some ⟨n, cqe, 0, []⟩

/-! ## Identify -/

/-- C function `adm_cmd_id_ctrl`: `len` is a `uint32_t`, the length of the second
write is computed in `size_t`. -/
def adm_cmd_id_ctrl (P : NvmeH) (cmd : NVMECmd) : Nat × List DmaWrite :=
  let len := (P.PAGE_SIZE - cmd.prp1 % P.PAGE_SIZE) % 2 ^ 32
  let w1 : DmaWrite := ⟨cmd.prp1, IdSource.ctrl, 0, len⟩
  if len ≠ P.sizeof_idtfy_ctrl then
    (0, [w1, ⟨cmd.prp2, IdSource.ctrl, len, (P.sizeof_idtfy_ctrl + 2 ^ 64 - len) % 2 ^ 64⟩])
  else
    (0, [w1])

/-- C function `adm_cmd_id_ns`, copying from `n->disk[nsid - 1].idtfy_ns`. -/
def adm_cmd_id_ns (P : NvmeH) (cmd : NVMECmd) : Nat × List DmaWrite :=
  let len := (P.PAGE_SIZE - cmd.prp1 % P.PAGE_SIZE) % 2 ^ 32
  let w1 : DmaWrite := ⟨cmd.prp1, IdSource.ns (cmd.nsid - 1), 0, len⟩
  if len ≠ P.sizeof_idtfy_ns then
    (0, [w1, ⟨cmd.prp2, IdSource.ns (cmd.nsid - 1), len,
              (P.sizeof_idtfy_ns + 2 ^ 64 - len) % 2 ^ 64⟩])
  else
    (0, [w1])

/-- C function `adm_cmd_identify`. -/
def adm_cmd_identify (P : NvmeH) (n : NVMEState) (cmd : NVMECmd) (cqe : NVMECQE) :
    Option Res :=
  let cqe := { cqe with sc := P.NVME_SC_SUCCESS }
  if cmd.opcode ≠ P.NVME_ADM_CMD_IDENTIFY then
    some ⟨n, { cqe with sc := P.NVME_SC_INVALID_OPCODE }, P.FAIL, []⟩
  else if cmd.prp1 = 0 then
    some ⟨n, { cqe with sc := P.NVME_SC_INVALID_FIELD }, P.FAIL, []⟩
  else if cmd.cns = P.NVME_IDENTIFY_CONTROLLER then
    if cmd.nsid ≠ 0 then
      some ⟨n, { cqe with sc := P.NVME_SC_INVALID_NAMESPACE }, P.FAIL, []⟩
    else
      let r := adm_cmd_id_ctrl P cmd
      if r.1 % 256 ≠ 0 then some ⟨n, { cqe with sc := P.NVME_SC_INTERNAL }, 0, r.2⟩
      else some ⟨n, cqe, 0, r.2⟩
  else
    if cmd.nsid = 0 ∨ cmd.nsid > n.nn then
      some ⟨n, { cqe with sc := P.NVME_SC_INVALID_NAMESPACE }, P.FAIL, []⟩
    else
      let r := adm_cmd_id_ns P cmd
      if r.1 % 256 ≠ 0 then some ⟨n, { cqe with sc := P.NVME_SC_INTERNAL }, 0, r.2⟩
      else some ⟨n, cqe, 0, r.2⟩

/-! ## Abort -/

/-- The `for` loop of `adm_cmd_abort` (lines 614-618): starting at slot `i` with
`k` iterations left, the index of the first slot holding `NVME_EMPTY`, or the
index reached when the iterations are used up. -/
def abort_free_slot (P : NvmeH) (sq : NVMEIOSQueue) : Nat → Nat → Nat
  | 0, i => i
  | k + 1, i =>
    if sq.abort_cmd_id i = P.NVME_EMPTY then i else abort_free_slot P sq k (i + 1)

/-- The `while` loop of `adm_cmd_abort` (lines 628-643) from index `i`, a
`uint16_t`: `some true` when an entry with the wanted identifier was read,
`some false` when `tail` was reached, `none` when the fuel is spent. -/
def abort_scan (P : NvmeH) (mem : HostMem) (sq : NVMEIOSQueue) (cmdid : Nat) :
    Nat → Nat → Option Bool
  | 0, _ => none
  | fuel + 1, i =>
    if i = sq.tail then some false
    else if mem ((sq.dma_addr + i * P.sizeof_sqe) % 2 ^ 64) = cmdid then some true
    else
      let i1 := (i + 1) % 65536
      abort_scan P mem sq cmdid fuel (if i1 = sq.size then 0 else i1)

/-- C function `adm_cmd_abort`. -/
def adm_cmd_abort (P : NvmeH) (fuel : Nat) (mem : HostMem) (n : NVMEState) (cmd : NVMECmd)
    (cqe : NVMECQE) : Option Res :=
  let cqe := { cqe with sc := P.NVME_SC_SUCCESS }
  if cmd.opcode ≠ P.NVME_ADM_CMD_ABORT then
    some ⟨n, { cqe with sc := P.NVME_SC_INVALID_OPCODE }, P.FAIL, []⟩
  else if cmd.nsid ≠ 0 then
    some ⟨n, { cqe with sc := P.NVME_SC_INVALID_NAMESPACE }, P.FAIL, []⟩
  else if cmd.sqid ≥ P.NVME_MAX_QID then
    some ⟨n, { cqe with sc := P.NVME_SC_INVALID_FIELD }, P.FAIL, []⟩
  else if cmd.sqid = P.ASQ_ID then
    some ⟨n, { cqe with sct := P.NVME_SCT_CMD_SPEC_ERR,
                        sc := P.NVME_REQ_CMD_TO_ABORT_NOT_FOUND }, P.FAIL, []⟩
  else
    let i := adm_get_sq P n cmd.sqid
    if i = P.NVME_MAX_QID then
      some ⟨n, { cqe with sct := P.NVME_SCT_CMD_SPEC_ERR,
                          sc := P.NVME_REQ_CMD_TO_ABORT_NOT_FOUND }, P.FAIL, []⟩
    else if n.abort = P.NVME_ABORT_COMMAND_LIMIT then
      some ⟨n, { cqe with sct := P.NVME_SCT_CMD_SPEC_ERR,
                          sc := P.NVME_ABORT_CMD_LIMIT_EXCEEDED }, P.FAIL, []⟩
    else
      let sq := n.sq i
      let tmp := abort_free_slot P sq P.NVME_ABORT_COMMAND_LIMIT 0
      if tmp = P.NVME_ABORT_COMMAND_LIMIT then
        some ⟨n, { cqe with sct := P.NVME_SCT_CMD_SPEC_ERR,
                            sc := P.NVME_ABORT_CMD_LIMIT_EXCEEDED }, P.FAIL, []⟩
      else
        match abort_scan P mem sq cmd.cmdid fuel sq.head with
        | none => none -- the fuel is spent
        | some found =>
          let sq1 : NVMEIOSQueue :=
            { sq with abort_cmd_id := arr_set sq.abort_cmd_id tmp cmd.cmdid }
          let n1 : NVMEState :=
            if found = true then
              { n with sq := arr_set n.sq i sq1, abort := (n.abort + 1) % 2 ^ P.abort_bits }
            else n
          if (n1.sq i).abort_cmd_id tmp = P.NVME_EMPTY then
            some ⟨n1, { cqe with sct := P.NVME_SCT_CMD_SPEC_ERR,
                                 sc := P.NVME_REQ_CMD_TO_ABORT_NOT_FOUND }, P.FAIL, []⟩
          else
            some ⟨n1, cqe, 0, []⟩

/-! ## Features -/

/-- The body that the ten readable and writable cases of `do_features` share:
Set Features stores `cdw11` in the field of the feature table, any other opcode
copies the field into the result word of the completion entry. -/
def feature_access (P : NvmeH) (n : NVMEState) (cmd : NVMECmd) (cqe : NVMECQE)
    (get : NVMEFeatureVal → Nat) (put : NVMEFeatureVal → Nat → NVMEFeatureVal) : Option Res :=
  if cmd.opcode = P.NVME_ADM_CMD_SET_FEATURES then
    some ⟨{ n with feature := put n.feature cmd.cdw11 }, cqe, 0, []⟩
  else
    some ⟨n, { cqe with cmd_specific := get n.feature }, 0, []⟩

/-- C function `do_features`; the `switch` is the chain of tests below. -/
def do_features (P : NvmeH) (n : NVMEState) (cmd : NVMECmd) (cqe : NVMECQE) : Option Res :=
  let cqe := { cqe with sc := P.NVME_SC_SUCCESS }
  if cmd.fid = P.NVME_FEATURE_ARBITRATION then
    feature_access P n cmd cqe (fun f => f.arbitration)
      (fun f v => { f with arbitration := v })
  else if cmd.fid = P.NVME_FEATURE_POWER_MANAGEMENT then
    feature_access P n cmd cqe (fun f => f.power_management)
      (fun f v => { f with power_management := v })
  else if cmd.fid = P.NVME_FEATURE_LBA_RANGE_TYPE then
    some ⟨n, cqe, 0, []⟩
  else if cmd.fid = P.NVME_FEATURE_TEMPERATURE_THRESHOLD then
    feature_access P n cmd cqe (fun f => f.temperature_threshold)
      (fun f v => { f with temperature_threshold := v })
  else if cmd.fid = P.NVME_FEATURE_ERROR_RECOVERY then
    feature_access P n cmd cqe (fun f => f.error_recovery)
      (fun f v => { f with error_recovery := v })
  else if cmd.fid = P.NVME_FEATURE_VOLATILE_WRITE_CACHE then
    feature_access P n cmd cqe (fun f => f.volatile_write_cache)
      (fun f v => { f with volatile_write_cache := v })
  else if cmd.fid = P.NVME_FEATURE_NUMBER_OF_QUEUES then
    feature_access P n cmd cqe (fun f => f.number_of_queues)
      (fun f v => { f with number_of_queues := v })
  else if cmd.fid = P.NVME_FEATURE_INTERRUPT_COALESCING then
    feature_access P n cmd cqe (fun f => f.interrupt_coalescing)
      (fun f v => { f with interrupt_coalescing := v })
  else if cmd.fid = P.NVME_FEATURE_INTERRUPT_VECTOR_CONF then
    feature_access P n cmd cqe (fun f => f.interrupt_vector_configuration)
      (fun f v => { f with interrupt_vector_configuration := v })
  else if cmd.fid = P.NVME_FEATURE_WRITE_ATOMICITY then
    feature_access P n cmd cqe (fun f => f.write_atomicity)
      (fun f v => { f with write_atomicity := v })
  else if cmd.fid = P.NVME_FEATURE_ASYNCHRONOUS_EVENT_CONF then
    feature_access P n cmd cqe (fun f => f.asynchronous_event_configuration)
      (fun f v => { f with asynchronous_event_configuration := v })
  else if cmd.fid = P.NVME_FEATURE_SOFTWARE_PROGRESS_MARKER then
    if cmd.opcode = P.NVME_ADM_CMD_GET_FEATURES then
      some ⟨n, { cqe with cmd_specific := n.feature.software_progress_marker }, 0, []⟩
    else some ⟨n, cqe, 0, []⟩
  else
    some ⟨n, { cqe with sc := P.NVME_SC_INVALID_FIELD }, 0, []⟩

/-- C function `adm_cmd_set_features`. -/
def adm_cmd_set_features (P : NvmeH) (n : NVMEState) (cmd : NVMECmd) (cqe : NVMECQE) :
    Option Res :=
  if cmd.opcode ≠ P.NVME_ADM_CMD_SET_FEATURES then
    some ⟨n, { cqe with sc := P.NVME_SC_INVALID_OPCODE }, P.FAIL, []⟩
  else
    do_features P n cmd cqe

/-- C function `adm_cmd_get_features`. -/
def adm_cmd_get_features (P : NvmeH) (n : NVMEState) (cmd : NVMECmd) (cqe : NVMECQE) :
    Option Res :=
  if cmd.opcode ≠ P.NVME_ADM_CMD_GET_FEATURES then
    some ⟨n, { cqe with sc := P.NVME_SC_INVALID_OPCODE }, P.FAIL, []⟩
  else
    do_features P n cmd cqe

/-- C function `adm_cmd_async_ev_req`. -/
def adm_cmd_async_ev_req (P : NvmeH) (n : NVMEState) (cmd : NVMECmd) (cqe : NVMECQE) :
    Option Res :=
  let cqe := { cqe with sc := P.NVME_SC_SUCCESS }
  if cmd.opcode ≠ P.NVME_ADM_CMD_ASYNC_EV_REQ then
    some ⟨n, { cqe with sc := P.NVME_SC_INVALID_OPCODE }, P.FAIL, []⟩
  else
    some ⟨n, cqe, 0, []⟩

/-! ## Dispatcher -/

/-- The C type `adm_command_func`, with the fuel and the host memory that
`adm_cmd_abort` needs. -/
abbrev adm_command_func := Nat → HostMem → NVMEState → NVMECmd → NVMECQE → Option Res

/-- A non-null pointer stored in `adm_cmds_funcs`: the handler it points to. -/
inductive AdmFunc where
  | del_sq : AdmFunc
  | alloc_sq : AdmFunc
  | get_log_page : AdmFunc
  | del_cq : AdmFunc
  | alloc_cq : AdmFunc
  | identify : AdmFunc
  | abort : AdmFunc
  | set_features : AdmFunc
  | get_features : AdmFunc
  | async_ev_req : AdmFunc
deriving DecidableEq

/-- The call `f(n, sqe, cqe)` through a pointer of the table. -/
def AdmFunc.call (P : NvmeH) : AdmFunc → adm_command_func
  | AdmFunc.del_sq => fun _ _ => adm_cmd_del_sq P
  | AdmFunc.alloc_sq => fun _ _ => adm_cmd_alloc_sq P
  | AdmFunc.get_log_page => fun _ _ => adm_cmd_get_log_page P
  | AdmFunc.del_cq => fun _ _ => adm_cmd_del_cq P
  | AdmFunc.alloc_cq => fun _ _ => adm_cmd_alloc_cq P
  | AdmFunc.identify => fun _ _ => adm_cmd_identify P
  | AdmFunc.abort => adm_cmd_abort P
  | AdmFunc.set_features => fun _ _ => adm_cmd_set_features P
  | AdmFunc.get_features => fun _ _ => adm_cmd_get_features P
  | AdmFunc.async_ev_req => fun _ _ => adm_cmd_async_ev_req P

/-- The designated initialisers of the table `adm_cmds_funcs`, in source order. -/
def adm_cmds_funcs_init (P : NvmeH) : List (Nat × Option AdmFunc) :=
  [ (P.NVME_ADM_CMD_DELETE_SQ, some AdmFunc.del_sq),
    (P.NVME_ADM_CMD_CREATE_SQ, some AdmFunc.alloc_sq),
    (P.NVME_ADM_CMD_GET_LOG_PAGE, some AdmFunc.get_log_page),
    (P.NVME_ADM_CMD_DELETE_CQ, some AdmFunc.del_cq),
    (P.NVME_ADM_CMD_CREATE_CQ, some AdmFunc.alloc_cq),
    (P.NVME_ADM_CMD_IDENTIFY, some AdmFunc.identify),
    (P.NVME_ADM_CMD_ABORT, some AdmFunc.abort),
    (P.NVME_ADM_CMD_SET_FEATURES, some AdmFunc.set_features),
    (P.NVME_ADM_CMD_GET_FEATURES, some AdmFunc.get_features),
    (P.NVME_ADM_CMD_ASYNC_EV_REQ, some AdmFunc.async_ev_req),
    (P.NVME_ADM_CMD_LAST, none) ]

/-- The table `adm_cmds_funcs` read at an index: the elements start as null
pointers (`none`) and each initialiser, in order, assigns the element that it
designates. -/
def adm_cmds_funcs (P : NvmeH) (op : Nat) : Option AdmFunc :=
  (adm_cmds_funcs_init P).foldl (fun acc e => if e.1 = op then e.2 else acc) none

/-- The handler that `nvme_admin_command` calls, by the test of lines 61-62:
none when the opcode is at least `NVME_ADM_CMD_LAST` or the table element is the
null pointer. -/
def adm_dispatch (P : NvmeH) (sqe : NVMECmd) : Option AdmFunc :=
  if sqe.opcode ≥ P.NVME_ADM_CMD_LAST then none else adm_cmds_funcs P sqe.opcode

/-- C function `nvme_admin_command`; the returned value is a `uint8_t`. -/
def nvme_admin_command (P : NvmeH) (fuel : Nat) (mem : HostMem) (n : NVMEState)
    (sqe : NVMECmd) (cqe : NVMECQE) : Option Res :=
  match adm_dispatch P sqe with
  | none =>
    some ⟨n, { cqe with sc := P.NVME_SC_INVALID_OPCODE }, P.NVME_SC_DATA_XFER_ERROR % 256, []⟩
  | some f =>
    match f.call P fuel mem n sqe cqe with
    | none => none
    | some r => some { r with ret := r.ret % 256 }

/-! ## Allocation predicates and success states -/

/-- A submission queue slot is allocated: its base address is non-zero and its
stored identifier is its index (the test of `adm_check_sqid`). -/
abbrev sq_allocated (n : NVMEState) (i : Nat) : Prop :=
  (n.sq i).dma_addr ≠ 0 ∧ (n.sq i).id = i

/-- A completion queue slot is allocated (the test of `adm_check_cqid`). -/
abbrev cq_allocated (n : NVMEState) (k : Nat) : Prop :=
  (n.cq k).dma_addr ≠ 0 ∧ (n.cq k).id = k

/-- The state that `adm_cmd_alloc_sq` leaves when every check passes. -/
def alloc_sq_state (P : NvmeH) (n : NVMEState) (cmd : NVMECmd) : NVMEState :=
  { n with
    sq := arr_set n.sq cmd.qid
      { n.sq cmd.qid with id := cmd.qid, size := cmd.qsize, phys_contig := cmd.pc,
                          cq_id := cmd.cqid, prio := cmd.qprio, dma_addr := cmd.prp1 },
    cq := arr_set n.cq cmd.cqid
      { n.cq cmd.cqid with usage_cnt := usage_inc P (n.cq cmd.cqid).usage_cnt } }

/-- The checks of `adm_cmd_alloc_sq`, all passed. -/
def alloc_sq_ok (P : NvmeH) (n : NVMEState) (cmd : NVMECmd) : Prop :=
  cmd.opcode = P.NVME_ADM_CMD_CREATE_SQ ∧ cmd.qid ≠ 0 ∧ cmd.qid < P.NVME_MAX_QID ∧
  cmd.cqid ≠ 0 ∧ cmd.nsid = 0 ∧ ¬ sq_allocated n cmd.qid ∧
  cmd.cqid < P.NVME_MAX_QID ∧ cq_allocated n cmd.cqid ∧
  cmd.qsize ≤ n.cntrl_reg_mqes + 1 ∧ ¬ (cmd.pc = 0 ∧ n.cntrl_reg_cqr % 2 ≠ 0) ∧ cmd.prp1 ≠ 0

/-- The state that `adm_cmd_alloc_cq` leaves when every check passes. -/
def alloc_cq_state (n : NVMEState) (cmd : NVMECmd) : NVMEState :=
  { n with
    cq := arr_set n.cq cmd.qid
      { n.cq cmd.qid with id := cmd.qid, dma_addr := cmd.prp1, irq_enabled := cmd.ien,
                          vector := cmd.iv, phase_tag := 1, size := cmd.qsize,
                          phys_contig := cmd.pc } }

/-- The checks of `adm_cmd_alloc_cq`, all passed. -/
def alloc_cq_ok (P : NvmeH) (n : NVMEState) (cmd : NVMECmd) : Prop :=
  cmd.opcode = P.NVME_ADM_CMD_CREATE_CQ ∧ cmd.qid ≠ 0 ∧ cmd.qid < P.NVME_MAX_QID ∧
  cmd.nsid = 0 ∧ ¬ cq_allocated n cmd.qid ∧ cmd.qsize ≤ n.cntrl_reg_mqes + 1 ∧
  ¬ (cmd.pc = 0 ∧ n.cntrl_reg_cqr % 2 ≠ 0) ∧ cmd.prp1 ≠ 0 ∧
  ¬ ((cmd.iv : Int) > n.msix_entries_nr - 1 ∧ n.is_msix = true)

/-- The state that `adm_cmd_del_sq` leaves when it deletes slot `i`: the linked
completion queue, if there is one, counts one user less, and the slot is reset. -/
def del_sq_state (P : NvmeH) (n : NVMEState) (i : Nat) : NVMEState :=
  if (n.sq i).cq_id ≠ P.NVME_MAX_QID then
    { n with
      cq := arr_set n.cq (n.sq i).cq_id
        { n.cq (n.sq i).cq_id with
          usage_cnt := usage_dec P (n.cq (n.sq i).cq_id).usage_cnt },
      sq := arr_set n.sq i (sq_reset P (n.sq i)) }
  else
    { n with sq := arr_set n.sq i (sq_reset P (n.sq i)) }

/-- The checks of `adm_cmd_del_sq`, all passed. -/
def del_sq_ok (P : NvmeH) (n : NVMEState) (cmd : NVMECmd) : Prop :=
  cmd.opcode = P.NVME_ADM_CMD_DELETE_SQ ∧ cmd.qid ≠ 0 ∧ cmd.qid < P.NVME_MAX_QID ∧
  cmd.nsid = 0 ∧ sq_allocated n cmd.qid ∧
  ((n.sq cmd.qid).cq_id ≠ P.NVME_MAX_QID →
    (n.sq cmd.qid).cq_id < P.NVME_MAX_QID ∧
    (n.cq (n.sq cmd.qid).cq_id).id ≠ P.NVME_MAX_QID)

/-- The state that `adm_cmd_del_cq` leaves when it deletes slot `k`. -/
def del_cq_state (P : NvmeH) (n : NVMEState) (k : Nat) : NVMEState :=
  { n with cq := arr_set n.cq k (cq_reset P (n.cq k)) }

/-- The checks of `adm_cmd_del_cq`, all passed. -/
def del_cq_ok (P : NvmeH) (n : NVMEState) (cmd : NVMECmd) : Prop :=
  cmd.opcode = P.NVME_ADM_CMD_DELETE_CQ ∧ cmd.qid ≠ 0 ∧ cmd.qid < P.NVME_MAX_QID ∧
  cmd.nsid = 0 ∧ cq_allocated n cmd.qid ∧ (n.cq cmd.qid).usage_cnt = 0

/-- The state that `adm_cmd_abort` leaves when the entry is found: slot `tmp` of
submission queue `i` records the command identifier and the counter `n->abort`
is incremented. -/
def abort_state (P : NvmeH) (n : NVMEState) (i tmp cmdid : Nat) : NVMEState :=
  { n with
    sq := arr_set n.sq i
      { n.sq i with abort_cmd_id := arr_set (n.sq i).abort_cmd_id tmp cmdid },
    abort := (n.abort + 1) % 2 ^ P.abort_bits }

/-! ## Reachable states and the queue-link invariant -/

/-- States reached from `n0` by admin commands, one call of `nvme_admin_command`
after the other.  Host memory, the completion entry handed in and the fuel are
arbitrary at each call; the command identifier to abort is a 16-bit field. -/
inductive Reachable (P : NvmeH) (n0 : NVMEState) : NVMEState → Prop
  | init : Reachable P n0 n0
  | step (n : NVMEState) (fuel : Nat) (mem : HostMem) (sqe : NVMECmd) (cqe : NVMECQE)
      (r : Res) : Reachable P n0 n → sqe.cmdid < 65536 →
      nvme_admin_command P fuel mem n sqe cqe = some r → Reachable P n0 r.n

/-- Number of allocated I/O submission queues (index in `[1, NVME_MAX_QID)`)
whose linked completion queue identifier is `k`. -/
def sq_link_count (P : NvmeH) (n : NVMEState) (k : Nat) : Nat :=
  ((Finset.range P.NVME_MAX_QID).filter
    (fun i => 1 ≤ i ∧ sq_allocated n i ∧ (n.sq i).cq_id = k)).card

/-- Number of allocated submission queues of the whole table, slot 0 (the admin
queue) included, whose linked completion queue identifier is `k`. -/
def sq_count_all (P : NvmeH) (n : NVMEState) (k : Nat) : Nat :=
  ((Finset.range P.NVME_MAX_QID).filter
    (fun i => sq_allocated n i ∧ (n.sq i).cq_id = k)).card

/-- No I/O queue is allocated and every I/O completion queue has usage
counter 0. -/
def io_idle (P : NvmeH) (n : NVMEState) : Prop :=
  (∀ i, 1 ≤ i → i < P.NVME_MAX_QID → ¬ sq_allocated n i) ∧
  (∀ k, 1 ≤ k → k < P.NVME_MAX_QID → ¬ cq_allocated n k ∧ (n.cq k).usage_cnt = 0)

/-- The queue-link invariant: every I/O usage counter is the number of allocated
I/O submission queues linked to that completion queue, and every allocated I/O
submission queue is linked to an allocated I/O completion queue. -/
def queue_link_inv (P : NvmeH) (n : NVMEState) : Prop :=
  (∀ k, 1 ≤ k → k < P.NVME_MAX_QID → (n.cq k).usage_cnt = sq_link_count P n k) ∧
  (∀ i, 1 ≤ i → i < P.NVME_MAX_QID → sq_allocated n i →
    1 ≤ (n.sq i).cq_id ∧ (n.sq i).cq_id < P.NVME_MAX_QID ∧ cq_allocated n (n.sq i).cq_id)

/-! ## The abort registry -/

/-- Number of abort slots of a submission queue that do not hold `NVME_EMPTY`. -/
def abort_slot_count (P : NvmeH) (sq : NVMEIOSQueue) : Nat :=
  ((Finset.range P.NVME_ABORT_COMMAND_LIMIT).filter
    (fun j => sq.abort_cmd_id j ≠ P.NVME_EMPTY)).card

/-- Number of non-empty abort slots, summed over the whole SQ table. -/
def abort_total (P : NvmeH) (n : NVMEState) : Nat :=
  Finset.sum (Finset.range P.NVME_MAX_QID) (fun q => abort_slot_count P (n.sq q))

/-- Number of non-empty abort slots, summed over the allocated submission
queues only. -/
def abort_total_allocated (P : NvmeH) (n : NVMEState) : Nat :=
  Finset.sum ((Finset.range P.NVME_MAX_QID).filter (fun q => sq_allocated n q))
    (fun q => abort_slot_count P (n.sq q))

/-- Every abort slot is empty and the global abort counter is 0. -/
def abort_idle (P : NvmeH) (n : NVMEState) : Prop :=
  (∀ q j, q < P.NVME_MAX_QID → j < P.NVME_ABORT_COMMAND_LIMIT →
    (n.sq q).abort_cmd_id j = P.NVME_EMPTY) ∧ n.abort = 0

/-- The abort-limit invariant: the non-empty abort slots are as many as the
global counter says, and at most `NVME_ABORT_COMMAND_LIMIT`. -/
def abort_inv (P : NvmeH) (n : NVMEState) : Prop :=
  abort_total P n = n.abort ∧ n.abort ≤ P.NVME_ABORT_COMMAND_LIMIT

/-- States reached from `n0` by admin commands, with the number of Abort
commands accepted on the way: a call of `nvme_admin_command` that is dispatched
to `adm_cmd_abort` and returns 0 there counts, every other call does not. -/
inductive AbortsAccepted (P : NvmeH) (n0 : NVMEState) : Nat → NVMEState → Prop
  | init : AbortsAccepted P n0 0 n0
  | accepted (n : NVMEState) (k fuel : Nat) (mem : HostMem) (sqe : NVMECmd) (cqe : NVMECQE)
      (r : Res) : AbortsAccepted P n0 k n → sqe.cmdid < 65536 →
      adm_dispatch P sqe = some AdmFunc.abort →
      adm_cmd_abort P fuel mem n sqe cqe = some r → r.ret = 0 →
      AbortsAccepted P n0 (k + 1) r.n
  | other (n : NVMEState) (k fuel : Nat) (mem : HostMem) (sqe : NVMECmd) (cqe : NVMECQE)
      (r : Res) : AbortsAccepted P n0 k n → sqe.cmdid < 65536 →
      nvme_admin_command P fuel mem n sqe cqe = some r →
      ¬ (adm_dispatch P sqe = some AdmFunc.abort ∧
          ∃ r0, adm_cmd_abort P fuel mem n sqe cqe = some r0 ∧ r0.ret = 0) →
      AbortsAccepted P n0 k r.n

/-- The circular range of a queue of `size` entries from `head` up to, but not
including, `tail`: the entries between the cursors, wrapping at `size`. -/
abbrev in_circ_range (size head tail i : Nat) : Prop :=
  if head ≤ tail then head ≤ i ∧ i < tail else (head ≤ i ∧ i < size) ∨ i < tail

/-- The command identifier that `adm_cmd_abort` reads for entry `i` of a
submission queue. -/
def sq_entry_cid (P : NvmeH) (mem : HostMem) (sq : NVMEIOSQueue) (i : Nat) : Nat :=
  mem ((sq.dma_addr + i * P.sizeof_sqe) % 2 ^ 64)

/-- The indices whose entry the `while` loop of `adm_cmd_abort` (lines 628-643)
reads, in order, from index `i`: the loop of `abort_scan`, returning the reads
in place of the outcome; `none` when the fuel is spent. -/
def abort_scan_reads (P : NvmeH) (mem : HostMem) (sq : NVMEIOSQueue) (cmdid : Nat) :
    Nat → Nat → Option (List Nat)
  | 0, _ => none
  | fuel + 1, i =>
    if i = sq.tail then some []
    else if mem ((sq.dma_addr + i * P.sizeof_sqe) % 2 ^ 64) = cmdid then some [i]
    else
      let i1 := (i + 1) % 65536
      (abort_scan_reads P mem sq cmdid fuel (if i1 = sq.size then 0 else i1)).map
        (fun l => i :: l)

/-! ## Two runs on different completion entries -/

/-- Two outcomes of one call made with the completion entries `c1` and `c2`
agree in all but what the call leaves untouched in the entry: both are absent,
or both are present with the same state, returned value, DMA writes and status
code, and with the status code type either set to `NVME_SCT_CMD_SPEC_ERR` in
both or left as it came in (that of `c1`, that of `c2`) in both. -/
def status_rel (P : NvmeH) (c1 c2 : NVMECQE) (o1 o2 : Option Res) : Prop :=
  (o1 = none ∧ o2 = none) ∨
  ∃ r1 r2, o1 = some r1 ∧ o2 = some r2 ∧ r1.n = r2.n ∧ r1.ret = r2.ret ∧
    r1.writes = r2.writes ∧ r1.cqe.sc = r2.cqe.sc ∧
    ((r1.cqe.sct = P.NVME_SCT_CMD_SPEC_ERR ∧ r2.cqe.sct = P.NVME_SCT_CMD_SPEC_ERR) ∨
      (r1.cqe.sct = c1.sct ∧ r2.cqe.sct = c2.sct))

/-! ## The feature table -/

/-- The case labels of the `switch` of `do_features`, in source order. -/
def feature_ids (P : NvmeH) : List Nat :=
  [ P.NVME_FEATURE_ARBITRATION, P.NVME_FEATURE_POWER_MANAGEMENT,
    P.NVME_FEATURE_LBA_RANGE_TYPE, P.NVME_FEATURE_TEMPERATURE_THRESHOLD,
    P.NVME_FEATURE_ERROR_RECOVERY, P.NVME_FEATURE_VOLATILE_WRITE_CACHE,
    P.NVME_FEATURE_NUMBER_OF_QUEUES, P.NVME_FEATURE_INTERRUPT_COALESCING,
    P.NVME_FEATURE_INTERRUPT_VECTOR_CONF, P.NVME_FEATURE_WRITE_ATOMICITY,
    P.NVME_FEATURE_ASYNCHRONOUS_EVENT_CONF, P.NVME_FEATURE_SOFTWARE_PROGRESS_MARKER ]

/-- The ten cases of `do_features` that store on Set Features and load
otherwise. -/
inductive FeatureId where
  | arbitration : FeatureId
  | power_management : FeatureId
  | temperature_threshold : FeatureId
  | error_recovery : FeatureId
  | volatile_write_cache : FeatureId
  | number_of_queues : FeatureId
  | interrupt_coalescing : FeatureId
  | interrupt_vector_configuration : FeatureId
  | write_atomicity : FeatureId
  | asynchronous_event_configuration : FeatureId
deriving DecidableEq

/-- The case label of a readable and writable feature. -/
def FeatureId.fid (P : NvmeH) : FeatureId → Nat
  | FeatureId.arbitration => P.NVME_FEATURE_ARBITRATION
  | FeatureId.power_management => P.NVME_FEATURE_POWER_MANAGEMENT
  | FeatureId.temperature_threshold => P.NVME_FEATURE_TEMPERATURE_THRESHOLD
  | FeatureId.error_recovery => P.NVME_FEATURE_ERROR_RECOVERY
  | FeatureId.volatile_write_cache => P.NVME_FEATURE_VOLATILE_WRITE_CACHE
  | FeatureId.number_of_queues => P.NVME_FEATURE_NUMBER_OF_QUEUES
  | FeatureId.interrupt_coalescing => P.NVME_FEATURE_INTERRUPT_COALESCING
  | FeatureId.interrupt_vector_configuration => P.NVME_FEATURE_INTERRUPT_VECTOR_CONF
  | FeatureId.write_atomicity => P.NVME_FEATURE_WRITE_ATOMICITY
  | FeatureId.asynchronous_event_configuration => P.NVME_FEATURE_ASYNCHRONOUS_EVENT_CONF

/-- The field of `n->feature` that the case of a feature reads. -/
def FeatureId.load : FeatureId → NVMEFeatureVal → Nat
  | FeatureId.arbitration => fun f => f.arbitration
  | FeatureId.power_management => fun f => f.power_management
  | FeatureId.temperature_threshold => fun f => f.temperature_threshold
  | FeatureId.error_recovery => fun f => f.error_recovery
  | FeatureId.volatile_write_cache => fun f => f.volatile_write_cache
  | FeatureId.number_of_queues => fun f => f.number_of_queues
  | FeatureId.interrupt_coalescing => fun f => f.interrupt_coalescing
  | FeatureId.interrupt_vector_configuration => fun f => f.interrupt_vector_configuration
  | FeatureId.write_atomicity => fun f => f.write_atomicity
  | FeatureId.asynchronous_event_configuration => fun f => f.asynchronous_event_configuration

/-- The assignment to the field of `n->feature` in the case of a feature. -/
def FeatureId.store : FeatureId → NVMEFeatureVal → Nat → NVMEFeatureVal
  | FeatureId.arbitration => fun f v => { f with arbitration := v }
  | FeatureId.power_management => fun f v => { f with power_management := v }
  | FeatureId.temperature_threshold => fun f v => { f with temperature_threshold := v }
  | FeatureId.error_recovery => fun f v => { f with error_recovery := v }
  | FeatureId.volatile_write_cache => fun f v => { f with volatile_write_cache := v }
  | FeatureId.number_of_queues => fun f v => { f with number_of_queues := v }
  | FeatureId.interrupt_coalescing => fun f v => { f with interrupt_coalescing := v }
  | FeatureId.interrupt_vector_configuration =>
    fun f v => { f with interrupt_vector_configuration := v }
  | FeatureId.write_atomicity => fun f v => { f with write_atomicity := v }
  | FeatureId.asynchronous_event_configuration =>
    fun f v => { f with asynchronous_event_configuration := v }

/-! ## The identify copy -/

/-- The copy of a descriptor of `S` bytes that the specification describes,
said of a list of writes: with `first` the bytes from `prp1` to the end of its
page, the first write puts the `first` leading bytes at `prp1` and stays in the
page, a second write puts the `S - first` bytes that follow at `prp2` exactly
when `first` is less than `S`, the lengths add up to `S`, and no write is
longer than `S`. -/
def identify_copy_ok (page S : Nat) (src : IdSource) (prp1 prp2 : Nat)
    (ws : List DmaWrite) : Prop :=
  prp1 % page + (page - prp1 % page) ≤ page ∧
  ws = (if page - prp1 % page < S then
          [⟨prp1, src, 0, page - prp1 % page⟩,
           ⟨prp2, src, page - prp1 % page, S - (page - prp1 % page)⟩]
        else [⟨prp1, src, 0, page - prp1 % page⟩]) ∧
  (ws.map DmaWrite.len).sum = S ∧ ∀ w ∈ ws, w.len ≤ S

/-! ## Concrete states used in examples -/

/-- A submission queue descriptor with every field zero. -/
def sq_zero : NVMEIOSQueue := ⟨0, 0, 0, 0, 0, 0, 0, 0, fun _ => 0⟩

/-- A completion queue descriptor with every field zero. -/
def cq_zero : NVMEIOCQueue := ⟨0, 0, 0, 0, 0, 0, 0, 0, 0, 0⟩

/-- A controller whose queue tables are zeroed: MQES 1023, CQR set, eight
MSI-X vectors in use, one namespace. -/
def state_zero : NVMEState :=
  { sq := fun _ => sq_zero, cq := fun _ => cq_zero,
    feature := ⟨0, 0, 0, 0, 0, 0, 0, 0, 0, 0, 0⟩, abort := 0,
    cntrl_reg_mqes := 1023, cntrl_reg_cqr := 1, msix_entries_nr := 8, is_msix := true,
    nn := 1 }

/-- A command with every field zero. -/
def cmd_zero : NVMECmd := ⟨0, 0, 0, 0, 0, 0, 0, 0, 0, 0, 0, 0, 0, 0, 0, 0, 0⟩

/-- A completion entry with every field zero. -/
def cqe_zero : NVMECQE := ⟨0, 0, 0⟩

/-- An allocated completion queue descriptor with identifier `k` and the given
usage counter. -/
def cq_live (k usage : Nat) : NVMEIOCQueue :=
  { cq_zero with id := k, usage_cnt := usage, dma_addr := 0x2000, phase_tag := 1, size := 16 }

/-- An allocated submission queue descriptor with identifier `i`, linked to the
completion queue `k`. -/
def sq_live (i k : Nat) : NVMEIOSQueue :=
  { sq_zero with id := i, cq_id := k, dma_addr := 0x1000, size := 16 }

/-- A Create SQ command for queue `qid` linked to completion queue `cqid`. -/
def cmd_create_sq (qid cqid : Nat) : NVMECmd :=
  { cmd_zero with opcode := nvme_h.NVME_ADM_CMD_CREATE_SQ, qid := qid, cqid := cqid,
                  qsize := 16, pc := 1, prp1 := 0x1000 }

/-- A Create CQ command for queue `qid`. -/
def cmd_create_cq (qid : Nat) : NVMECmd :=
  { cmd_zero with opcode := nvme_h.NVME_ADM_CMD_CREATE_CQ, qid := qid, qsize := 16, pc := 1,
                  prp1 := 0x2000 }

/-- A Delete SQ command for queue `qid`. -/
def cmd_delete_sq (qid : Nat) : NVMECmd :=
  { cmd_zero with opcode := nvme_h.NVME_ADM_CMD_DELETE_SQ, qid := qid }

/-- A Delete CQ command for queue `qid`. -/
def cmd_delete_cq (qid : Nat) : NVMECmd :=
  { cmd_zero with opcode := nvme_h.NVME_ADM_CMD_DELETE_CQ, qid := qid }

/-- The zeroed controller with completion queue `k` allocated and holding the
given usage counter. -/
def state_cq (k usage : Nat) : NVMEState :=
  { state_zero with cq := arr_set state_zero.cq k (cq_live k usage) }

/-- The zeroed controller with completion queue `k` allocated, usage counter 1,
and submission queue `i` allocated and linked to it. -/
def state_pair (i k : Nat) : NVMEState :=
  { state_zero with cq := arr_set state_zero.cq k (cq_live k 1),
                    sq := arr_set state_zero.sq i (sq_live i k) }

/-- The state after Create CQ for queue 5 and Create SQ for queue 3 linked to it,
starting from the zeroed controller. -/
def state_linked : NVMEState :=
  alloc_sq_state nvme_h (alloc_cq_state state_zero (cmd_create_cq 5)) (cmd_create_sq 3 5)

/-- An allocated submission queue of 16 entries with the given cursors and every
abort slot empty. -/
def sq_ready (i k head tail : Nat) : NVMEIOSQueue :=
  { sq_live i k with head := head, tail := tail, abort_cmd_id := fun _ => nvme_h.NVME_EMPTY }

/-- A controller with every abort slot empty, abort counter 0, and submission
queue 3 allocated with entries 0 and 1 outstanding. -/
def state_abort : NVMEState :=
  { state_zero with
    sq := arr_set (fun _ => { sq_zero with abort_cmd_id := fun _ => nvme_h.NVME_EMPTY }) 3
            (sq_ready 3 5 0 2),
    cq := arr_set state_zero.cq 5 (cq_live 5 1) }

/-- Host memory in which the command at entry 1 of the queue at `0x1000` has
identifier 7 and every other command has identifier 0. -/
def mem_abort : HostMem := fun a => if a = 0x1000 + 64 then 7 else 0

/-- An Abort command for command identifier `cmdid` of submission queue `sqid`. -/
def cmd_abort (sqid cmdid : Nat) : NVMECmd :=
  { cmd_zero with opcode := nvme_h.NVME_ADM_CMD_ABORT, sqid := sqid, cmdid := cmdid }

/-- The state after `k` accepted Abort commands for command 7 of submission
queue 3, starting from `state_abort`: the `k` first abort slots of the queue
hold 7 and the counter is `k`. -/
def state_aborts : Nat → NVMEState
  | 0 => state_abort
  | k + 1 => abort_state nvme_h (state_aborts k) 3 k 7

/-- A Set Features command that writes `v` to the feature `fid`. -/
def cmd_set_feature (fid v : Nat) : NVMECmd :=
  { cmd_zero with opcode := nvme_h.NVME_ADM_CMD_SET_FEATURES, fid := fid, cdw11 := v }

/-- A Get Features command for the feature `fid`. -/
def cmd_get_feature (fid : Nat) : NVMECmd :=
  { cmd_zero with opcode := nvme_h.NVME_ADM_CMD_GET_FEATURES, fid := fid }

/-- An Identify command with the given selector, namespace and addresses. -/
def cmd_identify (cns nsid prp1 prp2 : Nat) : NVMECmd :=
  { cmd_zero with opcode := nvme_h.NVME_ADM_CMD_IDENTIFY, cns := cns, nsid := nsid,
                  prp1 := prp1, prp2 := prp2 }

/-! ## Properties -/

theorem nvme_h_wf : nvme_h.WF :=
  ⟨by decide, by decide, by decide, by decide⟩

/-- C1: when the opcode is at least `NVME_ADM_CMD_LAST`, or its table element
is the null pointer, `nvme_admin_command` selects no handler to call: it returns
its initial value `NVME_SC_DATA_XFER_ERROR`, writes `NVME_SC_INVALID_OPCODE` into
the status code and nothing else into the completion entry, makes no host
memory write, and returns the controller state it was given. -/
theorem nvme_admin_command_invalid_opcode (P : NvmeH) (fuel : Nat) (mem : HostMem)
    (n : NVMEState) (sqe : NVMECmd) (cqe : NVMECQE)
    (h : sqe.opcode ≥ P.NVME_ADM_CMD_LAST ∨ adm_cmds_funcs P sqe.opcode = none) :
    adm_dispatch P sqe = none ∧
    nvme_admin_command P fuel mem n sqe cqe =
      some ⟨n, { cqe with sc := P.NVME_SC_INVALID_OPCODE },
            P.NVME_SC_DATA_XFER_ERROR % 256, []⟩ := by
  have hd : adm_dispatch P sqe = none := by
    unfold adm_dispatch
    rcases h with h | h
    · rw [if_pos h]
    · by_cases h1 : sqe.opcode ≥ P.NVME_ADM_CMD_LAST
      · rw [if_pos h1]
      · rw [if_neg h1]
        exact h
  refine ⟨hd, ?_⟩
  unfold nvme_admin_command
  rw [hd]

/-- Witness for C1: opcode 3 is below `NVME_ADM_CMD_LAST` and has no handler. -/
theorem nvme_admin_command_invalid_opcode_witness :
    (({ cmd_zero with opcode := 3 } : NVMECmd).opcode ≥ nvme_h.NVME_ADM_CMD_LAST ∨
      adm_cmds_funcs nvme_h ({ cmd_zero with opcode := 3 } : NVMECmd).opcode = none) ∧
    adm_dispatch nvme_h { cmd_zero with opcode := 3 } = none ∧
    nvme_admin_command nvme_h 0 (fun _ => 0) state_zero { cmd_zero with opcode := 3 }
        cqe_zero =
      some ⟨state_zero, { cqe_zero with sc := nvme_h.NVME_SC_INVALID_OPCODE },
            nvme_h.NVME_SC_DATA_XFER_ERROR % 256, []⟩ :=
  ⟨Or.inr (by decide), nvme_admin_command_invalid_opcode nvme_h 0 (fun _ => 0) state_zero
    { cmd_zero with opcode := 3 } cqe_zero (Or.inr (by decide))⟩

/-! ### Reasoning about every path of a handler -/

theorem path_ite {α : Type} {Q : α → Prop} {c : Prop} [Decidable c] {a b : Option α}
    (ha : c → ∀ r, a = some r → Q r) (hb : ¬c → ∀ r, b = some r → Q r) :
    ∀ r, (if c then a else b) = some r → Q r := by
  intro r h
  by_cases hc : c
  · rw [if_pos hc] at h
    exact ha hc r h
  · rw [if_neg hc] at h
    exact hb hc r h

theorem path_some {α : Type} {Q : α → Prop} {x : α} (hx : Q x) :
    ∀ r, some x = some r → Q r := by
  intro r h
  cases h
  exact hx

theorem path_none {α : Type} {Q : α → Prop} : ∀ r, (none : Option α) = some r → Q r := by
  intro r h
  cases h

/-! ### Failure leaves the state alone -/

theorem adm_cmd_del_sq_atomic (P : NvmeH) (n : NVMEState) (cmd : NVMECmd) (cqe : NVMECQE) :
    ∀ r, adm_cmd_del_sq P n cmd cqe = some r →
      (r.cqe.sc ≠ P.NVME_SC_SUCCESS ∨ r.ret ≠ 0 ∨ r.cqe.sct ≠ cqe.sct) → r.n = n := by
  unfold adm_cmd_del_sq
  dsimp only
  repeat' first
    | (apply path_some; intro hs; first | rfl | simp at hs)
    | (apply path_ite <;> intro _)
    | apply path_none

theorem adm_cmd_alloc_sq_atomic (P : NvmeH) (n : NVMEState) (cmd : NVMECmd) (cqe : NVMECQE) :
    ∀ r, adm_cmd_alloc_sq P n cmd cqe = some r →
      (r.cqe.sc ≠ P.NVME_SC_SUCCESS ∨ r.ret ≠ 0 ∨ r.cqe.sct ≠ cqe.sct) → r.n = n := by
  unfold adm_cmd_alloc_sq
  dsimp only
  repeat' first
    | (apply path_some; intro _; rfl)
    | (apply path_ite <;> intro _)
  intro r h hs
  split at h
  · cases h
  · cases h
    simp at hs

theorem adm_cmd_del_cq_atomic (P : NvmeH) (n : NVMEState) (cmd : NVMECmd) (cqe : NVMECQE) :
    ∀ r, adm_cmd_del_cq P n cmd cqe = some r →
      (r.cqe.sc ≠ P.NVME_SC_SUCCESS ∨ r.ret ≠ 0 ∨ r.cqe.sct ≠ cqe.sct) → r.n = n := by
  unfold adm_cmd_del_cq
  dsimp only
  repeat' first
    | (apply path_some; intro hs; first | rfl | simp at hs)
    | (apply path_ite <;> intro _)

theorem adm_cmd_alloc_cq_atomic (P : NvmeH) (n : NVMEState) (cmd : NVMECmd) (cqe : NVMECQE) :
    ∀ r, adm_cmd_alloc_cq P n cmd cqe = some r →
      (r.cqe.sc ≠ P.NVME_SC_SUCCESS ∨ r.ret ≠ 0 ∨ r.cqe.sct ≠ cqe.sct) → r.n = n := by
  unfold adm_cmd_alloc_cq
  dsimp only
  repeat' first
    | (apply path_some; intro hs; first | rfl | simp at hs)
    | (apply path_ite <;> intro _)

theorem adm_cmd_get_log_page_atomic (P : NvmeH) (n : NVMEState) (cmd : NVMECmd) (cqe : NVMECQE) :
    ∀ r, adm_cmd_get_log_page P n cmd cqe = some r →
      (r.cqe.sc ≠ P.NVME_SC_SUCCESS ∨ r.ret ≠ 0 ∨ r.cqe.sct ≠ cqe.sct) → r.n = n := by
  unfold adm_cmd_get_log_page
  dsimp only
  repeat' first
    | (apply path_some; intro _; rfl)
    | (apply path_ite <;> intro _)

theorem adm_cmd_identify_atomic (P : NvmeH) (n : NVMEState) (cmd : NVMECmd) (cqe : NVMECQE) :
    ∀ r, adm_cmd_identify P n cmd cqe = some r →
      (r.cqe.sc ≠ P.NVME_SC_SUCCESS ∨ r.ret ≠ 0 ∨ r.cqe.sct ≠ cqe.sct) → r.n = n := by
  unfold adm_cmd_identify
  dsimp only
  repeat' first
    | (apply path_some; intro _; rfl)
    | (apply path_ite <;> intro _)

theorem adm_cmd_async_ev_req_atomic (P : NvmeH) (n : NVMEState) (cmd : NVMECmd) (cqe : NVMECQE) :
    ∀ r, adm_cmd_async_ev_req P n cmd cqe = some r →
      (r.cqe.sc ≠ P.NVME_SC_SUCCESS ∨ r.ret ≠ 0 ∨ r.cqe.sct ≠ cqe.sct) → r.n = n := by
  unfold adm_cmd_async_ev_req
  dsimp only
  repeat' first
    | (apply path_some; intro _; rfl)
    | (apply path_ite <;> intro _)

theorem do_features_atomic (P : NvmeH) (n : NVMEState) (cmd : NVMECmd) (cqe : NVMECQE) :
    ∀ r, do_features P n cmd cqe = some r →
      (r.cqe.sc ≠ P.NVME_SC_SUCCESS ∨ r.ret ≠ 0 ∨ r.cqe.sct ≠ cqe.sct) → r.n = n := by
  unfold do_features feature_access
  dsimp only
  repeat' first
    | (apply path_some; intro hs; first | rfl | simp at hs)
    | (apply path_ite <;> intro _)

theorem adm_cmd_set_features_atomic (P : NvmeH) (n : NVMEState) (cmd : NVMECmd) (cqe : NVMECQE) :
    ∀ r, adm_cmd_set_features P n cmd cqe = some r →
      (r.cqe.sc ≠ P.NVME_SC_SUCCESS ∨ r.ret ≠ 0 ∨ r.cqe.sct ≠ cqe.sct) → r.n = n := by
  unfold adm_cmd_set_features do_features feature_access
  dsimp only
  repeat' first
    | (apply path_some; intro hs; first | rfl | simp at hs)
    | (apply path_ite <;> intro _)

theorem adm_cmd_get_features_atomic (P : NvmeH) (n : NVMEState) (cmd : NVMECmd) (cqe : NVMECQE) :
    ∀ r, adm_cmd_get_features P n cmd cqe = some r →
      (r.cqe.sc ≠ P.NVME_SC_SUCCESS ∨ r.ret ≠ 0 ∨ r.cqe.sct ≠ cqe.sct) → r.n = n := by
  unfold adm_cmd_get_features do_features feature_access
  dsimp only
  repeat' first
    | (apply path_some; intro hs; first | rfl | simp at hs)
    | (apply path_ite <;> intro _)

theorem adm_cmd_abort_atomic (P : NvmeH) (hP : P.WF) (fuel : Nat) (mem : HostMem)
    (n : NVMEState) (cmd : NVMECmd) (cqe : NVMECQE) (hc : cmd.cmdid < 65536) :
    ∀ r, adm_cmd_abort P fuel mem n cmd cqe = some r →
      (r.cqe.sc ≠ P.NVME_SC_SUCCESS ∨ r.ret ≠ 0 ∨ r.cqe.sct ≠ cqe.sct) → r.n = n := by
  have hne : cmd.cmdid ≠ P.NVME_EMPTY := by
    have := hP.empty_not_cid
    omega
  unfold adm_cmd_abort
  dsimp only
  repeat' first
    | (apply path_some; intro _; rfl)
    | (apply path_ite <;> intro _)
  intro r h hs
  split at h
  · cases h
  · rename_i found _
    cases found
    · simp only [Bool.false_eq_true, if_false] at h
      split at h <;> cases h <;> rfl
    · simp only [if_true, arr_set, hne] at h
      cases h
      simp at hs

/-- C2: error atomicity.  Whenever `nvme_admin_command` returns with a status
code other than `NVME_SC_SUCCESS` in the completion entry, or with a non-zero
return value, or having written a status code type other than the one the entry
came with, the controller state (queue tables, feature table, abort slots and
abort counter) is the state it was called with.  The command identifier to
abort is a 16-bit field, which by `NvmeH.WF` is never the marker `NVME_EMPTY`. -/
theorem nvme_admin_command_error_atomic (P : NvmeH) (hP : P.WF) (fuel : Nat) (mem : HostMem)
    (n : NVMEState) (sqe : NVMECmd) (cqe : NVMECQE) (r : Res) (hc : sqe.cmdid < 65536)
    (h : nvme_admin_command P fuel mem n sqe cqe = some r)
    (hs : r.cqe.sc ≠ P.NVME_SC_SUCCESS ∨ r.ret ≠ 0 ∨ r.cqe.sct ≠ cqe.sct) : r.n = n := by
  unfold nvme_admin_command at h
  split at h
  · cases h
    rfl
  · rename_i f _
    split at h
    · cases h
    · rename_i r0 hr0
      cases h
      have hs0 : r0.cqe.sc ≠ P.NVME_SC_SUCCESS ∨ r0.ret ≠ 0 ∨ r0.cqe.sct ≠ cqe.sct := by
        rcases hs with hs | hs | hs
        · exact Or.inl hs
        · refine Or.inr (Or.inl (fun h0 => hs ?_))
          simp [h0]
        · exact Or.inr (Or.inr hs)
      show r0.n = n
      cases f
      · exact adm_cmd_del_sq_atomic P n sqe cqe r0 hr0 hs0
      · exact adm_cmd_alloc_sq_atomic P n sqe cqe r0 hr0 hs0
      · exact adm_cmd_get_log_page_atomic P n sqe cqe r0 hr0 hs0
      · exact adm_cmd_del_cq_atomic P n sqe cqe r0 hr0 hs0
      · exact adm_cmd_alloc_cq_atomic P n sqe cqe r0 hr0 hs0
      · exact adm_cmd_identify_atomic P n sqe cqe r0 hr0 hs0
      · exact adm_cmd_abort_atomic P hP fuel mem n sqe cqe hc r0 hr0 hs0
      · exact adm_cmd_set_features_atomic P n sqe cqe r0 hr0 hs0
      · exact adm_cmd_get_features_atomic P n sqe cqe r0 hr0 hs0
      · exact adm_cmd_async_ev_req_atomic P n sqe cqe r0 hr0 hs0

/-- Witness for C2: a Delete SQ for queue 0 is refused and the state is kept. -/
theorem nvme_admin_command_error_atomic_witness :
    ∃ r, nvme_admin_command nvme_h 0 (fun _ => 0) state_zero cmd_zero cqe_zero = some r ∧
      r.cqe.sc = nvme_h.NVME_INVALID_QUEUE_IDENTIFIER ∧ r.n = state_zero :=
  ⟨⟨state_zero, ⟨0, 1, 1⟩, 1, []⟩, rfl, rfl,
    nvme_admin_command_error_atomic nvme_h nvme_h_wf 0 (fun _ => 0) state_zero cmd_zero
      cqe_zero ⟨state_zero, ⟨0, 1, 1⟩, 1, []⟩ (by decide) rfl (Or.inl (by decide))⟩

/-! ### Create SQ -/

theorem adm_check_sqid_eq_zero (P : NvmeH) (hF : P.FAIL ≠ 0) (n : NVMEState) (i : Nat) :
    adm_check_sqid P n i = 0 ↔ i < P.NVME_MAX_QID ∧ sq_allocated n i := by
  unfold adm_check_sqid
  by_cases h1 : i ≥ P.NVME_MAX_QID
  · simp only [if_pos h1]
    constructor
    · intro h; exact absurd h hF
    · intro h; omega
  · simp only [if_neg h1]
    by_cases h2 : (n.sq i).dma_addr ≠ 0 ∧ (n.sq i).id = i
    · rw [if_pos h2]
      exact ⟨fun _ => ⟨by omega, h2⟩, fun _ => rfl⟩
    · rw [if_neg h2]
      exact ⟨fun h => absurd h hF, fun h => absurd h.2 h2⟩

theorem adm_check_cqid_eq_zero (P : NvmeH) (hF : P.FAIL ≠ 0) (n : NVMEState) (k : Nat) :
    adm_check_cqid P n k = 0 ↔ k < P.NVME_MAX_QID ∧ cq_allocated n k := by
  unfold adm_check_cqid
  by_cases h1 : k ≥ P.NVME_MAX_QID
  · simp only [if_pos h1]
    constructor
    · intro h; exact absurd h hF
    · intro h; omega
  · simp only [if_neg h1]
    by_cases h2 : (n.cq k).dma_addr ≠ 0 ∧ (n.cq k).id = k
    · rw [if_pos h2]
      exact ⟨fun _ => ⟨by omega, h2⟩, fun _ => rfl⟩
    · rw [if_neg h2]
      exact ⟨fun h => absurd h hF, fun h => absurd h.2 h2⟩

theorem adm_get_sq_eq (P : NvmeH) (n : NVMEState) (i : Nat) (h1 : i < P.NVME_MAX_QID)
    (h2 : sq_allocated n i) : adm_get_sq P n i = i := by
  unfold adm_get_sq
  rw [if_neg (by omega), if_pos h2]

theorem adm_get_cq_eq (P : NvmeH) (n : NVMEState) (k : Nat) (h1 : k < P.NVME_MAX_QID)
    (h2 : cq_allocated n k) : adm_get_cq P n k = k := by
  unfold adm_get_cq
  rw [if_neg (by omega), if_pos h2]

theorem adm_get_sq_ne (P : NvmeH) (n : NVMEState) (i : Nat)
    (h : adm_get_sq P n i ≠ P.NVME_MAX_QID) :
    i < P.NVME_MAX_QID ∧ sq_allocated n i ∧ adm_get_sq P n i = i := by
  unfold adm_get_sq at h ⊢
  by_cases h1 : i ≥ P.NVME_MAX_QID
  · rw [if_pos h1] at h; exact absurd rfl h
  · rw [if_neg h1] at h ⊢
    by_cases h2 : (n.sq i).dma_addr ≠ 0 ∧ (n.sq i).id = i
    · rw [if_pos h2]; exact ⟨by omega, h2, rfl⟩
    · rw [if_neg h2] at h; exact absurd rfl h

theorem adm_get_cq_ne (P : NvmeH) (n : NVMEState) (k : Nat)
    (h : adm_get_cq P n k ≠ P.NVME_MAX_QID) :
    k < P.NVME_MAX_QID ∧ cq_allocated n k ∧ adm_get_cq P n k = k := by
  unfold adm_get_cq at h ⊢
  by_cases h1 : k ≥ P.NVME_MAX_QID
  · rw [if_pos h1] at h; exact absurd rfl h
  · rw [if_neg h1] at h ⊢
    by_cases h2 : (n.cq k).dma_addr ≠ 0 ∧ (n.cq k).id = k
    · rw [if_pos h2]; exact ⟨by omega, h2, rfl⟩
    · rw [if_neg h2] at h; exact absurd rfl h

theorem alloc_sq_commit_eq (P : NvmeH) (n : NVMEState) (cmd : NVMECmd)
    (h1 : cmd.cqid < P.NVME_MAX_QID) (h2 : cq_allocated n cmd.cqid) :
    alloc_sq_commit P n cmd = some (alloc_sq_state P n cmd) := by
  unfold alloc_sq_commit alloc_sq_state
  dsimp only
  rw [adm_get_cq_eq P _ cmd.cqid h1 (by exact h2), if_neg (by omega)]

/-- Running `adm_cmd_alloc_sq` when every check passes. -/
theorem adm_cmd_alloc_sq_run (P : NvmeH) (hF : P.FAIL ≠ 0) (n : NVMEState) (cmd : NVMECmd)
    (cqe : NVMECQE) (h : alloc_sq_ok P n cmd) :
    adm_cmd_alloc_sq P n cmd cqe =
      some ⟨alloc_sq_state P n cmd, { cqe with sc := P.NVME_SC_SUCCESS }, 0, []⟩ := by
  obtain ⟨h1, h2, h3, h4, h5, h6, h7, h8, h9, h10, h11⟩ := h
  have hs : ¬ adm_check_sqid P n cmd.qid = 0 := by
    rw [adm_check_sqid_eq_zero P hF]
    exact fun hh => h6 hh.2
  have hc : ¬ adm_check_cqid P n cmd.cqid ≠ 0 := by
    rw [not_not, adm_check_cqid_eq_zero P hF]
    exact ⟨h7, h8⟩
  unfold adm_cmd_alloc_sq
  dsimp only
  rw [if_neg (not_not.mpr h1), if_neg (by omega), if_neg h4, if_neg (not_not.mpr h5),
    if_neg hs, if_neg hc, if_neg (by omega), if_neg h10, if_neg h11,
    alloc_sq_commit_eq P n cmd h7 h8]

/-- A zero return value of `adm_cmd_alloc_sq` means that every check passed. -/
theorem adm_cmd_alloc_sq_ret_zero (P : NvmeH) (hF : P.FAIL ≠ 0) (n : NVMEState)
    (cmd : NVMECmd) (cqe : NVMECQE) :
    ∀ r, adm_cmd_alloc_sq P n cmd cqe = some r → r.ret = 0 → alloc_sq_ok P n cmd := by
  unfold adm_cmd_alloc_sq
  dsimp only
  repeat' first
    | (apply path_some; intro h0; exact absurd h0 hF)
    | (apply path_ite <;> intro _)
  rename_i h1 h2 h3 h4 h5 h6 h7 h8 h9
  intro r _ _
  rw [adm_check_sqid_eq_zero P hF] at h5
  rw [not_not, adm_check_cqid_eq_zero P hF] at h6
  exact ⟨not_not.mp h1, by omega, by omega, h3, not_not.mp h4, fun hh => h5 ⟨by omega, hh⟩,
    h6.1, h6.2, by omega, h8, h9⟩

theorem arr_set_same {α : Type} (t : Nat → α) (i : Nat) (v : α) : arr_set t i v i = v := by
  simp [arr_set]

theorem arr_set_other {α : Type} (t : Nat → α) (i j : Nat) (v : α) (h : j ≠ i) :
    arr_set t i v j = t j := by
  simp [arr_set, h]

/-- C4 (as amended): for a Create SQ command (opcode `NVME_ADM_CMD_CREATE_SQ`)
whose queue identifier is in `[1, NVME_MAX_QID)` and names a slot that is not
allocated, `adm_cmd_alloc_sq` fails with the command-specific status
`NVME_COMPLETION_QUEUE_INVALID` and leaves the controller state alone whenever
the linked identifier `cqid` is 0, or the namespace field is 0 and `cqid` is out
of range or names a completion queue that is not allocated. -/
theorem adm_cmd_alloc_sq_cq_invalid (P : NvmeH) (hF : P.FAIL ≠ 0) (n : NVMEState)
    (cmd : NVMECmd) (cqe : NVMECQE) (hop : cmd.opcode = P.NVME_ADM_CMD_CREATE_SQ)
    (hq : 1 ≤ cmd.qid ∧ cmd.qid < P.NVME_MAX_QID) (hsq : ¬ sq_allocated n cmd.qid)
    (hcq : cmd.cqid = 0 ∨
      (cmd.nsid = 0 ∧ ¬ (cmd.cqid < P.NVME_MAX_QID ∧ cq_allocated n cmd.cqid))) :
    adm_cmd_alloc_sq P n cmd cqe =
      some ⟨n, { cqe with sct := P.NVME_SCT_CMD_SPEC_ERR,
                          sc := P.NVME_COMPLETION_QUEUE_INVALID }, P.FAIL, []⟩ := by
  unfold adm_cmd_alloc_sq
  dsimp only
  rw [if_neg (not_not.mpr hop), if_neg (by omega)]
  by_cases h0 : cmd.cqid = 0
  · rw [if_pos h0]
  · rcases hcq with hcq | ⟨hns, hcq⟩
    · exact absurd hcq h0
    · have hs : ¬ adm_check_sqid P n cmd.qid = 0 := by
        rw [adm_check_sqid_eq_zero P hF]
        exact fun hh => hsq hh.2
      have hc : adm_check_cqid P n cmd.cqid ≠ 0 := by
        rw [Ne, adm_check_cqid_eq_zero P hF]
        exact hcq
      rw [if_neg h0, if_neg (not_not.mpr hns), if_neg hs, if_pos hc]

/-- Witness for C4: Create SQ 3 linked to completion queue 5, which is not
allocated in the zeroed controller. -/
theorem adm_cmd_alloc_sq_cq_invalid_witness :
    adm_cmd_alloc_sq nvme_h state_zero (cmd_create_sq 3 5) cqe_zero =
      some ⟨state_zero, { cqe_zero with sct := nvme_h.NVME_SCT_CMD_SPEC_ERR,
                                        sc := nvme_h.NVME_COMPLETION_QUEUE_INVALID },
            nvme_h.FAIL, []⟩ :=
  adm_cmd_alloc_sq_cq_invalid nvme_h (by decide) state_zero (cmd_create_sq 3 5) cqe_zero rfl
    (by decide) (by decide) (Or.inr (by decide))

/-- C4 fails as stated.  Completion queue 5 is not allocated in any of the three
runs, yet the status is not `NVME_COMPLETION_QUEUE_INVALID`: with queue
identifier 0 it is `NVME_INVALID_QUEUE_IDENTIFIER`; with a non-zero namespace
field it is `NVME_SC_INVALID_NAMESPACE`, the status type left as it was; with
submission queue 3 already allocated it is `NVME_INVALID_QUEUE_IDENTIFIER`. -/
theorem adm_cmd_alloc_sq_cq_invalid_counterexample :
    ¬ cq_allocated state_zero 5 ∧ ¬ cq_allocated (state_pair 3 6) 5 ∧
    (adm_cmd_alloc_sq nvme_h state_zero (cmd_create_sq 0 5) cqe_zero).map
        (fun r => (r.cqe.sct, r.cqe.sc)) =
      some (nvme_h.NVME_SCT_CMD_SPEC_ERR, nvme_h.NVME_INVALID_QUEUE_IDENTIFIER) ∧
    (adm_cmd_alloc_sq nvme_h state_zero { cmd_create_sq 3 5 with nsid := 1 } cqe_zero).map
        (fun r => (r.cqe.sct, r.cqe.sc)) =
      some (cqe_zero.sct, nvme_h.NVME_SC_INVALID_NAMESPACE) ∧
    (adm_cmd_alloc_sq nvme_h (state_pair 3 6) (cmd_create_sq 3 5) cqe_zero).map
        (fun r => (r.cqe.sct, r.cqe.sc)) =
      some (nvme_h.NVME_SCT_CMD_SPEC_ERR, nvme_h.NVME_INVALID_QUEUE_IDENTIFIER) ∧
    nvme_h.NVME_INVALID_QUEUE_IDENTIFIER ≠ nvme_h.NVME_COMPLETION_QUEUE_INVALID ∧
    nvme_h.NVME_SC_INVALID_NAMESPACE ≠ nvme_h.NVME_COMPLETION_QUEUE_INVALID := by
  refine ⟨by decide, by decide, by decide, by decide, by decide, by decide, by decide⟩

/-! ### Delete CQ -/

theorem adm_cmd_del_cq_in_use_aux (P : NvmeH) (n : NVMEState) (cmd : NVMECmd) (cqe : NVMECQE)
    (hop : cmd.opcode = P.NVME_ADM_CMD_DELETE_CQ)
    (hq : 1 ≤ cmd.qid ∧ cmd.qid < P.NVME_MAX_QID) (hns : cmd.nsid = 0)
    (ha : cq_allocated n cmd.qid) (hu : (n.cq cmd.qid).usage_cnt > 0) :
    adm_cmd_del_cq P n cmd cqe =
      some ⟨n, { cqe with sc := P.NVME_SC_INVALID_FIELD }, P.NVME_SC_INVALID_FIELD, []⟩ := by
  unfold adm_cmd_del_cq
  dsimp only
  rw [if_neg (not_not.mpr hop), if_neg (by omega), if_neg (not_not.mpr hns),
    adm_get_cq_eq P n cmd.qid hq.2 ha, if_neg (by omega), if_pos (by omega)]

/-- C5 (as amended): for a Delete CQ command (opcode `NVME_ADM_CMD_DELETE_CQ`)
with namespace field 0 that names an allocated completion queue `qid`,
`1 ≤ qid < NVME_MAX_QID`, whose usage counter is not 0, `adm_cmd_del_cq` fails
with status code `NVME_SC_INVALID_FIELD` and returns the state unchanged, so
`cq[qid]` is as before and still allocated. -/
theorem adm_cmd_del_cq_in_use (P : NvmeH) (n : NVMEState) (cmd : NVMECmd) (cqe : NVMECQE)
    (hop : cmd.opcode = P.NVME_ADM_CMD_DELETE_CQ)
    (hq : 1 ≤ cmd.qid ∧ cmd.qid < P.NVME_MAX_QID) (hns : cmd.nsid = 0)
    (ha : cq_allocated n cmd.qid) (hu : (n.cq cmd.qid).usage_cnt > 0) :
    adm_cmd_del_cq P n cmd cqe =
        some ⟨n, { cqe with sc := P.NVME_SC_INVALID_FIELD }, P.NVME_SC_INVALID_FIELD, []⟩ ∧
      cq_allocated n cmd.qid := by
  exact ⟨adm_cmd_del_cq_in_use_aux P n cmd cqe hop hq hns ha hu, ha⟩

/-- Witness for C5: Delete CQ 5 while submission queue 3 is linked to it. -/
theorem adm_cmd_del_cq_in_use_witness :
    adm_cmd_del_cq nvme_h (state_pair 3 5) (cmd_delete_cq 5) cqe_zero =
        some ⟨state_pair 3 5, { cqe_zero with sc := nvme_h.NVME_SC_INVALID_FIELD },
              nvme_h.NVME_SC_INVALID_FIELD, []⟩ ∧
      cq_allocated (state_pair 3 5) 5 :=
  adm_cmd_del_cq_in_use nvme_h (state_pair 3 5) (cmd_delete_cq 5) cqe_zero rfl (by decide)
    rfl (by decide) (by decide)

/-- C5 fails as stated: completion queue 5 is allocated with usage counter 1,
and a Delete CQ command naming it with namespace field 1 is answered with
`NVME_SC_INVALID_NAMESPACE`, not with `NVME_SC_INVALID_FIELD`. -/
theorem adm_cmd_del_cq_in_use_counterexample :
    cq_allocated (state_pair 3 5) 5 ∧ ((state_pair 3 5).cq 5).usage_cnt = 1 ∧
    (adm_cmd_del_cq nvme_h (state_pair 3 5) { cmd_delete_cq 5 with nsid := 1 } cqe_zero).map
        (fun r => r.cqe.sc) = some nvme_h.NVME_SC_INVALID_NAMESPACE ∧
    nvme_h.NVME_SC_INVALID_NAMESPACE ≠ nvme_h.NVME_SC_INVALID_FIELD := by
  refine ⟨by decide, by decide, by decide, by decide⟩

/-! ### Running the other queue handlers -/

theorem adm_cmd_alloc_cq_run (P : NvmeH) (hF : P.FAIL ≠ 0) (n : NVMEState) (cmd : NVMECmd)
    (cqe : NVMECQE) (h : alloc_cq_ok P n cmd) :
    adm_cmd_alloc_cq P n cmd cqe =
      some ⟨alloc_cq_state n cmd, { cqe with sc := P.NVME_SC_SUCCESS }, 0, []⟩ := by
  obtain ⟨h1, h2, h3, h4, h5, h6, h7, h8, h9⟩ := h
  have hc : ¬ adm_check_cqid P n cmd.qid = 0 := by
    rw [adm_check_cqid_eq_zero P hF]
    exact fun hh => h5 hh.2
  unfold adm_cmd_alloc_cq
  dsimp only
  rw [if_neg (not_not.mpr h1), if_neg (by omega), if_neg (not_not.mpr h4), if_neg hc,
    if_neg (by omega), if_neg h7, if_neg h8, if_neg h9]
  rfl

theorem adm_cmd_alloc_cq_ret_zero (P : NvmeH) (hF : P.FAIL ≠ 0) (n : NVMEState)
    (cmd : NVMECmd) (cqe : NVMECQE) :
    ∀ r, adm_cmd_alloc_cq P n cmd cqe = some r → r.ret = 0 → alloc_cq_ok P n cmd := by
  unfold adm_cmd_alloc_cq
  dsimp only
  repeat' first
    | (apply path_some; intro h0; exact absurd h0 hF)
    | (apply path_ite <;> intro _)
  rename_i h1 h2 h3 h4 h5 h6 h7 h8
  intro r _ _
  rw [adm_check_cqid_eq_zero P hF] at h4
  exact ⟨not_not.mp h1, by omega, by omega, not_not.mp h3, fun hh => h4 ⟨by omega, hh⟩,
    by omega, h6, h7, h8⟩

theorem adm_cmd_del_sq_run (P : NvmeH) (n : NVMEState) (cmd : NVMECmd) (cqe : NVMECQE)
    (h : del_sq_ok P n cmd) :
    adm_cmd_del_sq P n cmd cqe =
      some ⟨del_sq_state P n cmd.qid, { cqe with sc := P.NVME_SC_SUCCESS }, 0, []⟩ := by
  obtain ⟨h1, h2, h3, h4, h5, h6⟩ := h
  unfold adm_cmd_del_sq del_sq_state
  dsimp only
  rw [if_neg (not_not.mpr h1), if_neg (by omega), if_neg (not_not.mpr h4),
    adm_get_sq_eq P n cmd.qid h3 h5, if_neg (by omega)]
  by_cases hl : (n.sq cmd.qid).cq_id ≠ P.NVME_MAX_QID
  · obtain ⟨h7, h8⟩ := h6 hl
    rw [if_pos hl, if_pos hl, if_neg (by omega), if_neg h8]
  · rw [if_neg hl, if_neg hl]

theorem adm_cmd_del_sq_ret_zero (P : NvmeH) (hF : P.FAIL ≠ 0) (n : NVMEState)
    (cmd : NVMECmd) (cqe : NVMECQE) :
    ∀ r, adm_cmd_del_sq P n cmd cqe = some r → r.ret = 0 → del_sq_ok P n cmd := by
  unfold adm_cmd_del_sq
  dsimp only
  repeat' first
    | (apply path_some; intro h0; exact absurd h0 hF)
    | apply path_none
    | (apply path_ite <;> intro _)
  · rename_i h1 h2 h3 h4 h5 h6 h7
    intro r _ _
    obtain ⟨h8, h9, h10⟩ := adm_get_sq_ne P n cmd.qid h4
    rw [h10] at h5 h6 h7
    exact ⟨not_not.mp h1, by omega, h8, not_not.mp h3, h9, fun _ => ⟨by omega, h7⟩⟩
  · rename_i h1 h2 h3 h4 h5
    intro r _ _
    obtain ⟨h8, h9, h10⟩ := adm_get_sq_ne P n cmd.qid h4
    rw [h10] at h5
    exact ⟨not_not.mp h1, by omega, h8, not_not.mp h3, h9, fun hh => absurd hh h5⟩

theorem adm_cmd_del_cq_run (P : NvmeH) (n : NVMEState) (cmd : NVMECmd) (cqe : NVMECQE)
    (h : del_cq_ok P n cmd) :
    adm_cmd_del_cq P n cmd cqe =
      some ⟨del_cq_state P n cmd.qid, { cqe with sc := P.NVME_SC_SUCCESS }, 0, []⟩ := by
  obtain ⟨h1, h2, h3, h4, h5, h6⟩ := h
  unfold adm_cmd_del_cq del_cq_state
  dsimp only
  rw [if_neg (not_not.mpr h1), if_neg (by omega), if_neg (not_not.mpr h4),
    adm_get_cq_eq P n cmd.qid h3 h5, if_neg (by omega), if_neg (not_not.mpr h6)]

/-- Either `adm_cmd_del_cq` returns the state it was given, or every check
passed and the slot was reset. -/
theorem adm_cmd_del_cq_outcome (P : NvmeH) (n : NVMEState) (cmd : NVMECmd) (cqe : NVMECQE) :
    ∀ r, adm_cmd_del_cq P n cmd cqe = some r →
      r.n = n ∨ (del_cq_ok P n cmd ∧ r.n = del_cq_state P n cmd.qid) := by
  unfold adm_cmd_del_cq
  dsimp only
  repeat' first
    | (apply path_some; exact Or.inl rfl)
    | (apply path_ite <;> intro _)
  rename_i h1 h2 h3 h4 h5
  obtain ⟨h6, h7, h8⟩ := adm_get_cq_ne P n cmd.qid h4
  rw [h8] at h5 ⊢
  apply path_some
  right
  exact ⟨⟨not_not.mp h1, by omega, h6, not_not.mp h3, h7, not_not.mp h5⟩, rfl⟩

/-! ### Linking and unlinking -/

theorem usage_inc_zero (P : NvmeH) (h : 2 ≤ 2 ^ P.usage_cnt_bits) : usage_inc P 0 = 1 := by
  unfold usage_inc
  exact Nat.mod_eq_of_lt (by omega)

theorem usage_dec_inc (P : NvmeH) (v : Nat) (h : v < 2 ^ P.usage_cnt_bits) :
    usage_dec P (usage_inc P v) = v := by
  unfold usage_dec usage_inc
  have hpos : 0 < 2 ^ P.usage_cnt_bits := by omega
  by_cases hv : v + 1 < 2 ^ P.usage_cnt_bits
  · rw [Nat.mod_eq_of_lt hv]
    have : v + 1 + 2 ^ P.usage_cnt_bits - 1 = v + 2 ^ P.usage_cnt_bits := by omega
    rw [this, Nat.add_mod_right, Nat.mod_eq_of_lt h]
  · have hv1 : v + 1 = 2 ^ P.usage_cnt_bits := by omega
    rw [hv1, Nat.mod_self, Nat.zero_add, Nat.mod_eq_of_lt (by omega)]
    omega

/-- The state after a successful Create SQ, seen by the Delete SQ that follows. -/
theorem alloc_sq_state_del_ok (P : NvmeH) (n : NVMEState) (cmd dcmd : NVMECmd)
    (hok : alloc_sq_ok P n cmd) (hd : dcmd.opcode = P.NVME_ADM_CMD_DELETE_SQ)
    (hdq : dcmd.qid = cmd.qid) (hdn : dcmd.nsid = 0) :
    del_sq_ok P (alloc_sq_state P n cmd) dcmd := by
  obtain ⟨_, h2, h3, _, _, _, h7, h8, _, _, h11⟩ := hok
  have hsq : (alloc_sq_state P n cmd).sq cmd.qid =
      { n.sq cmd.qid with id := cmd.qid, size := cmd.qsize, phys_contig := cmd.pc,
                          cq_id := cmd.cqid, prio := cmd.qprio, dma_addr := cmd.prp1 } :=
    arr_set_same _ _ _
  have hcq : (alloc_sq_state P n cmd).cq cmd.cqid =
      { n.cq cmd.cqid with usage_cnt := usage_inc P (n.cq cmd.cqid).usage_cnt } :=
    arr_set_same _ _ _
  refine ⟨hd, by omega, by omega, hdn, ?_, ?_⟩
  · rw [hdq]
    show ((alloc_sq_state P n cmd).sq cmd.qid).dma_addr ≠ 0 ∧
      ((alloc_sq_state P n cmd).sq cmd.qid).id = cmd.qid
    rw [hsq]
    exact ⟨h11, rfl⟩
  · intro _
    rw [hdq, hsq]
    show cmd.cqid < P.NVME_MAX_QID ∧ ((alloc_sq_state P n cmd).cq cmd.cqid).id ≠ P.NVME_MAX_QID
    rw [hcq]
    refine ⟨h7, ?_⟩
    show (n.cq cmd.cqid).id ≠ P.NVME_MAX_QID
    rw [h8.2]
    omega

/-- The linked completion queue after Create SQ followed by Delete SQ. -/
theorem del_alloc_sq_state_cq (P : NvmeH) (n : NVMEState) (cmd : NVMECmd)
    (hok : alloc_sq_ok P n cmd) :
    (del_sq_state P (alloc_sq_state P n cmd) cmd.qid).cq cmd.cqid =
      { n.cq cmd.cqid with
        usage_cnt := usage_dec P (usage_inc P (n.cq cmd.cqid).usage_cnt) } := by
  obtain ⟨_, _, _, _, _, _, h7, _, _, _, _⟩ := hok
  have hsq : (alloc_sq_state P n cmd).sq cmd.qid =
      { n.sq cmd.qid with id := cmd.qid, size := cmd.qsize, phys_contig := cmd.pc,
                          cq_id := cmd.cqid, prio := cmd.qprio, dma_addr := cmd.prp1 } :=
    arr_set_same _ _ _
  have hcq : (alloc_sq_state P n cmd).cq cmd.cqid =
      { n.cq cmd.cqid with usage_cnt := usage_inc P (n.cq cmd.cqid).usage_cnt } :=
    arr_set_same _ _ _
  unfold del_sq_state
  rw [hsq]
  dsimp only
  rw [if_pos (by omega)]
  dsimp only
  rw [arr_set_same, hcq]

/-- The deleted slot after Create SQ followed by Delete SQ. -/
theorem del_alloc_sq_state_sq (P : NvmeH) (n : NVMEState) (cmd : NVMECmd) :
    (del_sq_state P (alloc_sq_state P n cmd) cmd.qid).sq cmd.qid =
      { n.sq cmd.qid with id := P.NVME_MAX_QID, cq_id := P.NVME_MAX_QID, head := 0, tail := 0,
                          size := 0, prio := 0, phys_contig := 0, dma_addr := 0 } := by
  have hsq : (alloc_sq_state P n cmd).sq cmd.qid =
      { n.sq cmd.qid with id := cmd.qid, size := cmd.qsize, phys_contig := cmd.pc,
                          cq_id := cmd.cqid, prio := cmd.qprio, dma_addr := cmd.prp1 } :=
    arr_set_same _ _ _
  unfold del_sq_state
  split
  · dsimp only
    rw [arr_set_same, hsq]
    rfl
  · dsimp only
    rw [arr_set_same, hsq]
    rfl

/-- C6: link and unlink.  From a state where completion queue `c` is not
allocated and has usage counter 0 and submission queue `q` is not allocated
(`c`, `q` in `[1, NVME_MAX_QID)`), after a successful Create CQ for `c` and a
successful Create SQ for `q` linked to `c`: the usage counter of `c` is 1; a
Delete CQ for `c` is rejected with `NVME_SC_INVALID_FIELD` and changes nothing;
a Delete SQ for `q` succeeds and brings the counter back to 0; the Delete CQ for
`c` that follows succeeds and leaves `c` not allocated. -/
theorem link_unlink_sequence (P : NvmeH) (hP : P.WF) (n : NVMEState) (c q : Nat)
    (hc : 1 ≤ c ∧ c < P.NVME_MAX_QID) (hq : 1 ≤ q ∧ q < P.NVME_MAX_QID)
    (hcu : ¬ cq_allocated n c) (hcz : (n.cq c).usage_cnt = 0) (hsu : ¬ sq_allocated n q)
    (ccq csq dsq dcq : NVMECmd) (cqe1 cqe2 cqe3 cqe4 cqe5 : NVMECQE)
    (h1 : ccq.qid = c) (h2 : csq.qid = q ∧ csq.cqid = c)
    (h3 : dsq.opcode = P.NVME_ADM_CMD_DELETE_SQ ∧ dsq.qid = q ∧ dsq.nsid = 0)
    (h4 : dcq.opcode = P.NVME_ADM_CMD_DELETE_CQ ∧ dcq.qid = c ∧ dcq.nsid = 0)
    (r1 r2 : Res) (hr1 : adm_cmd_alloc_cq P n ccq cqe1 = some r1) (hr1z : r1.ret = 0)
    (hr2 : adm_cmd_alloc_sq P r1.n csq cqe2 = some r2) (hr2z : r2.ret = 0) :
    (r2.n.cq c).usage_cnt = 1 ∧
    adm_cmd_del_cq P r2.n dcq cqe3 =
      some ⟨r2.n, { cqe3 with sc := P.NVME_SC_INVALID_FIELD }, P.NVME_SC_INVALID_FIELD, []⟩ ∧
    ∃ r4, adm_cmd_del_sq P r2.n dsq cqe4 = some r4 ∧ r4.ret = 0 ∧
      (r4.n.cq c).usage_cnt = 0 ∧
      ∃ r5, adm_cmd_del_cq P r4.n dcq cqe5 = some r5 ∧ r5.ret = 0 ∧
        ¬ cq_allocated r5.n c := by
  have hF := hP.fail_ne
  have hbits : 2 ≤ 2 ^ P.usage_cnt_bits := by
    have := hP.qid_fits
    omega
  have hok1 := adm_cmd_alloc_cq_ret_zero P hF n ccq cqe1 r1 hr1 hr1z
  rw [adm_cmd_alloc_cq_run P hF n ccq cqe1 hok1] at hr1
  cases hr1
  have hok2 := adm_cmd_alloc_sq_ret_zero P hF _ csq cqe2 r2 hr2 hr2z
  rw [adm_cmd_alloc_sq_run P hF _ csq cqe2 hok2] at hr2
  cases hr2
  obtain ⟨hq1, hq2⟩ := h2
  obtain ⟨hd1, hd2, hd3⟩ := h3
  obtain ⟨he1, he2, he3⟩ := h4
  subst h1
  subst hq1
  dsimp only
  have hcqa : (alloc_cq_state n ccq).cq ccq.qid =
      { n.cq ccq.qid with id := ccq.qid, dma_addr := ccq.prp1, irq_enabled := ccq.ien,
                          vector := ccq.iv, phase_tag := 1, size := ccq.qsize,
                          phys_contig := ccq.pc } := arr_set_same _ _ _
  -- the completion queue after the two creations
  have hcq2 : (alloc_sq_state P (alloc_cq_state n ccq) csq).cq ccq.qid =
      { (alloc_cq_state n ccq).cq ccq.qid with usage_cnt := 1 } := by
    have hh : (alloc_sq_state P (alloc_cq_state n ccq) csq).cq csq.cqid =
        { (alloc_cq_state n ccq).cq csq.cqid with
          usage_cnt := usage_inc P ((alloc_cq_state n ccq).cq csq.cqid).usage_cnt } :=
      arr_set_same _ _ _
    rw [hq2] at hh
    rw [hh]
    have h0 : ((alloc_cq_state n ccq).cq ccq.qid).usage_cnt = 0 := by
      rw [hcqa]
      exact hcz
    rw [h0, usage_inc_zero P hbits]
  have hprp : ccq.prp1 ≠ 0 := hok1.2.2.2.2.2.2.2.1
  have halloc : cq_allocated (alloc_sq_state P (alloc_cq_state n ccq) csq) ccq.qid := by
    show ((alloc_sq_state P (alloc_cq_state n ccq) csq).cq ccq.qid).dma_addr ≠ 0 ∧
      ((alloc_sq_state P (alloc_cq_state n ccq) csq).cq ccq.qid).id = ccq.qid
    rw [hcq2, hcqa]
    exact ⟨hprp, rfl⟩
  refine ⟨by rw [hcq2], ?_, ?_⟩
  · refine (adm_cmd_del_cq_in_use_aux P _ dcq cqe3 he1 (by omega) he3 (he2 ▸ halloc) ?_)
    rw [he2, hcq2]
    exact Nat.one_pos
  · have hdok := alloc_sq_state_del_ok P (alloc_cq_state n ccq) csq dsq hok2 hd1 hd2 hd3
    refine ⟨_, adm_cmd_del_sq_run P _ dsq cqe4 hdok, rfl, ?_, ?_⟩
    · show ((del_sq_state P (alloc_sq_state P (alloc_cq_state n ccq) csq) dsq.qid).cq
        ccq.qid).usage_cnt = 0
      rw [hd2, ← hq2, del_alloc_sq_state_cq P _ csq hok2]
      show usage_dec P (usage_inc P ((alloc_cq_state n ccq).cq csq.cqid).usage_cnt) = 0
      rw [hq2, hcqa]
      show usage_dec P (usage_inc P (n.cq ccq.qid).usage_cnt) = 0
      rw [hcz, usage_dec_inc P 0 (by omega)]
    · have hcq4 : (del_sq_state P (alloc_sq_state P (alloc_cq_state n ccq) csq) dsq.qid).cq
          ccq.qid = { (alloc_cq_state n ccq).cq ccq.qid with usage_cnt := 0 } := by
        rw [hd2, ← hq2, del_alloc_sq_state_cq P _ csq hok2, hq2, hcqa]
        show _ = _
        dsimp only
        rw [hcz, usage_dec_inc P 0 (by omega)]
      have hok5 : del_cq_ok P
          (del_sq_state P (alloc_sq_state P (alloc_cq_state n ccq) csq) dsq.qid) dcq := by
        refine ⟨he1, by omega, by omega, he3, ?_, ?_⟩
        · rw [he2]
          show (_ : NVMEIOCQueue).dma_addr ≠ 0 ∧ (_ : NVMEIOCQueue).id = ccq.qid
          rw [hcq4, hcqa]
          exact ⟨hprp, rfl⟩
        · rw [he2, hcq4]
      refine ⟨_, adm_cmd_del_cq_run P _ dcq cqe5 hok5, rfl, ?_⟩
      intro hh
      have h5 : (del_cq_state P
          (del_sq_state P (alloc_sq_state P (alloc_cq_state n ccq) csq) dsq.qid) dcq.qid).cq
          dcq.qid = cq_reset P ((del_sq_state P (alloc_sq_state P (alloc_cq_state n ccq) csq)
            dsq.qid).cq dcq.qid) := arr_set_same _ _ _
      rw [← he2] at hh
      apply hh.1
      rw [h5]
      rfl

/-- Witness for C6: completion queue 5 and submission queue 3 on the zeroed
controller. -/
theorem link_unlink_sequence_witness :
    ∃ r1 r2, adm_cmd_alloc_cq nvme_h state_zero (cmd_create_cq 5) cqe_zero = some r1 ∧
      r1.ret = 0 ∧ adm_cmd_alloc_sq nvme_h r1.n (cmd_create_sq 3 5) cqe_zero = some r2 ∧
      r2.ret = 0 ∧ (r2.n.cq 5).usage_cnt = 1 ∧
      adm_cmd_del_cq nvme_h r2.n (cmd_delete_cq 5) cqe_zero =
        some ⟨r2.n, { cqe_zero with sc := nvme_h.NVME_SC_INVALID_FIELD },
              nvme_h.NVME_SC_INVALID_FIELD, []⟩ ∧
      ∃ r4, adm_cmd_del_sq nvme_h r2.n (cmd_delete_sq 3) cqe_zero = some r4 ∧ r4.ret = 0 ∧
        (r4.n.cq 5).usage_cnt = 0 ∧
        ∃ r5, adm_cmd_del_cq nvme_h r4.n (cmd_delete_cq 5) cqe_zero = some r5 ∧ r5.ret = 0 ∧
          ¬ cq_allocated r5.n 5 :=
  ⟨⟨alloc_cq_state state_zero (cmd_create_cq 5), cqe_zero, 0, []⟩,
    ⟨alloc_sq_state nvme_h (alloc_cq_state state_zero (cmd_create_cq 5)) (cmd_create_sq 3 5),
      cqe_zero, 0, []⟩,
    rfl, rfl, rfl, rfl,
    link_unlink_sequence nvme_h nvme_h_wf state_zero 5 3 (by decide) (by decide) (by decide)
      rfl (by decide) (cmd_create_cq 5) (cmd_create_sq 3 5) (cmd_delete_sq 3)
      (cmd_delete_cq 5) cqe_zero cqe_zero cqe_zero cqe_zero cqe_zero rfl ⟨rfl, rfl⟩
      ⟨rfl, rfl, rfl⟩ ⟨rfl, rfl, rfl⟩ _ _ rfl rfl rfl rfl⟩

/-- C7 (as amended): if Create SQ for `qid` succeeds, the Delete SQ for `qid`
(namespace field 0) that follows it succeeds; the slot is then not allocated,
its head, tail, size, priority, contiguous flag and base address are 0 and its
abort slots are as before the creation, while its identifier and its linked CQ
identifier hold `NVME_MAX_QID`; the usage counter of the linked completion queue
(a value of its `usage_cnt_bits`-bit type) is what it was before the creation. -/
theorem create_delete_sq_round_trip (P : NvmeH) (hF : P.FAIL ≠ 0) (n : NVMEState)
    (cmd dcmd : NVMECmd) (cqe cqe2 : NVMECQE) (r1 : Res)
    (hu : (n.cq cmd.cqid).usage_cnt < 2 ^ P.usage_cnt_bits)
    (hd : dcmd.opcode = P.NVME_ADM_CMD_DELETE_SQ ∧ dcmd.qid = cmd.qid ∧ dcmd.nsid = 0)
    (hr1 : adm_cmd_alloc_sq P n cmd cqe = some r1) (hr1z : r1.ret = 0) :
    ∃ r2, adm_cmd_del_sq P r1.n dcmd cqe2 = some r2 ∧ r2.ret = 0 ∧
      ¬ sq_allocated r2.n cmd.qid ∧
      r2.n.sq cmd.qid =
        { n.sq cmd.qid with id := P.NVME_MAX_QID, cq_id := P.NVME_MAX_QID, head := 0,
                            tail := 0, size := 0, prio := 0, phys_contig := 0,
                            dma_addr := 0 } ∧
      (r2.n.cq cmd.cqid).usage_cnt = (n.cq cmd.cqid).usage_cnt := by
  have hok := adm_cmd_alloc_sq_ret_zero P hF n cmd cqe r1 hr1 hr1z
  rw [adm_cmd_alloc_sq_run P hF n cmd cqe hok] at hr1
  cases hr1
  obtain ⟨hd1, hd2, hd3⟩ := hd
  have hdok := alloc_sq_state_del_ok P n cmd dcmd hok hd1 hd2 hd3
  refine ⟨_, adm_cmd_del_sq_run P _ dcmd cqe2 hdok, rfl, ?_, ?_, ?_⟩
  · intro hh
    apply hh.1
    show ((del_sq_state P (alloc_sq_state P n cmd) dcmd.qid).sq cmd.qid).dma_addr = 0
    rw [hd2, del_alloc_sq_state_sq]
  · show (del_sq_state P (alloc_sq_state P n cmd) dcmd.qid).sq cmd.qid = _
    rw [hd2, del_alloc_sq_state_sq]
  · show ((del_sq_state P (alloc_sq_state P n cmd) dcmd.qid).cq cmd.cqid).usage_cnt = _
    rw [hd2, del_alloc_sq_state_cq P n cmd hok]
    exact usage_dec_inc P _ hu

/-- Witness for C7: Create SQ 3 linked to completion queue 5, then Delete SQ 3. -/
theorem create_delete_sq_round_trip_witness :
    ∃ r1, adm_cmd_alloc_sq nvme_h (state_cq 5 0) (cmd_create_sq 3 5) cqe_zero = some r1 ∧
      r1.ret = 0 ∧
      ∃ r2, adm_cmd_del_sq nvme_h r1.n (cmd_delete_sq 3) cqe_zero = some r2 ∧ r2.ret = 0 ∧
        ¬ sq_allocated r2.n (cmd_create_sq 3 5).qid ∧
        r2.n.sq (cmd_create_sq 3 5).qid =
          { (state_cq 5 0).sq (cmd_create_sq 3 5).qid with
            id := nvme_h.NVME_MAX_QID, cq_id := nvme_h.NVME_MAX_QID, head := 0, tail := 0,
            size := 0, prio := 0, phys_contig := 0, dma_addr := 0 } ∧
        (r2.n.cq (cmd_create_sq 3 5).cqid).usage_cnt =
          ((state_cq 5 0).cq (cmd_create_sq 3 5).cqid).usage_cnt :=
  ⟨⟨alloc_sq_state nvme_h (state_cq 5 0) (cmd_create_sq 3 5), cqe_zero, 0, []⟩, rfl, rfl,
    create_delete_sq_round_trip nvme_h (by decide) (state_cq 5 0) (cmd_create_sq 3 5)
      (cmd_delete_sq 3) cqe_zero cqe_zero _ (by decide) ⟨rfl, rfl, rfl⟩ rfl rfl⟩

/-- C7 fails as stated: slot 3 starts with every field zero; Create SQ and then
Delete SQ both return 0, and the slot ends with identifier 64 and linked CQ
identifier 64 (`NVME_MAX_QID`), not the 0 and 0 it started with. -/
theorem create_delete_sq_round_trip_counterexample :
    (state_cq 5 0).sq 3 = sq_zero ∧ sq_zero.id = 0 ∧ sq_zero.cq_id = 0 ∧
    ((adm_cmd_alloc_sq nvme_h (state_cq 5 0) (cmd_create_sq 3 5) cqe_zero).bind
        (fun r1 => (adm_cmd_del_sq nvme_h r1.n (cmd_delete_sq 3) cqe_zero).map
          (fun r2 => (r1.ret, r2.ret, (r2.n.sq 3).id, (r2.n.sq 3).cq_id)))) =
      some (0, 0, 64, 64) := by
  refine ⟨rfl, rfl, rfl, ?_⟩
  decide

/-! ### The queue-link invariant -/

theorem sq_link_count_le (P : NvmeH) (n : NVMEState) (k : Nat) :
    sq_link_count P n k ≤ P.NVME_MAX_QID - 1 := by
  unfold sq_link_count
  have hsub : (Finset.range P.NVME_MAX_QID).filter
      (fun i => 1 ≤ i ∧ sq_allocated n i ∧ (n.sq i).cq_id = k) ⊆
      Finset.Ico 1 P.NVME_MAX_QID := by
    intro i hi
    rw [Finset.mem_filter, Finset.mem_range] at hi
    rw [Finset.mem_Ico]
    exact ⟨hi.2.1, hi.1⟩
  have := Finset.card_le_card hsub
  rw [Nat.card_Ico] at this
  exact this

theorem sq_link_count_congr (P : NvmeH) (n n' : NVMEState) (k : Nat)
    (h : ∀ i, (n'.sq i).id = (n.sq i).id ∧ (n'.sq i).dma_addr = (n.sq i).dma_addr ∧
      (n'.sq i).cq_id = (n.sq i).cq_id) :
    sq_link_count P n' k = sq_link_count P n k := by
  unfold sq_link_count
  congr 1
  apply Finset.filter_congr
  intro i _
  obtain ⟨h1, h2, h3⟩ := h i
  show (1 ≤ i ∧ ((n'.sq i).dma_addr ≠ 0 ∧ (n'.sq i).id = i) ∧ (n'.sq i).cq_id = k) ↔
    (1 ≤ i ∧ ((n.sq i).dma_addr ≠ 0 ∧ (n.sq i).id = i) ∧ (n.sq i).cq_id = k)
  rw [h1, h2, h3]

theorem sq_link_count_pos (P : NvmeH) (n : NVMEState) (i : Nat) (h1 : 1 ≤ i)
    (h2 : i < P.NVME_MAX_QID) (h3 : sq_allocated n i) :
    1 ≤ sq_link_count P n (n.sq i).cq_id := by
  unfold sq_link_count
  apply Finset.card_pos.mpr
  refine ⟨i, ?_⟩
  rw [Finset.mem_filter, Finset.mem_range]
  exact ⟨h2, h1, h3, rfl⟩

/-- Counting after a slot of the SQ table is given an allocated descriptor. -/
theorem sq_link_count_insert (P : NvmeH) (n n' : NVMEState) (q c k : Nat)
    (hq : 1 ≤ q ∧ q < P.NVME_MAX_QID) (hold : ¬ sq_allocated n q)
    (hnew : sq_allocated n' q ∧ (n'.sq q).cq_id = c)
    (hrest : ∀ i, i ≠ q → n'.sq i = n.sq i) :
    sq_link_count P n' k = sq_link_count P n k + (if k = c then 1 else 0) := by
  unfold sq_link_count
  by_cases hk : k = c
  · rw [if_pos hk]
    have hset : (Finset.range P.NVME_MAX_QID).filter
        (fun i => 1 ≤ i ∧ sq_allocated n' i ∧ (n'.sq i).cq_id = k) =
        insert q ((Finset.range P.NVME_MAX_QID).filter
          (fun i => 1 ≤ i ∧ sq_allocated n i ∧ (n.sq i).cq_id = k)) := by
      ext i
      rw [Finset.mem_insert, Finset.mem_filter, Finset.mem_filter, Finset.mem_range]
      by_cases hi : i = q
      · subst hi
        constructor
        · intro _; exact Or.inl rfl
        · intro _; exact ⟨hq.2, hq.1, hnew.1, by rw [hnew.2, hk]⟩
      · show (i < P.NVME_MAX_QID ∧ 1 ≤ i ∧ ((n'.sq i).dma_addr ≠ 0 ∧ (n'.sq i).id = i) ∧
            (n'.sq i).cq_id = k) ↔ _
        rw [hrest i hi]
        constructor
        · intro h; exact Or.inr h
        · intro h
          rcases h with h | h
          · exact absurd h hi
          · exact h
    rw [hset, Finset.card_insert_of_not_mem]
    intro hmem
    rw [Finset.mem_filter] at hmem
    exact hold hmem.2.2.1
  · rw [if_neg hk, Nat.add_zero]
    congr 1
    apply Finset.filter_congr
    intro i _
    by_cases hi : i = q
    · subst hi
      constructor
      · intro h; exact absurd (hnew.2 ▸ h.2.2) (fun hh => hk hh.symm)
      · intro h; exact absurd h.2.1 hold
    · show (1 ≤ i ∧ ((n'.sq i).dma_addr ≠ 0 ∧ (n'.sq i).id = i) ∧ (n'.sq i).cq_id = k) ↔ _
      rw [hrest i hi]

/-- Counting after an allocated slot of the SQ table is reset. -/
theorem sq_link_count_erase (P : NvmeH) (n n' : NVMEState) (q k : Nat)
    (hq : 1 ≤ q ∧ q < P.NVME_MAX_QID) (hold : sq_allocated n q)
    (hnew : ¬ sq_allocated n' q) (hrest : ∀ i, i ≠ q → n'.sq i = n.sq i) :
    sq_link_count P n' k = sq_link_count P n k - (if k = (n.sq q).cq_id then 1 else 0) := by
  unfold sq_link_count
  by_cases hk : k = (n.sq q).cq_id
  · rw [if_pos hk]
    have hset : (Finset.range P.NVME_MAX_QID).filter
        (fun i => 1 ≤ i ∧ sq_allocated n' i ∧ (n'.sq i).cq_id = k) =
        ((Finset.range P.NVME_MAX_QID).filter
          (fun i => 1 ≤ i ∧ sq_allocated n i ∧ (n.sq i).cq_id = k)).erase q := by
      ext i
      rw [Finset.mem_erase, Finset.mem_filter, Finset.mem_filter, Finset.mem_range]
      by_cases hi : i = q
      · subst hi
        constructor
        · intro h; exact absurd h.2.2.1 hnew
        · intro h; exact absurd rfl h.1
      · show (i < P.NVME_MAX_QID ∧ 1 ≤ i ∧ ((n'.sq i).dma_addr ≠ 0 ∧ (n'.sq i).id = i) ∧
            (n'.sq i).cq_id = k) ↔ _
        rw [hrest i hi]
        constructor
        · intro h; exact ⟨hi, h⟩
        · intro h; exact h.2
    rw [hset, Finset.card_erase_of_mem]
    rw [Finset.mem_filter, Finset.mem_range]
    exact ⟨hq.2, hq.1, hold, hk.symm⟩
  · rw [if_neg hk, Nat.sub_zero]
    congr 1
    apply Finset.filter_congr
    intro i _
    by_cases hi : i = q
    · subst hi
      constructor
      · intro h; exact absurd h.2.1 hnew
      · intro h; exact absurd h.2.2.symm hk
    · show (1 ≤ i ∧ ((n'.sq i).dma_addr ≠ 0 ∧ (n'.sq i).id = i) ∧ (n'.sq i).cq_id = k) ↔ _
      rw [hrest i hi]

theorem queue_link_inv_congr (P : NvmeH) (n n' : NVMEState) (hcq : n'.cq = n.cq)
    (hsq : ∀ i, (n'.sq i).id = (n.sq i).id ∧ (n'.sq i).dma_addr = (n.sq i).dma_addr ∧
      (n'.sq i).cq_id = (n.sq i).cq_id)
    (h : queue_link_inv P n) : queue_link_inv P n' := by
  obtain ⟨ha, hb⟩ := h
  constructor
  · intro k h1 h2
    rw [sq_link_count_congr P n n' k hsq, hcq]
    exact ha k h1 h2
  · intro i h1 h2 h3
    obtain ⟨e1, e2, e3⟩ := hsq i
    have h3' : sq_allocated n i := by
      show (n.sq i).dma_addr ≠ 0 ∧ (n.sq i).id = i
      rw [← e1, ← e2]
      exact h3
    obtain ⟨b1, b2, b3⟩ := hb i h1 h2 h3'
    rw [e3]
    refine ⟨b1, b2, ?_⟩
    show (n'.cq (n.sq i).cq_id).dma_addr ≠ 0 ∧ (n'.cq (n.sq i).cq_id).id = (n.sq i).cq_id
    rw [hcq]
    exact b3

theorem queue_link_inv_init (P : NvmeH) (n : NVMEState) (h : io_idle P n) :
    queue_link_inv P n := by
  obtain ⟨h1, h2⟩ := h
  constructor
  · intro k hk1 hk2
    rw [(h2 k hk1 hk2).2]
    unfold sq_link_count
    symm
    rw [Finset.card_eq_zero, Finset.filter_eq_empty_iff]
    intro i hi hh
    rw [Finset.mem_range] at hi
    exact h1 i hh.1 hi hh.2.1
  · intro i hi1 hi2 hi3
    exact absurd hi3 (h1 i hi1 hi2)

theorem usage_dec_pos (P : NvmeH) (v : Nat) (h1 : 1 ≤ v) (h2 : v < 2 ^ P.usage_cnt_bits) :
    usage_dec P v = v - 1 := by
  unfold usage_dec
  have : v + 2 ^ P.usage_cnt_bits - 1 = (v - 1) + 2 ^ P.usage_cnt_bits := by omega
  rw [this, Nat.add_mod_right, Nat.mod_eq_of_lt (by omega)]

theorem queue_link_inv_alloc_sq (P : NvmeH) (hP : P.WF) (n : NVMEState) (cmd : NVMECmd)
    (hok : alloc_sq_ok P n cmd) (h : queue_link_inv P n) :
    queue_link_inv P (alloc_sq_state P n cmd) := by
  obtain ⟨ha, hb⟩ := h
  obtain ⟨_, h2, h3, h4, _, h6, h7, h8, _, _, h11⟩ := hok
  have hfit := hP.qid_fits
  have hsq : (alloc_sq_state P n cmd).sq cmd.qid =
      { n.sq cmd.qid with id := cmd.qid, size := cmd.qsize, phys_contig := cmd.pc,
                          cq_id := cmd.cqid, prio := cmd.qprio, dma_addr := cmd.prp1 } :=
    arr_set_same _ _ _
  have hrest : ∀ i, i ≠ cmd.qid → (alloc_sq_state P n cmd).sq i = n.sq i :=
    fun i hi => arr_set_other _ _ _ _ hi
  have hcq : (alloc_sq_state P n cmd).cq cmd.cqid =
      { n.cq cmd.cqid with usage_cnt := usage_inc P (n.cq cmd.cqid).usage_cnt } :=
    arr_set_same _ _ _
  have hcrest : ∀ k, k ≠ cmd.cqid → (alloc_sq_state P n cmd).cq k = n.cq k :=
    fun k hk => arr_set_other _ _ _ _ hk
  have hnew : sq_allocated (alloc_sq_state P n cmd) cmd.qid ∧
      ((alloc_sq_state P n cmd).sq cmd.qid).cq_id = cmd.cqid := by
    refine ⟨?_, by rw [hsq]⟩
    show ((alloc_sq_state P n cmd).sq cmd.qid).dma_addr ≠ 0 ∧
      ((alloc_sq_state P n cmd).sq cmd.qid).id = cmd.qid
    rw [hsq]
    exact ⟨h11, rfl⟩
  have hcount := fun k => sq_link_count_insert P n (alloc_sq_state P n cmd) cmd.qid cmd.cqid k
    ⟨by omega, h3⟩ h6 hnew hrest
  have hall : ∀ c, cq_allocated n c → cq_allocated (alloc_sq_state P n cmd) c := by
    intro c hc
    show ((alloc_sq_state P n cmd).cq c).dma_addr ≠ 0 ∧ ((alloc_sq_state P n cmd).cq c).id = c
    by_cases hcc : c = cmd.cqid
    · subst hcc
      rw [hcq]
      exact hc
    · rw [hcrest c hcc]
      exact hc
  constructor
  · intro k hk1 hk2
    rw [hcount k]
    by_cases hk : k = cmd.cqid
    · subst hk
      rw [if_pos rfl, hcq]
      show usage_inc P (n.cq cmd.cqid).usage_cnt = _
      rw [ha cmd.cqid hk1 hk2]
      unfold usage_inc
      apply Nat.mod_eq_of_lt
      have hle := sq_link_count_le P (alloc_sq_state P n cmd) cmd.cqid
      rw [hcount cmd.cqid, if_pos rfl] at hle
      omega
    · rw [if_neg hk, Nat.add_zero, hcrest k hk]
      exact ha k hk1 hk2
  · intro i hi1 hi2 hi3
    by_cases hi : i = cmd.qid
    · subst hi
      rw [hnew.2]
      exact ⟨by omega, h7, hall cmd.cqid h8⟩
    · have e := hrest i hi
      have hi3' : sq_allocated n i := by
        show (n.sq i).dma_addr ≠ 0 ∧ (n.sq i).id = i
        rw [← e]
        exact hi3
      rw [e]
      obtain ⟨b1, b2, b3⟩ := hb i hi1 hi2 hi3'
      exact ⟨b1, b2, hall _ b3⟩

theorem queue_link_inv_del_sq (P : NvmeH) (hP : P.WF) (n : NVMEState) (cmd : NVMECmd)
    (hok : del_sq_ok P n cmd) (h : queue_link_inv P n) :
    queue_link_inv P (del_sq_state P n cmd.qid) ∧
      1 ≤ (n.cq (n.sq cmd.qid).cq_id).usage_cnt := by
  obtain ⟨ha, hb⟩ := h
  obtain ⟨_, h2, h3, _, h5, _⟩ := hok
  have hfit := hP.qid_fits
  obtain ⟨b1, b2, b3⟩ := hb cmd.qid (by omega) h3 h5
  have hlink : (n.sq cmd.qid).cq_id ≠ P.NVME_MAX_QID := by omega
  have hstate : del_sq_state P n cmd.qid =
      { n with
        cq := arr_set n.cq (n.sq cmd.qid).cq_id
          { n.cq (n.sq cmd.qid).cq_id with
            usage_cnt := usage_dec P (n.cq (n.sq cmd.qid).cq_id).usage_cnt },
        sq := arr_set n.sq cmd.qid (sq_reset P (n.sq cmd.qid)) } := by
    unfold del_sq_state
    rw [if_pos hlink]
  have hsq : (del_sq_state P n cmd.qid).sq cmd.qid = sq_reset P (n.sq cmd.qid) := by
    rw [hstate]
    exact arr_set_same _ _ _
  have hrest : ∀ i, i ≠ cmd.qid → (del_sq_state P n cmd.qid).sq i = n.sq i := by
    intro i hi
    rw [hstate]
    exact arr_set_other _ _ _ _ hi
  have hcq : (del_sq_state P n cmd.qid).cq (n.sq cmd.qid).cq_id =
      { n.cq (n.sq cmd.qid).cq_id with
        usage_cnt := usage_dec P (n.cq (n.sq cmd.qid).cq_id).usage_cnt } := by
    rw [hstate]
    exact arr_set_same _ _ _
  have hcrest : ∀ k, k ≠ (n.sq cmd.qid).cq_id → (del_sq_state P n cmd.qid).cq k = n.cq k := by
    intro k hk
    rw [hstate]
    exact arr_set_other _ _ _ _ hk
  have hnew : ¬ sq_allocated (del_sq_state P n cmd.qid) cmd.qid := by
    intro hh
    apply hh.1
    rw [hsq]
    rfl
  have hcount := fun k => sq_link_count_erase P n (del_sq_state P n cmd.qid) cmd.qid k
    ⟨by omega, h3⟩ h5 hnew hrest
  have hpos := sq_link_count_pos P n cmd.qid (by omega) h3 h5
  have hle := sq_link_count_le P n (n.sq cmd.qid).cq_id
  have hall : ∀ c, cq_allocated n c → cq_allocated (del_sq_state P n cmd.qid) c := by
    intro c hc
    show ((del_sq_state P n cmd.qid).cq c).dma_addr ≠ 0 ∧
      ((del_sq_state P n cmd.qid).cq c).id = c
    by_cases hcc : c = (n.sq cmd.qid).cq_id
    · rw [hcc, hcq]
      rw [hcc] at hc
      exact hc
    · rw [hcrest c hcc]
      exact hc
  refine ⟨⟨?_, ?_⟩, ?_⟩
  · intro k hk1 hk2
    rw [hcount k]
    by_cases hk : k = (n.sq cmd.qid).cq_id
    · rw [if_pos hk, hk, hcq]
      show usage_dec P (n.cq (n.sq cmd.qid).cq_id).usage_cnt = _
      rw [ha _ b1 b2]
      exact usage_dec_pos P _ hpos (by omega)
    · rw [if_neg hk, Nat.sub_zero, hcrest k hk]
      exact ha k hk1 hk2
  · intro i hi1 hi2 hi3
    by_cases hi : i = cmd.qid
    · subst hi
      exact absurd hi3 hnew
    · have e := hrest i hi
      have hi3' : sq_allocated n i := by
        show (n.sq i).dma_addr ≠ 0 ∧ (n.sq i).id = i
        rw [← e]
        exact hi3
      rw [e]
      obtain ⟨c1, c2, c3⟩ := hb i hi1 hi2 hi3'
      exact ⟨c1, c2, hall _ c3⟩
  · rw [ha _ b1 b2]
    exact hpos

theorem queue_link_inv_alloc_cq (P : NvmeH) (n : NVMEState) (cmd : NVMECmd)
    (hok : alloc_cq_ok P n cmd) (h : queue_link_inv P n) :
    queue_link_inv P (alloc_cq_state n cmd) := by
  obtain ⟨ha, hb⟩ := h
  obtain ⟨_, h2, h3, _, h5, _, _, h8, _⟩ := hok
  have hcq : (alloc_cq_state n cmd).cq cmd.qid =
      { n.cq cmd.qid with id := cmd.qid, dma_addr := cmd.prp1, irq_enabled := cmd.ien,
                          vector := cmd.iv, phase_tag := 1, size := cmd.qsize,
                          phys_contig := cmd.pc } := arr_set_same _ _ _
  have hcrest : ∀ k, k ≠ cmd.qid → (alloc_cq_state n cmd).cq k = n.cq k :=
    fun k hk => arr_set_other _ _ _ _ hk
  have hcount : ∀ k, sq_link_count P (alloc_cq_state n cmd) k = sq_link_count P n k :=
    fun k => sq_link_count_congr P n _ k (fun _ => ⟨rfl, rfl, rfl⟩)
  have hall : ∀ c, cq_allocated n c → cq_allocated (alloc_cq_state n cmd) c := by
    intro c hc
    show ((alloc_cq_state n cmd).cq c).dma_addr ≠ 0 ∧ ((alloc_cq_state n cmd).cq c).id = c
    by_cases hcc : c = cmd.qid
    · subst hcc
      rw [hcq]
      exact ⟨h8, rfl⟩
    · rw [hcrest c hcc]
      exact hc
  constructor
  · intro k hk1 hk2
    rw [hcount k]
    by_cases hk : k = cmd.qid
    · subst hk
      rw [hcq]
      exact ha cmd.qid hk1 hk2
    · rw [hcrest k hk]
      exact ha k hk1 hk2
  · intro i hi1 hi2 hi3
    obtain ⟨c1, c2, c3⟩ := hb i hi1 hi2 hi3
    exact ⟨c1, c2, hall _ c3⟩

theorem queue_link_inv_del_cq (P : NvmeH) (n : NVMEState) (cmd : NVMECmd)
    (hok : del_cq_ok P n cmd) (h : queue_link_inv P n) :
    queue_link_inv P (del_cq_state P n cmd.qid) := by
  obtain ⟨ha, hb⟩ := h
  obtain ⟨_, h2, h3, _, h5, h6⟩ := hok
  have hcq : (del_cq_state P n cmd.qid).cq cmd.qid = cq_reset P (n.cq cmd.qid) :=
    arr_set_same _ _ _
  have hcrest : ∀ k, k ≠ cmd.qid → (del_cq_state P n cmd.qid).cq k = n.cq k :=
    fun k hk => arr_set_other _ _ _ _ hk
  have hcount : ∀ k, sq_link_count P (del_cq_state P n cmd.qid) k = sq_link_count P n k :=
    fun k => sq_link_count_congr P n _ k (fun _ => ⟨rfl, rfl, rfl⟩)
  constructor
  · intro k hk1 hk2
    rw [hcount k]
    by_cases hk : k = cmd.qid
    · subst hk
      rw [hcq]
      exact ha cmd.qid hk1 hk2
    · rw [hcrest k hk]
      exact ha k hk1 hk2
  · intro i hi1 hi2 hi3
    obtain ⟨c1, c2, c3⟩ := hb i hi1 hi2 hi3
    refine ⟨c1, c2, ?_⟩
    have hne : (n.sq i).cq_id ≠ cmd.qid := by
      intro heq
      have hpos := sq_link_count_pos P n i hi1 hi2 hi3
      rw [heq, ← ha cmd.qid (by omega) h3, h6] at hpos
      omega
    show ((del_cq_state P n cmd.qid).cq (n.sq i).cq_id).dma_addr ≠ 0 ∧
      ((del_cq_state P n cmd.qid).cq (n.sq i).cq_id).id = (n.sq i).cq_id
    rw [hcrest _ hne]
    exact c3

/-! ### What each handler does to the queue tables -/

theorem adm_cmd_get_log_page_state (P : NvmeH) (n : NVMEState) (cmd : NVMECmd)
    (cqe : NVMECQE) : ∀ r, adm_cmd_get_log_page P n cmd cqe = some r → r.n = n := by
  unfold adm_cmd_get_log_page
  dsimp only
  repeat' first
    | (apply path_some; rfl)
    | (apply path_ite <;> intro _)

theorem adm_cmd_identify_state (P : NvmeH) (n : NVMEState) (cmd : NVMECmd)
    (cqe : NVMECQE) : ∀ r, adm_cmd_identify P n cmd cqe = some r → r.n = n := by
  unfold adm_cmd_identify
  dsimp only
  repeat' first
    | (apply path_some; rfl)
    | (apply path_ite <;> intro _)

theorem adm_cmd_async_ev_req_state (P : NvmeH) (n : NVMEState) (cmd : NVMECmd)
    (cqe : NVMECQE) : ∀ r, adm_cmd_async_ev_req P n cmd cqe = some r → r.n = n := by
  unfold adm_cmd_async_ev_req
  dsimp only
  repeat' first
    | (apply path_some; rfl)
    | (apply path_ite <;> intro _)

theorem do_features_frame (P : NvmeH) (n : NVMEState) (cmd : NVMECmd) (cqe : NVMECQE) :
    ∀ r, do_features P n cmd cqe = some r →
      r.n.sq = n.sq ∧ r.n.cq = n.cq ∧ r.n.abort = n.abort := by
  unfold do_features feature_access
  dsimp only
  repeat' first
    | (apply path_some; exact ⟨rfl, rfl, rfl⟩)
    | (apply path_ite <;> intro _)

theorem adm_cmd_set_features_frame (P : NvmeH) (n : NVMEState) (cmd : NVMECmd)
    (cqe : NVMECQE) :
    ∀ r, adm_cmd_set_features P n cmd cqe = some r →
      r.n.sq = n.sq ∧ r.n.cq = n.cq ∧ r.n.abort = n.abort := by
  unfold adm_cmd_set_features
  apply path_ite <;> intro _
  · apply path_some
    exact ⟨rfl, rfl, rfl⟩
  · exact do_features_frame P n cmd cqe

theorem adm_cmd_get_features_frame (P : NvmeH) (n : NVMEState) (cmd : NVMECmd)
    (cqe : NVMECQE) :
    ∀ r, adm_cmd_get_features P n cmd cqe = some r →
      r.n.sq = n.sq ∧ r.n.cq = n.cq ∧ r.n.abort = n.abort := by
  unfold adm_cmd_get_features
  apply path_ite <;> intro _
  · apply path_some
    exact ⟨rfl, rfl, rfl⟩
  · exact do_features_frame P n cmd cqe

/-- Either `adm_cmd_abort` returns the state it was given, or it found a free
slot in an allocated submission queue and recorded the command identifier. -/
theorem adm_cmd_abort_outcome (P : NvmeH) (fuel : Nat) (mem : HostMem) (n : NVMEState)
    (cmd : NVMECmd) (cqe : NVMECQE) :
    ∀ r, adm_cmd_abort P fuel mem n cmd cqe = some r →
      r.n = n ∨
      (cmd.sqid < P.NVME_MAX_QID ∧ n.abort ≠ P.NVME_ABORT_COMMAND_LIMIT ∧
        abort_free_slot P (n.sq cmd.sqid) P.NVME_ABORT_COMMAND_LIMIT 0 ≠
          P.NVME_ABORT_COMMAND_LIMIT ∧
        r.n = abort_state P n cmd.sqid
          (abort_free_slot P (n.sq cmd.sqid) P.NVME_ABORT_COMMAND_LIMIT 0) cmd.cmdid) := by
  unfold adm_cmd_abort
  dsimp only
  repeat' first
    | (apply path_some; exact Or.inl rfl)
    | (apply path_ite <;> intro _)
  rename_i h1 h2 h3 h4 h5 h6 h7
  obtain ⟨h8, _, h10⟩ := adm_get_sq_ne P n cmd.sqid h5
  rw [h10] at h7 ⊢
  intro r h
  split at h
  · cases h
  · rename_i found _
    cases found
    · left
      simp only [Bool.false_eq_true, if_false] at h
      split at h <;> cases h <;> rfl
    · right
      refine ⟨h8, h6, h7, ?_⟩
      simp only [if_true] at h
      split at h <;> cases h <;> rfl

/-- A property of the state that survives every handler survives
`nvme_admin_command`. -/
theorem nvme_admin_command_preserves (P : NvmeH) (fuel : Nat) (mem : HostMem) (n : NVMEState)
    (sqe : NVMECmd) (cqe : NVMECQE) (Q : NVMEState → Prop) (hn : Q n)
    (h1 : ∀ r, adm_cmd_del_sq P n sqe cqe = some r → Q r.n)
    (h2 : ∀ r, adm_cmd_alloc_sq P n sqe cqe = some r → Q r.n)
    (h3 : ∀ r, adm_cmd_del_cq P n sqe cqe = some r → Q r.n)
    (h4 : ∀ r, adm_cmd_alloc_cq P n sqe cqe = some r → Q r.n)
    (h5 : ∀ r, adm_cmd_abort P fuel mem n sqe cqe = some r → Q r.n)
    (h6 : ∀ r, adm_cmd_set_features P n sqe cqe = some r → Q r.n)
    (h7 : ∀ r, adm_cmd_get_features P n sqe cqe = some r → Q r.n) :
    ∀ r, nvme_admin_command P fuel mem n sqe cqe = some r → Q r.n := by
  intro r h
  unfold nvme_admin_command at h
  split at h
  · cases h
    exact hn
  · rename_i f _
    split at h
    · cases h
    · rename_i r0 hr0
      cases h
      show Q r0.n
      cases f
      · exact h1 r0 hr0
      · exact h2 r0 hr0
      · rw [adm_cmd_get_log_page_state P n sqe cqe r0 hr0]
        exact hn
      · exact h3 r0 hr0
      · exact h4 r0 hr0
      · rw [adm_cmd_identify_state P n sqe cqe r0 hr0]
        exact hn
      · exact h5 r0 hr0
      · exact h6 r0 hr0
      · exact h7 r0 hr0
      · rw [adm_cmd_async_ev_req_state P n sqe cqe r0 hr0]
        exact hn

theorem queue_link_inv_step (P : NvmeH) (hP : P.WF) (fuel : Nat) (mem : HostMem)
    (n : NVMEState) (sqe : NVMECmd) (cqe : NVMECQE) (hi : queue_link_inv P n) :
    ∀ r, nvme_admin_command P fuel mem n sqe cqe = some r → queue_link_inv P r.n := by
  have hF := hP.fail_ne
  apply nvme_admin_command_preserves P fuel mem n sqe cqe (queue_link_inv P) hi
  · intro r hr
    by_cases hz : r.ret = 0
    · have hok := adm_cmd_del_sq_ret_zero P hF n sqe cqe r hr hz
      rw [adm_cmd_del_sq_run P n sqe cqe hok] at hr
      cases hr
      exact (queue_link_inv_del_sq P hP n sqe hok hi).1
    · rw [adm_cmd_del_sq_atomic P n sqe cqe r hr (Or.inr (Or.inl hz))]
      exact hi
  · intro r hr
    by_cases hz : r.ret = 0
    · have hok := adm_cmd_alloc_sq_ret_zero P hF n sqe cqe r hr hz
      rw [adm_cmd_alloc_sq_run P hF n sqe cqe hok] at hr
      cases hr
      exact queue_link_inv_alloc_sq P hP n sqe hok hi
    · rw [adm_cmd_alloc_sq_atomic P n sqe cqe r hr (Or.inr (Or.inl hz))]
      exact hi
  · intro r hr
    rcases adm_cmd_del_cq_outcome P n sqe cqe r hr with h | ⟨hok, h⟩
    · rw [h]
      exact hi
    · rw [h]
      exact queue_link_inv_del_cq P n sqe hok hi
  · intro r hr
    by_cases hz : r.ret = 0
    · have hok := adm_cmd_alloc_cq_ret_zero P hF n sqe cqe r hr hz
      rw [adm_cmd_alloc_cq_run P hF n sqe cqe hok] at hr
      cases hr
      exact queue_link_inv_alloc_cq P n sqe hok hi
    · rw [adm_cmd_alloc_cq_atomic P n sqe cqe r hr (Or.inr (Or.inl hz))]
      exact hi
  · intro r hr
    rcases adm_cmd_abort_outcome P fuel mem n sqe cqe r hr with h | ⟨_, _, _, h⟩
    · rw [h]
      exact hi
    · rw [h]
      refine queue_link_inv_congr P n _ rfl ?_ hi
      intro i
      show ((arr_set n.sq sqe.sqid _ i).id = _ ∧ (arr_set n.sq sqe.sqid _ i).dma_addr = _ ∧
        (arr_set n.sq sqe.sqid _ i).cq_id = _)
      by_cases hh : i = sqe.sqid
      · subst hh
        rw [arr_set_same]
        exact ⟨rfl, rfl, rfl⟩
      · rw [arr_set_other _ _ _ _ hh]
        exact ⟨rfl, rfl, rfl⟩
  · intro r hr
    obtain ⟨e1, e2, _⟩ := adm_cmd_set_features_frame P n sqe cqe r hr
    exact queue_link_inv_congr P n _ e2 (fun i => by rw [e1]; exact ⟨rfl, rfl, rfl⟩) hi
  · intro r hr
    obtain ⟨e1, e2, _⟩ := adm_cmd_get_features_frame P n sqe cqe r hr
    exact queue_link_inv_congr P n _ e2 (fun i => by rw [e1]; exact ⟨rfl, rfl, rfl⟩) hi

theorem queue_link_inv_reachable (P : NvmeH) (hP : P.WF) (n0 n : NVMEState)
    (h0 : io_idle P n0) (hr : Reachable P n0 n) : queue_link_inv P n := by
  induction hr with
  | init => exact queue_link_inv_init P n0 h0
  | step n fuel mem sqe cqe r _ _ hstep ih =>
    exact queue_link_inv_step P hP fuel mem n sqe cqe ih r hstep

theorem sq_count_all_eq (P : NvmeH) (n : NVMEState) (k : Nat)
    (h0 : ¬ (sq_allocated n 0 ∧ (n.sq 0).cq_id = k)) :
    sq_count_all P n k = sq_link_count P n k := by
  unfold sq_count_all sq_link_count
  congr 1
  apply Finset.filter_congr
  intro i _
  constructor
  · intro h
    refine ⟨?_, h⟩
    by_contra hi
    have hi0 : i = 0 := by omega
    subst hi0
    exact h0 h
  · intro h
    exact h.2

/-- No admin command changes the identifier, the base address or the linked CQ
identifier of slot 0 of the SQ table. -/
theorem sq_slot_zero_frame (P : NvmeH) (hP : P.WF) (n0 n : NVMEState)
    (hr : Reachable P n0 n) :
    (n.sq 0).id = (n0.sq 0).id ∧ (n.sq 0).dma_addr = (n0.sq 0).dma_addr ∧
      (n.sq 0).cq_id = (n0.sq 0).cq_id := by
  have hF := hP.fail_ne
  induction hr with
  | init => exact ⟨rfl, rfl, rfl⟩
  | step n fuel mem sqe cqe r _ _ hstep ih =>
    refine nvme_admin_command_preserves P fuel mem n sqe cqe
      (fun m => (m.sq 0).id = (n0.sq 0).id ∧ (m.sq 0).dma_addr = (n0.sq 0).dma_addr ∧
        (m.sq 0).cq_id = (n0.sq 0).cq_id) ih ?_ ?_ ?_ ?_ ?_ ?_ ?_ r hstep
    · intro r hr
      by_cases hz : r.ret = 0
      · have hok := adm_cmd_del_sq_ret_zero P hF n sqe cqe r hr hz
        rw [adm_cmd_del_sq_run P n sqe cqe hok] at hr
        cases hr
        have hne : (0 : Nat) ≠ sqe.qid := fun h => hok.2.1 h.symm
        have h0 : (del_sq_state P n sqe.qid).sq 0 = n.sq 0 := by
          unfold del_sq_state
          split
          · exact arr_set_other _ _ _ _ hne
          · exact arr_set_other _ _ _ _ hne
        show ((del_sq_state P n sqe.qid).sq 0).id = _ ∧
          ((del_sq_state P n sqe.qid).sq 0).dma_addr = _ ∧
          ((del_sq_state P n sqe.qid).sq 0).cq_id = _
        rw [h0]
        exact ih
      · rw [adm_cmd_del_sq_atomic P n sqe cqe r hr (Or.inr (Or.inl hz))]
        exact ih
    · intro r hr
      by_cases hz : r.ret = 0
      · have hok := adm_cmd_alloc_sq_ret_zero P hF n sqe cqe r hr hz
        rw [adm_cmd_alloc_sq_run P hF n sqe cqe hok] at hr
        cases hr
        have hne : (0 : Nat) ≠ sqe.qid := fun h => hok.2.1 h.symm
        have h0 : (alloc_sq_state P n sqe).sq 0 = n.sq 0 := arr_set_other _ _ _ _ hne
        show ((alloc_sq_state P n sqe).sq 0).id = _ ∧
          ((alloc_sq_state P n sqe).sq 0).dma_addr = _ ∧
          ((alloc_sq_state P n sqe).sq 0).cq_id = _
        rw [h0]
        exact ih
      · rw [adm_cmd_alloc_sq_atomic P n sqe cqe r hr (Or.inr (Or.inl hz))]
        exact ih
    · intro r hr
      rcases adm_cmd_del_cq_outcome P n sqe cqe r hr with h | ⟨_, h⟩
      · rw [h]
        exact ih
      · rw [h]
        exact ih
    · intro r hr
      by_cases hz : r.ret = 0
      · have hok := adm_cmd_alloc_cq_ret_zero P hF n sqe cqe r hr hz
        rw [adm_cmd_alloc_cq_run P hF n sqe cqe hok] at hr
        cases hr
        exact ih
      · rw [adm_cmd_alloc_cq_atomic P n sqe cqe r hr (Or.inr (Or.inl hz))]
        exact ih
    · intro r hr
      rcases adm_cmd_abort_outcome P fuel mem n sqe cqe r hr with h | ⟨_, _, _, h⟩
      · rw [h]
        exact ih
      · rw [h]
        show (arr_set n.sq sqe.sqid _ 0).id = _ ∧ (arr_set n.sq sqe.sqid _ 0).dma_addr = _ ∧
          (arr_set n.sq sqe.sqid _ 0).cq_id = _
        by_cases hh : 0 = sqe.sqid
        · rw [← hh, arr_set_same]
          exact ih
        · rw [arr_set_other _ _ _ _ hh]
          exact ih
    · intro r hr
      obtain ⟨e1, _, _⟩ := adm_cmd_set_features_frame P n sqe cqe r hr
      show (r.n.sq 0).id = _ ∧ (r.n.sq 0).dma_addr = _ ∧ (r.n.sq 0).cq_id = _
      rw [e1]
      exact ih
    · intro r hr
      obtain ⟨e1, _, _⟩ := adm_cmd_get_features_frame P n sqe cqe r hr
      show (r.n.sq 0).id = _ ∧ (r.n.sq 0).dma_addr = _ ∧ (r.n.sq 0).cq_id = _
      rw [e1]
      exact ih

/-- C8: queue-link invariant.  In every state reached, by admin commands through
`nvme_admin_command`, from a state with no I/O queue allocated and every I/O
usage counter 0: (a) for every `k` in `[1, NVME_MAX_QID)` the usage counter of
`cq[k]` is the number of allocated I/O submission queues whose `cq_id` is `k`,
which is also the number over the whole table, slot 0 included, unless the admin
queue in slot 0 was itself linked to `k` at the start; (b) the `cq_id` of every
allocated I/O submission queue is in range and names an allocated completion
queue; and so a Delete SQ that succeeds finds the queue linked and decrements a
usage counter that is not 0. -/
theorem queue_link_invariant (P : NvmeH) (hP : P.WF) (n0 n : NVMEState)
    (h0 : io_idle P n0) (hr : Reachable P n0 n) :
    (∀ k, 1 ≤ k → k < P.NVME_MAX_QID → (n.cq k).usage_cnt = sq_link_count P n k) ∧
    (∀ k, 1 ≤ k → k < P.NVME_MAX_QID → ¬ (sq_allocated n0 0 ∧ (n0.sq 0).cq_id = k) →
      (n.cq k).usage_cnt = sq_count_all P n k) ∧
    (∀ i, 1 ≤ i → i < P.NVME_MAX_QID → sq_allocated n i →
      (n.sq i).cq_id < P.NVME_MAX_QID ∧ cq_allocated n (n.sq i).cq_id) ∧
    (∀ cmd cqe r, adm_cmd_del_sq P n cmd cqe = some r → r.ret = 0 →
      (n.sq cmd.qid).cq_id ≠ P.NVME_MAX_QID ∧
      0 < (n.cq (n.sq cmd.qid).cq_id).usage_cnt) := by
  have hinv := queue_link_inv_reachable P hP n0 n h0 hr
  obtain ⟨f1, f2, f3⟩ := sq_slot_zero_frame P hP n0 n hr
  refine ⟨hinv.1, ?_, fun i h1 h2 h3 => (hinv.2 i h1 h2 h3).2, ?_⟩
  · intro k hk1 hk2 hadm
    rw [sq_count_all_eq P n k]
    · exact hinv.1 k hk1 hk2
    · intro hh
      apply hadm
      have h1 : (n.sq 0).dma_addr ≠ 0 ∧ (n.sq 0).id = 0 := hh.1
      rw [f1, f2] at h1
      rw [← f3]
      exact ⟨h1, hh.2⟩
  · intro cmd cqe r hrun hz
    have hok := adm_cmd_del_sq_ret_zero P hP.fail_ne n cmd cqe r hrun hz
    have hlt := (hinv.2 cmd.qid (by have := hok.2.1; omega) hok.2.2.1 hok.2.2.2.2.1).2.1
    exact ⟨by omega, (queue_link_inv_del_sq P hP n cmd hok hinv).2⟩

theorem io_idle_state_zero : io_idle nvme_h state_zero :=
  ⟨fun _ _ _ h => h.1 rfl, fun _ _ _ => ⟨fun h => h.1 rfl, rfl⟩⟩

theorem reachable_state_linked : Reachable nvme_h state_zero state_linked :=
  Reachable.step (alloc_cq_state state_zero (cmd_create_cq 5)) 0 (fun _ => 0)
    (cmd_create_sq 3 5) cqe_zero ⟨state_linked, cqe_zero, 0, []⟩
    (Reachable.step state_zero 0 (fun _ => 0) (cmd_create_cq 5) cqe_zero
      ⟨alloc_cq_state state_zero (cmd_create_cq 5), cqe_zero, 0, []⟩ Reachable.init
      (by decide) rfl)
    (by decide) rfl

/-- Witness for C8: the zeroed controller after Create CQ 5 and Create SQ 3
linked to it. -/
theorem queue_link_invariant_witness :
    io_idle nvme_h state_zero ∧ Reachable nvme_h state_zero state_linked ∧
    (state_linked.cq 5).usage_cnt = sq_link_count nvme_h state_linked 5 ∧
    (state_linked.cq 5).usage_cnt = sq_count_all nvme_h state_linked 5 ∧
    ((state_linked.sq 3).cq_id < nvme_h.NVME_MAX_QID ∧
      cq_allocated state_linked (state_linked.sq 3).cq_id) :=
  ⟨io_idle_state_zero, reachable_state_linked,
    (queue_link_invariant nvme_h nvme_h_wf state_zero state_linked io_idle_state_zero
      reachable_state_linked).1 5 (by decide) (by decide),
    (queue_link_invariant nvme_h nvme_h_wf state_zero state_linked io_idle_state_zero
      reachable_state_linked).2.1 5 (by decide) (by decide) (by decide),
    (queue_link_invariant nvme_h nvme_h_wf state_zero state_linked io_idle_state_zero
      reachable_state_linked).2.2.1 3 (by decide) (by decide) (by decide)⟩

/-! ### The abort registry -/

theorem abort_free_slot_spec (P : NvmeH) (sq : NVMEIOSQueue) :
    ∀ k i, i ≤ abort_free_slot P sq k i ∧ abort_free_slot P sq k i ≤ i + k ∧
      (abort_free_slot P sq k i < i + k →
        sq.abort_cmd_id (abort_free_slot P sq k i) = P.NVME_EMPTY) ∧
      (∀ j, i ≤ j → j < abort_free_slot P sq k i → sq.abort_cmd_id j ≠ P.NVME_EMPTY) := by
  intro k
  induction k with
  | zero =>
    intro i
    unfold abort_free_slot
    refine ⟨le_refl _, le_refl _, fun h => absurd h (by omega), fun j h1 h2 => by omega⟩
  | succ k ih =>
    intro i
    unfold abort_free_slot
    by_cases h : sq.abort_cmd_id i = P.NVME_EMPTY
    · rw [if_pos h]
      exact ⟨le_refl _, by omega, fun _ => h, fun j h1 h2 => by omega⟩
    · rw [if_neg h]
      obtain ⟨a1, a2, a3, a4⟩ := ih (i + 1)
      refine ⟨by omega, by omega, fun hh => a3 (by omega), ?_⟩
      intro j h1 h2
      by_cases hj : j = i
      · rw [hj]
        exact h
      · exact a4 j (by omega) h2

theorem abort_slot_count_set (P : NvmeH) (sq : NVMEIOSQueue) (tmp v : Nat)
    (h1 : tmp < P.NVME_ABORT_COMMAND_LIMIT) (h2 : sq.abort_cmd_id tmp = P.NVME_EMPTY)
    (h3 : v ≠ P.NVME_EMPTY) :
    abort_slot_count P { sq with abort_cmd_id := arr_set sq.abort_cmd_id tmp v } =
      abort_slot_count P sq + 1 := by
  unfold abort_slot_count
  have hset : (Finset.range P.NVME_ABORT_COMMAND_LIMIT).filter
      (fun j => arr_set sq.abort_cmd_id tmp v j ≠ P.NVME_EMPTY) =
      insert tmp ((Finset.range P.NVME_ABORT_COMMAND_LIMIT).filter
        (fun j => sq.abort_cmd_id j ≠ P.NVME_EMPTY)) := by
    ext j
    rw [Finset.mem_insert, Finset.mem_filter, Finset.mem_filter, Finset.mem_range]
    by_cases hj : j = tmp
    · subst hj
      rw [arr_set_same]
      exact ⟨fun _ => Or.inl rfl, fun _ => ⟨h1, h3⟩⟩
    · rw [arr_set_other _ _ _ _ hj]
      exact ⟨fun h => Or.inr h, fun h => h.resolve_left hj⟩
  show ((Finset.range P.NVME_ABORT_COMMAND_LIMIT).filter
      (fun j => arr_set sq.abort_cmd_id tmp v j ≠ P.NVME_EMPTY)).card = _
  rw [hset, Finset.card_insert_of_not_mem]
  intro hmem
  rw [Finset.mem_filter] at hmem
  exact hmem.2 h2

theorem abort_total_congr (P : NvmeH) (n n' : NVMEState)
    (h : ∀ i, (n'.sq i).abort_cmd_id = (n.sq i).abort_cmd_id) :
    abort_total P n' = abort_total P n := by
  unfold abort_total
  apply Finset.sum_congr rfl
  intro q _
  unfold abort_slot_count
  rw [h q]

theorem abort_total_abort_state (P : NvmeH) (n : NVMEState) (i tmp v : Nat)
    (hi : i < P.NVME_MAX_QID) (h1 : tmp < P.NVME_ABORT_COMMAND_LIMIT)
    (h2 : (n.sq i).abort_cmd_id tmp = P.NVME_EMPTY) (h3 : v ≠ P.NVME_EMPTY) :
    abort_total P (abort_state P n i tmp v) = abort_total P n + 1 := by
  unfold abort_total
  have hmem : i ∈ Finset.range P.NVME_MAX_QID := Finset.mem_range.mpr hi
  rw [← Finset.add_sum_erase _ _ hmem, ← Finset.add_sum_erase _ (fun q => abort_slot_count P (n.sq q)) hmem]
  have hsame : (abort_state P n i tmp v).sq i =
      { n.sq i with abort_cmd_id := arr_set (n.sq i).abort_cmd_id tmp v } := arr_set_same _ _ _
  have hrest : Finset.sum ((Finset.range P.NVME_MAX_QID).erase i)
      (fun q => abort_slot_count P ((abort_state P n i tmp v).sq q)) =
      Finset.sum ((Finset.range P.NVME_MAX_QID).erase i)
        (fun q => abort_slot_count P (n.sq q)) := by
    apply Finset.sum_congr rfl
    intro q hq
    have hne : q ≠ i := (Finset.mem_erase.mp hq).1
    show abort_slot_count P (arr_set n.sq i _ q) = _
    rw [arr_set_other _ _ _ _ hne]
  rw [hrest, hsame, abort_slot_count_set P (n.sq i) tmp v h1 h2 h3]
  omega

theorem abort_inv_congr (P : NvmeH) (n n' : NVMEState)
    (h : ∀ i, (n'.sq i).abort_cmd_id = (n.sq i).abort_cmd_id) (ha : n'.abort = n.abort)
    (hi : abort_inv P n) : abort_inv P n' := by
  unfold abort_inv
  rw [abort_total_congr P n n' h, ha]
  exact hi

theorem abort_inv_init (P : NvmeH) (n : NVMEState) (h : abort_idle P n) : abort_inv P n := by
  obtain ⟨h1, h2⟩ := h
  unfold abort_inv
  rw [h2]
  refine ⟨?_, Nat.zero_le _⟩
  unfold abort_total
  apply Finset.sum_eq_zero
  intro q hq
  unfold abort_slot_count
  rw [Finset.card_eq_zero, Finset.filter_eq_empty_iff]
  intro j hj hne
  exact hne (h1 q j (Finset.mem_range.mp hq) (Finset.mem_range.mp hj))

theorem alloc_sq_state_abort (P : NvmeH) (n : NVMEState) (cmd : NVMECmd) :
    (∀ i, ((alloc_sq_state P n cmd).sq i).abort_cmd_id = (n.sq i).abort_cmd_id) ∧
      (alloc_sq_state P n cmd).abort = n.abort := by
  refine ⟨?_, rfl⟩
  intro i
  show (arr_set n.sq cmd.qid _ i).abort_cmd_id = _
  by_cases hi : i = cmd.qid
  · subst hi
    rw [arr_set_same]
  · rw [arr_set_other _ _ _ _ hi]

theorem del_sq_state_abort (P : NvmeH) (n : NVMEState) (q : Nat) :
    (∀ i, ((del_sq_state P n q).sq i).abort_cmd_id = (n.sq i).abort_cmd_id) ∧
      (del_sq_state P n q).abort = n.abort := by
  unfold del_sq_state
  split
  · refine ⟨?_, rfl⟩
    intro i
    show (arr_set n.sq q _ i).abort_cmd_id = _
    by_cases hi : i = q
    · subst hi
      rw [arr_set_same]
      rfl
    · rw [arr_set_other _ _ _ _ hi]
  · refine ⟨?_, rfl⟩
    intro i
    show (arr_set n.sq q _ i).abort_cmd_id = _
    by_cases hi : i = q
    · subst hi
      rw [arr_set_same]
      rfl
    · rw [arr_set_other _ _ _ _ hi]

theorem abort_inv_step (P : NvmeH) (hP : P.WF) (fuel : Nat) (mem : HostMem)
    (n : NVMEState) (sqe : NVMECmd) (cqe : NVMECQE) (hc : sqe.cmdid < 65536)
    (hi : abort_inv P n) :
    ∀ r, nvme_admin_command P fuel mem n sqe cqe = some r → abort_inv P r.n := by
  have hF := hP.fail_ne
  apply nvme_admin_command_preserves P fuel mem n sqe cqe (abort_inv P) hi
  · intro r hr
    by_cases hz : r.ret = 0
    · have hok := adm_cmd_del_sq_ret_zero P hF n sqe cqe r hr hz
      rw [adm_cmd_del_sq_run P n sqe cqe hok] at hr
      cases hr
      obtain ⟨e1, e2⟩ := del_sq_state_abort P n sqe.qid
      exact abort_inv_congr P n _ e1 e2 hi
    · rw [adm_cmd_del_sq_atomic P n sqe cqe r hr (Or.inr (Or.inl hz))]
      exact hi
  · intro r hr
    by_cases hz : r.ret = 0
    · have hok := adm_cmd_alloc_sq_ret_zero P hF n sqe cqe r hr hz
      rw [adm_cmd_alloc_sq_run P hF n sqe cqe hok] at hr
      cases hr
      obtain ⟨e1, e2⟩ := alloc_sq_state_abort P n sqe
      exact abort_inv_congr P n _ e1 e2 hi
    · rw [adm_cmd_alloc_sq_atomic P n sqe cqe r hr (Or.inr (Or.inl hz))]
      exact hi
  · intro r hr
    rcases adm_cmd_del_cq_outcome P n sqe cqe r hr with h | ⟨_, h⟩
    · rw [h]
      exact hi
    · rw [h]
      exact abort_inv_congr P n _ (fun _ => rfl) rfl hi
  · intro r hr
    by_cases hz : r.ret = 0
    · have hok := adm_cmd_alloc_cq_ret_zero P hF n sqe cqe r hr hz
      rw [adm_cmd_alloc_cq_run P hF n sqe cqe hok] at hr
      cases hr
      exact abort_inv_congr P n _ (fun _ => rfl) rfl hi
    · rw [adm_cmd_alloc_cq_atomic P n sqe cqe r hr (Or.inr (Or.inl hz))]
      exact hi
  · intro r hr
    rcases adm_cmd_abort_outcome P fuel mem n sqe cqe r hr with h | ⟨h1, h2, h3, h⟩
    · rw [h]
      exact hi
    · rw [h]
      obtain ⟨_, s2, s3, _⟩ := abort_free_slot_spec P (n.sq sqe.sqid)
        P.NVME_ABORT_COMMAND_LIMIT 0
      have hlt : abort_free_slot P (n.sq sqe.sqid) P.NVME_ABORT_COMMAND_LIMIT 0 <
          P.NVME_ABORT_COMMAND_LIMIT := by omega
      have hne : sqe.cmdid ≠ P.NVME_EMPTY := by
        have := hP.empty_not_cid
        omega
      obtain ⟨i1, i2⟩ := hi
      have hfit := hP.limit_fits
      unfold abort_inv
      rw [abort_total_abort_state P n sqe.sqid _ sqe.cmdid h1 hlt (s3 (by omega)) hne]
      show abort_total P n + 1 = (n.abort + 1) % 2 ^ P.abort_bits ∧
        (n.abort + 1) % 2 ^ P.abort_bits ≤ P.NVME_ABORT_COMMAND_LIMIT
      rw [Nat.mod_eq_of_lt (by omega)]
      exact ⟨by omega, by omega⟩
  · intro r hr
    obtain ⟨e1, _, e3⟩ := adm_cmd_set_features_frame P n sqe cqe r hr
    exact abort_inv_congr P n _ (fun i => by rw [e1]) e3 hi
  · intro r hr
    obtain ⟨e1, _, e3⟩ := adm_cmd_get_features_frame P n sqe cqe r hr
    exact abort_inv_congr P n _ (fun i => by rw [e1]) e3 hi

/-- C9: abort-limit invariant.  In every state reached, by admin commands
through `nvme_admin_command`, from a state with every abort slot empty and the
global abort counter 0, the number of non-empty abort slots summed over the SQ
table is at most `NVME_ABORT_COMMAND_LIMIT` and equals the counter `n->abort`;
the number summed over the allocated submission queues alone is therefore at
most the limit too. -/
theorem abort_limit_invariant (P : NvmeH) (hP : P.WF) (n0 n : NVMEState)
    (h0 : abort_idle P n0) (hr : Reachable P n0 n) :
    abort_total P n ≤ P.NVME_ABORT_COMMAND_LIMIT ∧ abort_total P n = n.abort ∧
      abort_total_allocated P n ≤ P.NVME_ABORT_COMMAND_LIMIT := by
  have hinv : abort_inv P n := by
    induction hr with
    | init => exact abort_inv_init P n0 h0
    | step n fuel mem sqe cqe r _ hc hstep ih =>
      exact abort_inv_step P hP fuel mem n sqe cqe hc ih r hstep
  have hsub : abort_total_allocated P n ≤ abort_total P n := by
    unfold abort_total_allocated abort_total
    exact Finset.sum_le_sum_of_subset (Finset.filter_subset _ _)
  have hle : abort_total P n ≤ P.NVME_ABORT_COMMAND_LIMIT := hinv.1 ▸ hinv.2
  exact ⟨hle, hinv.1, le_trans hsub hle⟩

theorem abort_idle_state_abort : abort_idle nvme_h state_abort := by
  refine ⟨?_, rfl⟩
  intro q j _ _
  show (arr_set (fun _ => { sq_zero with abort_cmd_id := fun _ => nvme_h.NVME_EMPTY }) 3
    (sq_ready 3 5 0 2) q).abort_cmd_id j = nvme_h.NVME_EMPTY
  by_cases hq : q = 3
  · subst hq
    rfl
  · rw [arr_set_other _ _ _ _ hq]

theorem reachable_abort_state :
    Reachable nvme_h state_abort (abort_state nvme_h state_abort 3 0 7) :=
  Reachable.step state_abort 16 mem_abort (cmd_abort 3 7) cqe_zero
    ⟨abort_state nvme_h state_abort 3 0 7, cqe_zero, 0, []⟩ Reachable.init (by decide) rfl

/-- Witness for C9: one accepted Abort on the controller with empty abort slots. -/
theorem abort_limit_invariant_witness :
    abort_idle nvme_h state_abort ∧
    Reachable nvme_h state_abort (abort_state nvme_h state_abort 3 0 7) ∧
    abort_total nvme_h (abort_state nvme_h state_abort 3 0 7) ≤
      nvme_h.NVME_ABORT_COMMAND_LIMIT ∧
    abort_total nvme_h (abort_state nvme_h state_abort 3 0 7) =
      (abort_state nvme_h state_abort 3 0 7).abort ∧
    abort_total_allocated nvme_h (abort_state nvme_h state_abort 3 0 7) ≤
      nvme_h.NVME_ABORT_COMMAND_LIMIT :=
  ⟨abort_idle_state_abort, reachable_abort_state,
    abort_limit_invariant nvme_h nvme_h_wf state_abort _ abort_idle_state_abort
      reachable_abort_state⟩

/-! ### Abort: the scan finds an outstanding entry -/

theorem abort_scan_finds (P : NvmeH) (mem : HostMem) (sq : NVMEIOSQueue) (cmdid : Nat)
    (hsz : sq.size < 65536) (ht : sq.tail < sq.size) :
    ∀ fuel i, i < sq.size →
      (if i ≤ sq.tail then sq.tail - i else sq.size - i + sq.tail) ≤ fuel →
      (∃ j, in_circ_range sq.size i sq.tail j ∧ sq_entry_cid P mem sq j = cmdid) →
      abort_scan P mem sq cmdid fuel i = some true := by
  intro fuel
  induction fuel with
  | zero =>
    intro i hi hd hm
    exfalso
    obtain ⟨j, hj, _⟩ := hm
    unfold in_circ_range at hj
    split_ifs at hd hj <;> omega
  | succ fuel ih =>
    intro i hi hd hm
    unfold abort_scan
    by_cases h1 : i = sq.tail
    · exfalso
      obtain ⟨j, hj, _⟩ := hm
      unfold in_circ_range at hj
      rw [if_pos (by omega)] at hj
      omega
    · rw [if_neg h1]
      by_cases h2 : mem ((sq.dma_addr + i * P.sizeof_sqe) % 2 ^ 64) = cmdid
      · rw [if_pos h2]
      · rw [if_neg h2]
        dsimp only
        have hmod : (i + 1) % 65536 = i + 1 := Nat.mod_eq_of_lt (by omega)
        rw [hmod]
        obtain ⟨j, hj, hjm⟩ := hm
        have hji : j ≠ i := by
          intro hh
          apply h2
          rw [← hh]
          exact hjm
        by_cases h3 : i + 1 = sq.size
        · rw [if_pos h3]
          apply ih 0 (by omega)
          · rw [if_pos (Nat.zero_le _)]
            split_ifs at hd <;> omega
          · refine ⟨j, ?_, hjm⟩
            unfold in_circ_range at hj ⊢
            rw [if_pos (Nat.zero_le _)]
            split_ifs at hj <;> omega
        · rw [if_neg h3]
          apply ih (i + 1) (by omega)
          · split_ifs at hd ⊢ <;> omega
          · refine ⟨j, ?_, hjm⟩
            unfold in_circ_range at hj ⊢
            split_ifs at hj ⊢ <;> omega

/-- Running `adm_cmd_abort` when every check passes and the scan finds the
command. -/
theorem adm_cmd_abort_run (P : NvmeH) (fuel : Nat) (mem : HostMem) (n : NVMEState)
    (cmd : NVMECmd) (cqe : NVMECQE) (hop : cmd.opcode = P.NVME_ADM_CMD_ABORT)
    (hns : cmd.nsid = 0) (hq : cmd.sqid < P.NVME_MAX_QID) (hadm : cmd.sqid ≠ P.ASQ_ID)
    (hal : sq_allocated n cmd.sqid) (hab : n.abort ≠ P.NVME_ABORT_COMMAND_LIMIT)
    (hslot : abort_free_slot P (n.sq cmd.sqid) P.NVME_ABORT_COMMAND_LIMIT 0 ≠
      P.NVME_ABORT_COMMAND_LIMIT)
    (hne : cmd.cmdid ≠ P.NVME_EMPTY)
    (hscan : abort_scan P mem (n.sq cmd.sqid) cmd.cmdid fuel (n.sq cmd.sqid).head =
      some true) :
    adm_cmd_abort P fuel mem n cmd cqe =
      some ⟨abort_state P n cmd.sqid
              (abort_free_slot P (n.sq cmd.sqid) P.NVME_ABORT_COMMAND_LIMIT 0) cmd.cmdid,
            { cqe with sc := P.NVME_SC_SUCCESS }, 0, []⟩ := by
  unfold adm_cmd_abort
  dsimp only
  rw [if_neg (not_not.mpr hop), if_neg (not_not.mpr hns), if_neg (by omega), if_neg hadm,
    adm_get_sq_eq P n cmd.sqid hq hal, if_neg (by omega), if_neg hab, if_neg hslot, hscan]
  dsimp only
  rw [if_pos rfl]
  dsimp only
  rw [arr_set_same]
  dsimp only
  rw [arr_set_same, if_neg hne]
  rfl

/-- C10: abort success.  For an Abort command with namespace field 0 that
targets an allocated I/O submission queue `s`, with the global counter below
the limit, a free abort slot in `s`, and cursors inside the queue (`head`,
`tail` below `size`, a 16-bit value): if some entry in the circular range from
`head` up to `tail` has the target command identifier (a 16-bit value), then,
given fuel for `size` iterations, `adm_cmd_abort` returns 0 with status
`NVME_SC_SUCCESS`; the new state is the old one except that the empty abort slot
of lowest index of `s` holds the target identifier and the global counter is
one more. -/
theorem adm_cmd_abort_success (P : NvmeH) (hP : P.WF) (fuel : Nat) (mem : HostMem)
    (n : NVMEState) (cmd : NVMECmd) (cqe : NVMECQE)
    (hop : cmd.opcode = P.NVME_ADM_CMD_ABORT) (hns : cmd.nsid = 0)
    (hq : cmd.sqid < P.NVME_MAX_QID) (hadm : cmd.sqid ≠ P.ASQ_ID)
    (hal : sq_allocated n cmd.sqid) (hab : n.abort < P.NVME_ABORT_COMMAND_LIMIT)
    (hfree : ∃ j, j < P.NVME_ABORT_COMMAND_LIMIT ∧
      (n.sq cmd.sqid).abort_cmd_id j = P.NVME_EMPTY)
    (hcid : cmd.cmdid < 65536) (hsz : (n.sq cmd.sqid).size < 65536)
    (hh : (n.sq cmd.sqid).head < (n.sq cmd.sqid).size)
    (ht : (n.sq cmd.sqid).tail < (n.sq cmd.sqid).size)
    (hm : ∃ i, in_circ_range (n.sq cmd.sqid).size (n.sq cmd.sqid).head
      (n.sq cmd.sqid).tail i ∧ sq_entry_cid P mem (n.sq cmd.sqid) i = cmd.cmdid)
    (hfuel : (n.sq cmd.sqid).size ≤ fuel) :
    ∃ tmp, tmp < P.NVME_ABORT_COMMAND_LIMIT ∧
      (n.sq cmd.sqid).abort_cmd_id tmp = P.NVME_EMPTY ∧
      (∀ j, j < tmp → (n.sq cmd.sqid).abort_cmd_id j ≠ P.NVME_EMPTY) ∧
      adm_cmd_abort P fuel mem n cmd cqe =
        some ⟨{ n with
                sq := arr_set n.sq cmd.sqid
                        ({ n.sq cmd.sqid with
                           abort_cmd_id := arr_set (n.sq cmd.sqid).abort_cmd_id tmp cmd.cmdid }),
                abort := n.abort + 1 },
              { cqe with sc := P.NVME_SC_SUCCESS }, 0, []⟩ := by
  obtain ⟨_, s2, s3, s4⟩ := abort_free_slot_spec P (n.sq cmd.sqid) P.NVME_ABORT_COMMAND_LIMIT 0
  have hslot : abort_free_slot P (n.sq cmd.sqid) P.NVME_ABORT_COMMAND_LIMIT 0 <
      P.NVME_ABORT_COMMAND_LIMIT := by
    obtain ⟨j, hj1, hj2⟩ := hfree
    by_contra hge
    exact s4 j (Nat.zero_le _) (by omega) hj2
  have hne : cmd.cmdid ≠ P.NVME_EMPTY := by
    have := hP.empty_not_cid
    omega
  have hscan := abort_scan_finds P mem (n.sq cmd.sqid) cmd.cmdid hsz ht fuel
    (n.sq cmd.sqid).head hh (by split_ifs <;> omega) hm
  have hfit := hP.limit_fits
  have hcnt : (n.abort + 1) % 2 ^ P.abort_bits = n.abort + 1 := Nat.mod_eq_of_lt (by omega)
  refine ⟨_, hslot, s3 (by omega), fun j hj => s4 j (Nat.zero_le _) hj, ?_⟩
  rw [adm_cmd_abort_run P fuel mem n cmd cqe hop hns hq hadm hal (by omega) (by omega) hne
    hscan]
  unfold abort_state
  rw [hcnt]

/-- Witness for C10: abort of command 7, found at entry 1 of submission queue 3. -/
theorem adm_cmd_abort_success_witness :
    ∃ tmp, tmp < nvme_h.NVME_ABORT_COMMAND_LIMIT ∧
      (state_abort.sq (cmd_abort 3 7).sqid).abort_cmd_id tmp = nvme_h.NVME_EMPTY ∧
      (∀ j, j < tmp → (state_abort.sq (cmd_abort 3 7).sqid).abort_cmd_id j ≠
        nvme_h.NVME_EMPTY) ∧
      adm_cmd_abort nvme_h 16 mem_abort state_abort (cmd_abort 3 7) cqe_zero =
        some ⟨{ state_abort with
                sq := arr_set state_abort.sq (cmd_abort 3 7).sqid
                        ({ state_abort.sq (cmd_abort 3 7).sqid with
                           abort_cmd_id :=
                             arr_set (state_abort.sq (cmd_abort 3 7).sqid).abort_cmd_id tmp
                               (cmd_abort 3 7).cmdid }),
                abort := state_abort.abort + 1 },
              { cqe_zero with sc := nvme_h.NVME_SC_SUCCESS }, 0, []⟩ :=
  adm_cmd_abort_success nvme_h nvme_h_wf 16 mem_abort state_abort (cmd_abort 3 7) cqe_zero
    rfl rfl (by decide) (by decide) (by decide) (by decide) ⟨0, by decide, rfl⟩ (by decide)
    (by decide) (by decide) (by decide) ⟨1, by decide, rfl⟩ (by decide)

/-! ### Create SQ: what success leaves behind -/

/-- What a Create SQ that returns 0 leaves behind, in any state: the usage
counter of the linked completion queue is incremented in the arithmetic of its
type, which is an increment by exactly one where the queue-link invariant
holds. -/
theorem alloc_sq_postcondition (P : NvmeH) (hF : P.FAIL ≠ 0) (n : NVMEState) (cmd : NVMECmd)
    (cqe : NVMECQE) (r : Res) (h : adm_cmd_alloc_sq P n cmd cqe = some r) (h0 : r.ret = 0) :
    r.n.sq cmd.qid =
        { n.sq cmd.qid with id := cmd.qid, size := cmd.qsize, phys_contig := cmd.pc,
                            cq_id := cmd.cqid, prio := cmd.qprio, dma_addr := cmd.prp1 } ∧
      sq_allocated r.n cmd.qid ∧
      r.n.cq cmd.cqid =
        { n.cq cmd.cqid with
          usage_cnt := ((n.cq cmd.cqid).usage_cnt + 1) % 2 ^ P.usage_cnt_bits } ∧
      ((n.cq cmd.cqid).usage_cnt + 1 < 2 ^ P.usage_cnt_bits →
        (r.n.cq cmd.cqid).usage_cnt = (n.cq cmd.cqid).usage_cnt + 1) ∧
      (queue_link_inv P n → P.NVME_MAX_QID ≤ 2 ^ P.usage_cnt_bits →
        (r.n.cq cmd.cqid).usage_cnt = (n.cq cmd.cqid).usage_cnt + 1) ∧
      (∀ i, i ≠ cmd.qid → r.n.sq i = n.sq i) ∧
      (∀ k, k ≠ cmd.cqid → r.n.cq k = n.cq k) ∧
      r.n.feature = n.feature ∧ r.n.abort = n.abort ∧
      r.n.cntrl_reg_mqes = n.cntrl_reg_mqes ∧ r.n.cntrl_reg_cqr = n.cntrl_reg_cqr ∧
      r.n.msix_entries_nr = n.msix_entries_nr ∧ r.n.is_msix = n.is_msix ∧ r.n.nn = n.nn := by
  have hok := adm_cmd_alloc_sq_ret_zero P hF n cmd cqe r h h0
  rw [adm_cmd_alloc_sq_run P hF n cmd cqe hok] at h
  cases h
  have hok' := hok
  obtain ⟨_, h2, h3, h4, _, h6, h7, _, _, _, h11⟩ := hok
  have hsq : (alloc_sq_state P n cmd).sq cmd.qid =
      { n.sq cmd.qid with id := cmd.qid, size := cmd.qsize, phys_contig := cmd.pc,
                          cq_id := cmd.cqid, prio := cmd.qprio, dma_addr := cmd.prp1 } :=
    arr_set_same _ _ _
  have hexact : (n.cq cmd.cqid).usage_cnt + 1 < 2 ^ P.usage_cnt_bits →
      ((alloc_sq_state P n cmd).cq cmd.cqid).usage_cnt = (n.cq cmd.cqid).usage_cnt + 1 := by
    intro hlt
    show (arr_set n.cq cmd.cqid _ cmd.cqid).usage_cnt = _
    rw [arr_set_same]
    exact Nat.mod_eq_of_lt hlt
  refine ⟨arr_set_same _ _ _, ⟨?_, ?_⟩, arr_set_same _ _ _, hexact, ?_, ?_, ?_, rfl, rfl, rfl,
    rfl, rfl, rfl, rfl⟩
  · show ((alloc_sq_state P n cmd).sq cmd.qid).dma_addr ≠ 0
    rw [hsq]
    exact h11
  · show ((alloc_sq_state P n cmd).sq cmd.qid).id = cmd.qid
    rw [hsq]
  · intro hinv hfit
    apply hexact
    have hnew : sq_allocated (alloc_sq_state P n cmd) cmd.qid ∧
        ((alloc_sq_state P n cmd).sq cmd.qid).cq_id = cmd.cqid := by
      refine ⟨?_, by rw [hsq]⟩
      show ((alloc_sq_state P n cmd).sq cmd.qid).dma_addr ≠ 0 ∧
        ((alloc_sq_state P n cmd).sq cmd.qid).id = cmd.qid
      rw [hsq]
      exact ⟨h11, rfl⟩
    have hcount := sq_link_count_insert P n (alloc_sq_state P n cmd) cmd.qid cmd.cqid
      cmd.cqid ⟨by omega, h3⟩ h6 hnew (fun i hi => arr_set_other _ _ _ _ hi)
    have hle := sq_link_count_le P (alloc_sq_state P n cmd) cmd.cqid
    rw [hcount, if_pos rfl] at hle
    rw [hinv.1 cmd.cqid (by omega) h7]
    omega
  · intro i hi
    exact arr_set_other _ _ _ _ hi
  · intro k hk
    exact arr_set_other _ _ _ _ hk

theorem reachable_state_cq5 :
    Reachable nvme_h state_zero (alloc_cq_state state_zero (cmd_create_cq 5)) :=
  Reachable.step state_zero 0 (fun _ => 0) (cmd_create_cq 5) cqe_zero
    ⟨alloc_cq_state state_zero (cmd_create_cq 5), cqe_zero, 0, []⟩ Reachable.init
    (by decide) rfl

/-- C3: Create SQ success postcondition.  In a state that satisfies the
queue-link invariant, as every state reached from an idle controller does, when
`adm_cmd_alloc_sq` returns 0 slot `qid` of the SQ table is allocated and holds
`id = qid`, `size = qsize`, `phys_contig = pc`, `prio = qprio`, `cq_id = cqid`,
`dma_addr = prp1`, its other fields as before; the usage counter of `cq[cqid]`
is exactly one more than before; every other field of `cq[cqid]`, every other SQ
and CQ descriptor, the feature table, the abort counter and the remaining
controller fields are unchanged. -/
theorem adm_cmd_alloc_sq_success (P : NvmeH) (hP : P.WF) (n : NVMEState) (cmd : NVMECmd)
    (cqe : NVMECQE) (r : Res) (hinv : queue_link_inv P n)
    (h : adm_cmd_alloc_sq P n cmd cqe = some r) (h0 : r.ret = 0) :
    r.n.sq cmd.qid =
        { n.sq cmd.qid with id := cmd.qid, size := cmd.qsize, phys_contig := cmd.pc,
                            cq_id := cmd.cqid, prio := cmd.qprio, dma_addr := cmd.prp1 } ∧
      sq_allocated r.n cmd.qid ∧
      r.n.cq cmd.cqid =
        { n.cq cmd.cqid with usage_cnt := (n.cq cmd.cqid).usage_cnt + 1 } ∧
      (r.n.cq cmd.cqid).usage_cnt = (n.cq cmd.cqid).usage_cnt + 1 ∧
      (∀ i, i ≠ cmd.qid → r.n.sq i = n.sq i) ∧
      (∀ k, k ≠ cmd.cqid → r.n.cq k = n.cq k) ∧
      r.n.feature = n.feature ∧ r.n.abort = n.abort ∧
      r.n.cntrl_reg_mqes = n.cntrl_reg_mqes ∧ r.n.cntrl_reg_cqr = n.cntrl_reg_cqr ∧
      r.n.msix_entries_nr = n.msix_entries_nr ∧ r.n.is_msix = n.is_msix ∧ r.n.nn = n.nn := by
  obtain ⟨a1, a2, a3, _, a5, a6, a7, a8⟩ :=
    alloc_sq_postcondition P hP.fail_ne n cmd cqe r h h0
  have hex := a5 hinv hP.qid_fits
  have hmod : ((n.cq cmd.cqid).usage_cnt + 1) % 2 ^ P.usage_cnt_bits =
      (n.cq cmd.cqid).usage_cnt + 1 := by
    have e := congrArg NVMEIOCQueue.usage_cnt a3
    rw [hex] at e
    exact e.symm
  rw [hmod] at a3
  exact ⟨a1, a2, a3, hex, a6, a7, a8⟩

/-- Witness for C3: after Create CQ 5 on the zeroed controller, Create SQ 3
linked to completion queue 5 leaves its usage counter at 1. -/
theorem adm_cmd_alloc_sq_success_witness :
    Reachable nvme_h state_zero (alloc_cq_state state_zero (cmd_create_cq 5)) ∧
    queue_link_inv nvme_h (alloc_cq_state state_zero (cmd_create_cq 5)) ∧
    adm_cmd_alloc_sq nvme_h (alloc_cq_state state_zero (cmd_create_cq 5)) (cmd_create_sq 3 5)
        cqe_zero = some ⟨state_linked, cqe_zero, 0, []⟩ ∧
    sq_allocated state_linked 3 ∧
    (state_linked.cq 5).usage_cnt =
      ((alloc_cq_state state_zero (cmd_create_cq 5)).cq 5).usage_cnt + 1 ∧
    (state_linked.cq 5).usage_cnt = 1 :=
  ⟨reachable_state_cq5,
    queue_link_inv_reachable nvme_h nvme_h_wf state_zero _ io_idle_state_zero
      reachable_state_cq5,
    rfl,
    (adm_cmd_alloc_sq_success nvme_h nvme_h_wf (alloc_cq_state state_zero (cmd_create_cq 5))
      (cmd_create_sq 3 5) cqe_zero ⟨state_linked, cqe_zero, 0, []⟩
      (queue_link_inv_reachable nvme_h nvme_h_wf state_zero _ io_idle_state_zero
        reachable_state_cq5) rfl rfl).2.1,
    (adm_cmd_alloc_sq_success nvme_h nvme_h_wf (alloc_cq_state state_zero (cmd_create_cq 5))
      (cmd_create_sq 3 5) cqe_zero ⟨state_linked, cqe_zero, 0, []⟩
      (queue_link_inv_reachable nvme_h nvme_h_wf state_zero _ io_idle_state_zero
        reachable_state_cq5) rfl rfl).2.2.2.1,
    by decide⟩

/-! ### Abort: what is refused -/

theorem abort_scan_misses (P : NvmeH) (mem : HostMem) (sq : NVMEIOSQueue) (cmdid : Nat)
    (hsz : sq.size < 65536) (ht : sq.tail < sq.size) :
    ∀ fuel i, i < sq.size →
      (if i ≤ sq.tail then sq.tail - i else sq.size - i + sq.tail) + 1 ≤ fuel →
      (∀ j, in_circ_range sq.size i sq.tail j → sq_entry_cid P mem sq j ≠ cmdid) →
      abort_scan P mem sq cmdid fuel i = some false := by
  intro fuel
  induction fuel with
  | zero =>
    intro i _ hd _
    omega
  | succ fuel ih =>
    intro i hi hd hm
    unfold abort_scan
    by_cases h1 : i = sq.tail
    · rw [if_pos h1]
    · rw [if_neg h1]
      have h2 : ¬ mem ((sq.dma_addr + i * P.sizeof_sqe) % 2 ^ 64) = cmdid := by
        apply hm i
        unfold in_circ_range
        split_ifs <;> omega
      rw [if_neg h2]
      dsimp only
      have hmod : (i + 1) % 65536 = i + 1 := Nat.mod_eq_of_lt (by omega)
      rw [hmod]
      by_cases h3 : i + 1 = sq.size
      · rw [if_pos h3]
        apply ih 0 (by omega)
        · rw [if_pos (Nat.zero_le _)]
          split_ifs at hd <;> omega
        · intro j hj
          apply hm j
          unfold in_circ_range at hj ⊢
          rw [if_pos (Nat.zero_le _)] at hj
          split_ifs <;> omega
      · rw [if_neg h3]
        apply ih (i + 1) (by omega)
        · split_ifs at hd ⊢ <;> omega
        · intro j hj
          apply hm j
          unfold in_circ_range at hj ⊢
          split_ifs at hj ⊢ <;> omega

/-- Running `adm_cmd_abort` when every check passes and the scan reaches `tail`
without finding the command. -/
theorem adm_cmd_abort_miss_run (P : NvmeH) (fuel : Nat) (mem : HostMem) (n : NVMEState)
    (cmd : NVMECmd) (cqe : NVMECQE) (hop : cmd.opcode = P.NVME_ADM_CMD_ABORT)
    (hns : cmd.nsid = 0) (hq : cmd.sqid < P.NVME_MAX_QID) (hadm : cmd.sqid ≠ P.ASQ_ID)
    (hal : sq_allocated n cmd.sqid) (hab : n.abort ≠ P.NVME_ABORT_COMMAND_LIMIT)
    (hslot : abort_free_slot P (n.sq cmd.sqid) P.NVME_ABORT_COMMAND_LIMIT 0 ≠
      P.NVME_ABORT_COMMAND_LIMIT)
    (hscan : abort_scan P mem (n.sq cmd.sqid) cmd.cmdid fuel (n.sq cmd.sqid).head =
      some false) :
    adm_cmd_abort P fuel mem n cmd cqe =
      some ⟨n, { cqe with sct := P.NVME_SCT_CMD_SPEC_ERR,
                          sc := P.NVME_REQ_CMD_TO_ABORT_NOT_FOUND }, P.FAIL, []⟩ := by
  obtain ⟨_, s2, s3, _⟩ := abort_free_slot_spec P (n.sq cmd.sqid) P.NVME_ABORT_COMMAND_LIMIT 0
  have hempty := s3 (by omega)
  unfold adm_cmd_abort
  dsimp only
  rw [if_neg (not_not.mpr hop), if_neg (not_not.mpr hns), if_neg (by omega), if_neg hadm,
    adm_get_sq_eq P n cmd.sqid hq hal, if_neg (by omega), if_neg hab, if_neg hslot, hscan]
  simp only [Bool.false_eq_true, if_false]
  rw [if_pos hempty]

/-- C11: for an Abort command that passes the earlier checks of `adm_cmd_abort`
(opcode, namespace field 0, allocated I/O submission queue, global counter not
at the limit, a free abort slot) on a queue whose cursors are inside it (`head`,
`tail` below `size`, a 16-bit value): if no entry of the circular range from
`head` up to, but not including, `tail` has the target command identifier,
then, given fuel for `size` iterations, `adm_cmd_abort` fails with the
command-specific status `NVME_REQ_CMD_TO_ABORT_NOT_FOUND` and returns the state
it was given, every abort slot and the global abort counter included. -/
theorem adm_cmd_abort_not_found (P : NvmeH) (fuel : Nat) (mem : HostMem) (n : NVMEState)
    (cmd : NVMECmd) (cqe : NVMECQE) (hop : cmd.opcode = P.NVME_ADM_CMD_ABORT)
    (hns : cmd.nsid = 0) (hq : cmd.sqid < P.NVME_MAX_QID) (hadm : cmd.sqid ≠ P.ASQ_ID)
    (hal : sq_allocated n cmd.sqid) (hab : n.abort ≠ P.NVME_ABORT_COMMAND_LIMIT)
    (hfree : ∃ j, j < P.NVME_ABORT_COMMAND_LIMIT ∧
      (n.sq cmd.sqid).abort_cmd_id j = P.NVME_EMPTY)
    (hsz : (n.sq cmd.sqid).size < 65536)
    (hh : (n.sq cmd.sqid).head < (n.sq cmd.sqid).size)
    (ht : (n.sq cmd.sqid).tail < (n.sq cmd.sqid).size)
    (hm : ∀ i, in_circ_range (n.sq cmd.sqid).size (n.sq cmd.sqid).head
      (n.sq cmd.sqid).tail i → sq_entry_cid P mem (n.sq cmd.sqid) i ≠ cmd.cmdid)
    (hfuel : (n.sq cmd.sqid).size ≤ fuel) :
    adm_cmd_abort P fuel mem n cmd cqe =
      some ⟨n, { cqe with sct := P.NVME_SCT_CMD_SPEC_ERR,
                          sc := P.NVME_REQ_CMD_TO_ABORT_NOT_FOUND }, P.FAIL, []⟩ := by
  obtain ⟨_, s2, _, s4⟩ := abort_free_slot_spec P (n.sq cmd.sqid) P.NVME_ABORT_COMMAND_LIMIT 0
  have hslot : abort_free_slot P (n.sq cmd.sqid) P.NVME_ABORT_COMMAND_LIMIT 0 ≠
      P.NVME_ABORT_COMMAND_LIMIT := by
    obtain ⟨j, hj1, hj2⟩ := hfree
    intro heq
    exact s4 j (Nat.zero_le _) (by omega) hj2
  have hscan := abort_scan_misses P mem (n.sq cmd.sqid) cmd.cmdid hsz ht fuel
    (n.sq cmd.sqid).head hh (by split_ifs <;> omega) hm
  exact adm_cmd_abort_miss_run P fuel mem n cmd cqe hop hns hq hadm hal hab hslot hscan

/-- Witness for C11: abort of command 9, which is not among entries 0 and 1 of
submission queue 3. -/
theorem adm_cmd_abort_not_found_witness :
    adm_cmd_abort nvme_h 16 mem_abort state_abort (cmd_abort 3 9) cqe_zero =
      some ⟨state_abort, { cqe_zero with sct := nvme_h.NVME_SCT_CMD_SPEC_ERR,
                                         sc := nvme_h.NVME_REQ_CMD_TO_ABORT_NOT_FOUND },
            nvme_h.FAIL, []⟩ :=
  adm_cmd_abort_not_found nvme_h 16 mem_abort state_abort (cmd_abort 3 9) cqe_zero rfl rfl
    (by decide) (by decide) (by decide) (by decide) ⟨0, by decide, rfl⟩ (by decide)
    (by decide) (by decide)
    (by
      intro i hi
      have h1 : i = 0 ∨ i = 1 := by
        have h2 : 0 ≤ i ∧ i < 2 := hi
        omega
      rcases h1 with h1 | h1 <;> subst h1 <;> decide)
    (by decide)

/-- C12 (as amended): for an Abort command (opcode `NVME_ADM_CMD_ABORT`) with
namespace field 0 whose target `sqid` is 0, the admin queue, `adm_cmd_abort`
fails with the command-specific status `NVME_REQ_CMD_TO_ABORT_NOT_FOUND`
whatever the queue tables and the abort registry hold, for any fuel and host
memory, and returns the state it was given. -/
theorem adm_cmd_abort_admin_queue (P : NvmeH) (hA : P.ASQ_ID = 0)
    (hM : 0 < P.NVME_MAX_QID) (fuel : Nat) (mem : HostMem) (n : NVMEState) (cmd : NVMECmd)
    (cqe : NVMECQE) (hop : cmd.opcode = P.NVME_ADM_CMD_ABORT) (hns : cmd.nsid = 0)
    (hs : cmd.sqid = 0) :
    adm_cmd_abort P fuel mem n cmd cqe =
      some ⟨n, { cqe with sct := P.NVME_SCT_CMD_SPEC_ERR,
                          sc := P.NVME_REQ_CMD_TO_ABORT_NOT_FOUND }, P.FAIL, []⟩ := by
  unfold adm_cmd_abort
  dsimp only
  rw [if_neg (not_not.mpr hop), if_neg (not_not.mpr hns), if_neg (by omega),
    if_pos (by rw [hs, hA])]

/-- Witness for C12: abort of command 7 of the admin queue, with the state and
memory in which that command is outstanding on queue 3. -/
theorem adm_cmd_abort_admin_queue_witness :
    adm_cmd_abort nvme_h 16 mem_abort state_abort (cmd_abort 0 7) cqe_zero =
      some ⟨state_abort, { cqe_zero with sct := nvme_h.NVME_SCT_CMD_SPEC_ERR,
                                         sc := nvme_h.NVME_REQ_CMD_TO_ABORT_NOT_FOUND },
            nvme_h.FAIL, []⟩ :=
  adm_cmd_abort_admin_queue nvme_h rfl (by decide) 16 mem_abort state_abort (cmd_abort 0 7)
    cqe_zero rfl rfl rfl

/-- C12 fails as stated: an Abort command for the admin queue (`sqid` 0) whose
namespace field is 1 is answered with `NVME_SC_INVALID_NAMESPACE`, the status
code type left as it came in, not with `NVME_REQ_CMD_TO_ABORT_NOT_FOUND`. -/
theorem adm_cmd_abort_admin_queue_counterexample :
    ({ cmd_abort 0 7 with nsid := 1 } : NVMECmd).sqid = 0 ∧
    (adm_cmd_abort nvme_h 16 mem_abort state_abort { cmd_abort 0 7 with nsid := 1 }
        cqe_zero).map (fun r => (r.cqe.sct, r.cqe.sc)) =
      some (cqe_zero.sct, nvme_h.NVME_SC_INVALID_NAMESPACE) ∧
    nvme_h.NVME_SC_INVALID_NAMESPACE ≠ nvme_h.NVME_REQ_CMD_TO_ABORT_NOT_FOUND := by
  refine ⟨rfl, by decide, by decide⟩

/-- Running `adm_cmd_abort` when the global counter is at the limit or the
queue has no free abort slot. -/
theorem adm_cmd_abort_limit_run (P : NvmeH) (fuel : Nat) (mem : HostMem) (n : NVMEState)
    (cmd : NVMECmd) (cqe : NVMECQE) (hop : cmd.opcode = P.NVME_ADM_CMD_ABORT)
    (hns : cmd.nsid = 0) (hq : cmd.sqid < P.NVME_MAX_QID) (hadm : cmd.sqid ≠ P.ASQ_ID)
    (hal : sq_allocated n cmd.sqid)
    (hfull : n.abort = P.NVME_ABORT_COMMAND_LIMIT ∨
      ∀ j, j < P.NVME_ABORT_COMMAND_LIMIT → (n.sq cmd.sqid).abort_cmd_id j ≠ P.NVME_EMPTY) :
    adm_cmd_abort P fuel mem n cmd cqe =
      some ⟨n, { cqe with sct := P.NVME_SCT_CMD_SPEC_ERR,
                          sc := P.NVME_ABORT_CMD_LIMIT_EXCEEDED }, P.FAIL, []⟩ := by
  unfold adm_cmd_abort
  dsimp only
  rw [if_neg (not_not.mpr hop), if_neg (not_not.mpr hns), if_neg (by omega), if_neg hadm,
    adm_get_sq_eq P n cmd.sqid hq hal, if_neg (by omega)]
  by_cases hab : n.abort = P.NVME_ABORT_COMMAND_LIMIT
  · rw [if_pos hab]
  · rw [if_neg hab]
    have hall := hfull.resolve_left hab
    obtain ⟨_, s2, s3, _⟩ := abort_free_slot_spec P (n.sq cmd.sqid)
      P.NVME_ABORT_COMMAND_LIMIT 0
    have hslot : abort_free_slot P (n.sq cmd.sqid) P.NVME_ABORT_COMMAND_LIMIT 0 =
        P.NVME_ABORT_COMMAND_LIMIT := by
      by_contra hne
      have hlt : abort_free_slot P (n.sq cmd.sqid) P.NVME_ABORT_COMMAND_LIMIT 0 <
          P.NVME_ABORT_COMMAND_LIMIT := by omega
      exact hall _ hlt (s3 (by omega))
    rw [if_pos hslot]

/-- A zero return value of `adm_cmd_abort` means that the command was recorded. -/
theorem adm_cmd_abort_ret_zero (P : NvmeH) (hF : P.FAIL ≠ 0) (fuel : Nat) (mem : HostMem)
    (n : NVMEState) (cmd : NVMECmd) (cqe : NVMECQE) :
    ∀ r, adm_cmd_abort P fuel mem n cmd cqe = some r → r.ret = 0 →
      cmd.sqid < P.NVME_MAX_QID ∧ n.abort ≠ P.NVME_ABORT_COMMAND_LIMIT ∧
        r.n = abort_state P n cmd.sqid
          (abort_free_slot P (n.sq cmd.sqid) P.NVME_ABORT_COMMAND_LIMIT 0) cmd.cmdid := by
  unfold adm_cmd_abort
  dsimp only
  repeat' first
    | (apply path_some; intro h0; exact absurd h0 hF)
    | (apply path_ite <;> intro _)
  rename_i h1 h2 h3 h4 h5 h6 h7
  obtain ⟨h8, _, h10⟩ := adm_get_sq_ne P n cmd.sqid h5
  rw [h10] at h7 ⊢
  obtain ⟨_, s2, s3, _⟩ := abort_free_slot_spec P (n.sq cmd.sqid) P.NVME_ABORT_COMMAND_LIMIT 0
  have hempty := s3 (by omega)
  intro r h hz
  split at h
  · cases h
  · rename_i found _
    cases found
    · simp only [Bool.false_eq_true, if_false] at h
      rw [if_pos hempty] at h
      cases h
      exact absurd hz hF
    · refine ⟨h8, h6, ?_⟩
      simp only [if_true] at h
      split at h
      · cases h
        exact absurd hz hF
      · cases h
        rfl

theorem nvme_admin_command_of_call (P : NvmeH) (fuel : Nat) (mem : HostMem) (n : NVMEState)
    (sqe : NVMECmd) (cqe : NVMECQE) (f : AdmFunc) (r0 : Res)
    (hd : adm_dispatch P sqe = some f) (hc : f.call P fuel mem n sqe cqe = some r0) :
    nvme_admin_command P fuel mem n sqe cqe = some { r0 with ret := r0.ret % 256 } := by
  unfold nvme_admin_command
  rw [hd]
  dsimp only
  rw [hc]

theorem nvme_admin_command_cases (P : NvmeH) (fuel : Nat) (mem : HostMem) (n : NVMEState)
    (sqe : NVMECmd) (cqe : NVMECQE) :
    ∀ r, nvme_admin_command P fuel mem n sqe cqe = some r →
      (adm_dispatch P sqe = none ∧ r.n = n) ∨
      ∃ f r0, adm_dispatch P sqe = some f ∧ f.call P fuel mem n sqe cqe = some r0 ∧
        r.n = r0.n := by
  intro r h
  unfold nvme_admin_command at h
  split at h
  · rename_i hd
    cases h
    exact Or.inl ⟨hd, rfl⟩
  · rename_i f hd
    split at h
    · cases h
    · rename_i r0 hr0
      cases h
      exact Or.inr ⟨f, r0, hd, hr0, rfl⟩

/-- No handler but `adm_cmd_abort` writes the global abort counter. -/
theorem call_abort_counter (P : NvmeH) (hF : P.FAIL ≠ 0) (f : AdmFunc)
    (hf : f ≠ AdmFunc.abort) (fuel : Nat) (mem : HostMem) (n : NVMEState) (sqe : NVMECmd)
    (cqe : NVMECQE) :
    ∀ r0, f.call P fuel mem n sqe cqe = some r0 → r0.n.abort = n.abort := by
  intro r hr
  cases f
  · change adm_cmd_del_sq P n sqe cqe = some r at hr
    by_cases hz : r.ret = 0
    · have hok := adm_cmd_del_sq_ret_zero P hF n sqe cqe r hr hz
      rw [adm_cmd_del_sq_run P n sqe cqe hok] at hr
      cases hr
      exact (del_sq_state_abort P n sqe.qid).2
    · rw [adm_cmd_del_sq_atomic P n sqe cqe r hr (Or.inr (Or.inl hz))]
  · change adm_cmd_alloc_sq P n sqe cqe = some r at hr
    by_cases hz : r.ret = 0
    · have hok := adm_cmd_alloc_sq_ret_zero P hF n sqe cqe r hr hz
      rw [adm_cmd_alloc_sq_run P hF n sqe cqe hok] at hr
      cases hr
      exact (alloc_sq_state_abort P n sqe).2
    · rw [adm_cmd_alloc_sq_atomic P n sqe cqe r hr (Or.inr (Or.inl hz))]
  · rw [adm_cmd_get_log_page_state P n sqe cqe r hr]
  · change adm_cmd_del_cq P n sqe cqe = some r at hr
    rcases adm_cmd_del_cq_outcome P n sqe cqe r hr with h | ⟨_, h⟩
    · rw [h]
    · rw [h]
      rfl
  · change adm_cmd_alloc_cq P n sqe cqe = some r at hr
    by_cases hz : r.ret = 0
    · have hok := adm_cmd_alloc_cq_ret_zero P hF n sqe cqe r hr hz
      rw [adm_cmd_alloc_cq_run P hF n sqe cqe hok] at hr
      cases hr
      rfl
    · rw [adm_cmd_alloc_cq_atomic P n sqe cqe r hr (Or.inr (Or.inl hz))]
  · rw [adm_cmd_identify_state P n sqe cqe r hr]
  · exact absurd rfl hf
  · exact (adm_cmd_set_features_frame P n sqe cqe r hr).2.2
  · exact (adm_cmd_get_features_frame P n sqe cqe r hr).2.2
  · rw [adm_cmd_async_ev_req_state P n sqe cqe r hr]

/-- After `k` accepted Abort commands from a state with an empty abort
registry, the abort invariant holds and the global counter is `k`. -/
theorem aborts_accepted_counter (P : NvmeH) (hP : P.WF) (n0 : NVMEState)
    (h0 : abort_idle P n0) (k : Nat) (n : NVMEState) (h : AbortsAccepted P n0 k n) :
    abort_inv P n ∧ n.abort = k := by
  have hF := hP.fail_ne
  induction h with
  | init => exact ⟨abort_inv_init P n0 h0, h0.2⟩
  | accepted n k fuel mem sqe cqe r _ hc hd hr hz ih =>
    obtain ⟨hi, hk⟩ := ih
    have hstep := nvme_admin_command_of_call P fuel mem n sqe cqe AdmFunc.abort r hd hr
    refine ⟨abort_inv_step P hP fuel mem n sqe cqe hc hi { r with ret := r.ret % 256 } hstep,
      ?_⟩
    obtain ⟨_, h2, h3⟩ := adm_cmd_abort_ret_zero P hF fuel mem n sqe cqe r hr hz
    rw [h3]
    show (n.abort + 1) % 2 ^ P.abort_bits = k + 1
    have hle := hi.2
    have hfit := hP.limit_fits
    rw [Nat.mod_eq_of_lt (by omega), hk]
  | other n k fuel mem sqe cqe r _ hc hstep hno ih =>
    obtain ⟨hi, hk⟩ := ih
    refine ⟨abort_inv_step P hP fuel mem n sqe cqe hc hi r hstep, ?_⟩
    rcases nvme_admin_command_cases P fuel mem n sqe cqe r hstep with
      ⟨_, h⟩ | ⟨f, r0, hd, hr0, h⟩
    · rw [h, hk]
    · rw [h]
      by_cases hf : f = AdmFunc.abort
      · subst hf
        have hr1 : adm_cmd_abort P fuel mem n sqe cqe = some r0 := hr0
        have hz : r0.ret ≠ 0 := fun hz => hno ⟨hd, r0, hr1, hz⟩
        rw [adm_cmd_abort_atomic P hP fuel mem n sqe cqe hc r0 hr1 (Or.inr (Or.inl hz)), hk]
      · rw [call_abort_counter P hF f hf fuel mem n sqe cqe r0 hr0, hk]

/-- C13: for an Abort command with namespace field 0 that targets an allocated
I/O submission queue, if the global abort counter equals
`NVME_ABORT_COMMAND_LIMIT` or every abort slot of that queue is non-empty,
`adm_cmd_abort` fails with the command-specific status
`NVME_ABORT_CMD_LIMIT_EXCEEDED` and returns the state it was given, so every
abort slot of every queue and the global counter are unchanged.  Hence in a state
reached from an empty abort registry by admin commands of which
`NVME_ABORT_COMMAND_LIMIT` were accepted Abort commands, the Abort command is
rejected in that way. -/
theorem adm_cmd_abort_limit_exceeded (P : NvmeH) (hP : P.WF) (fuel : Nat) (mem : HostMem)
    (n : NVMEState) (cmd : NVMECmd) (cqe : NVMECQE)
    (hop : cmd.opcode = P.NVME_ADM_CMD_ABORT) (hns : cmd.nsid = 0)
    (hq : cmd.sqid < P.NVME_MAX_QID) (hadm : cmd.sqid ≠ P.ASQ_ID)
    (hal : sq_allocated n cmd.sqid) :
    ((n.abort = P.NVME_ABORT_COMMAND_LIMIT ∨
        ∀ j, j < P.NVME_ABORT_COMMAND_LIMIT →
          (n.sq cmd.sqid).abort_cmd_id j ≠ P.NVME_EMPTY) →
      adm_cmd_abort P fuel mem n cmd cqe =
        some ⟨n, { cqe with sct := P.NVME_SCT_CMD_SPEC_ERR,
                            sc := P.NVME_ABORT_CMD_LIMIT_EXCEEDED }, P.FAIL, []⟩) ∧
    (∀ n0, abort_idle P n0 → AbortsAccepted P n0 P.NVME_ABORT_COMMAND_LIMIT n →
      adm_cmd_abort P fuel mem n cmd cqe =
        some ⟨n, { cqe with sct := P.NVME_SCT_CMD_SPEC_ERR,
                            sc := P.NVME_ABORT_CMD_LIMIT_EXCEEDED }, P.FAIL, []⟩) := by
  refine ⟨adm_cmd_abort_limit_run P fuel mem n cmd cqe hop hns hq hadm hal, ?_⟩
  intro n0 h0 hacc
  exact adm_cmd_abort_limit_run P fuel mem n cmd cqe hop hns hq hadm hal
    (Or.inl (aborts_accepted_counter P hP n0 h0 _ n hacc).2)

theorem aborts_accepted_state_aborts :
    AbortsAccepted nvme_h state_abort 10 (state_aborts 10) := by
  have step : ∀ k, k < 10 → AbortsAccepted nvme_h state_abort k (state_aborts k) →
      AbortsAccepted nvme_h state_abort (k + 1) (state_aborts (k + 1)) := by
    intro k hk h
    have hrun : adm_cmd_abort nvme_h 16 mem_abort (state_aborts k) (cmd_abort 3 7) cqe_zero =
        some ⟨state_aborts (k + 1), cqe_zero, 0, []⟩ := by
      interval_cases k <;> rfl
    exact AbortsAccepted.accepted (state_aborts k) k 16 mem_abort (cmd_abort 3 7) cqe_zero
      ⟨state_aborts (k + 1), cqe_zero, 0, []⟩ h (by decide) rfl hrun rfl
  have h0 : AbortsAccepted nvme_h state_abort 0 (state_aborts 0) := AbortsAccepted.init
  exact step 9 (by decide) (step 8 (by decide) (step 7 (by decide) (step 6 (by decide)
    (step 5 (by decide) (step 4 (by decide) (step 3 (by decide) (step 2 (by decide)
    (step 1 (by decide) (step 0 (by decide) h0)))))))))

/-- Witness for C13: after ten accepted Abort commands for command 7 of
submission queue 3 the counter is at the limit and the queue has no free slot;
the eleventh Abort is refused and the state stays. -/
theorem adm_cmd_abort_limit_exceeded_witness :
    abort_idle nvme_h state_abort ∧
    AbortsAccepted nvme_h state_abort nvme_h.NVME_ABORT_COMMAND_LIMIT (state_aborts 10) ∧
    (state_aborts 10).abort = nvme_h.NVME_ABORT_COMMAND_LIMIT ∧
    adm_cmd_abort nvme_h 16 mem_abort (state_aborts 10) (cmd_abort 3 7) cqe_zero =
      some ⟨state_aborts 10, { cqe_zero with sct := nvme_h.NVME_SCT_CMD_SPEC_ERR,
                                             sc := nvme_h.NVME_ABORT_CMD_LIMIT_EXCEEDED },
            nvme_h.FAIL, []⟩ :=
  ⟨abort_idle_state_abort, aborts_accepted_state_aborts, rfl,
    (adm_cmd_abort_limit_exceeded nvme_h nvme_h_wf 16 mem_abort (state_aborts 10)
      (cmd_abort 3 7) cqe_zero rfl rfl (by decide) (by decide)
      ⟨by decide, rfl⟩).2 state_abort abort_idle_state_abort aborts_accepted_state_aborts⟩

/-! ### Features -/

/-- Distinct case labels have distinct positions in the `switch`. -/
theorem feature_index (P : NvmeH) (hD : (feature_ids P).Nodup) :
    ∃ idx : Nat → Nat,
      idx P.NVME_FEATURE_ARBITRATION = 0 ∧ idx P.NVME_FEATURE_POWER_MANAGEMENT = 1 ∧
      idx P.NVME_FEATURE_LBA_RANGE_TYPE = 2 ∧ idx P.NVME_FEATURE_TEMPERATURE_THRESHOLD = 3 ∧
      idx P.NVME_FEATURE_ERROR_RECOVERY = 4 ∧ idx P.NVME_FEATURE_VOLATILE_WRITE_CACHE = 5 ∧
      idx P.NVME_FEATURE_NUMBER_OF_QUEUES = 6 ∧ idx P.NVME_FEATURE_INTERRUPT_COALESCING = 7 ∧
      idx P.NVME_FEATURE_INTERRUPT_VECTOR_CONF = 8 ∧ idx P.NVME_FEATURE_WRITE_ATOMICITY = 9 ∧
      idx P.NVME_FEATURE_ASYNCHRONOUS_EVENT_CONF = 10 ∧
      idx P.NVME_FEATURE_SOFTWARE_PROGRESS_MARKER = 11 := by
  have hl : (feature_ids P).length = 12 := rfl
  refine ⟨fun x => (feature_ids P).indexOf x, ?_, ?_, ?_, ?_, ?_, ?_, ?_, ?_, ?_, ?_, ?_, ?_⟩
  · exact List.indexOf_getElem hD 0 (by omega)
  · exact List.indexOf_getElem hD 1 (by omega)
  · exact List.indexOf_getElem hD 2 (by omega)
  · exact List.indexOf_getElem hD 3 (by omega)
  · exact List.indexOf_getElem hD 4 (by omega)
  · exact List.indexOf_getElem hD 5 (by omega)
  · exact List.indexOf_getElem hD 6 (by omega)
  · exact List.indexOf_getElem hD 7 (by omega)
  · exact List.indexOf_getElem hD 8 (by omega)
  · exact List.indexOf_getElem hD 9 (by omega)
  · exact List.indexOf_getElem hD 10 (by omega)
  · exact List.indexOf_getElem hD 11 (by omega)

theorem feature_ids_nodup : (feature_ids nvme_h).Nodup := by decide

/-- The case that `do_features` takes for a readable and writable feature. -/
theorem do_features_access (P : NvmeH) (hD : (feature_ids P).Nodup) (n : NVMEState)
    (cmd : NVMECmd) (cqe : NVMECQE) (f : FeatureId) (hf : cmd.fid = f.fid P) :
    do_features P n cmd cqe =
      feature_access P n cmd { cqe with sc := P.NVME_SC_SUCCESS } f.load f.store := by
  obtain ⟨idx, i0, i1, i2, i3, i4, i5, i6, i7, i8, i9, i10, i11⟩ := feature_index P hD
  have key : ∀ x k, idx x = k → idx cmd.fid ≠ k → ¬ cmd.fid = x := by
    intro x k h1 h2 h
    rw [h] at h2
    exact h2 h1
  have hp := congrArg idx hf
  unfold do_features
  dsimp only
  cases f <;> dsimp only [FeatureId.fid] at hf hp <;>
    (try rw [if_neg (key _ 0 i0 (by omega))]) <;>
    (try rw [if_neg (key _ 1 i1 (by omega))]) <;>
    (try rw [if_neg (key _ 2 i2 (by omega))]) <;>
    (try rw [if_neg (key _ 3 i3 (by omega))]) <;>
    (try rw [if_neg (key _ 4 i4 (by omega))]) <;>
    (try rw [if_neg (key _ 5 i5 (by omega))]) <;>
    (try rw [if_neg (key _ 6 i6 (by omega))]) <;>
    (try rw [if_neg (key _ 7 i7 (by omega))]) <;>
    (try rw [if_neg (key _ 8 i8 (by omega))]) <;>
    (try rw [if_neg (key _ 9 i9 (by omega))]) <;>
    rw [if_pos hf] <;> rfl

/-- The case that `do_features` takes for the LBA range type feature. -/
theorem do_features_lba_range_type (P : NvmeH) (hD : (feature_ids P).Nodup) (n : NVMEState)
    (cmd : NVMECmd) (cqe : NVMECQE) (hf : cmd.fid = P.NVME_FEATURE_LBA_RANGE_TYPE) :
    do_features P n cmd cqe = some ⟨n, { cqe with sc := P.NVME_SC_SUCCESS }, 0, []⟩ := by
  obtain ⟨idx, i0, i1, i2, _⟩ := feature_index P hD
  have hp := congrArg idx hf
  have key : ∀ x k, idx x = k → idx cmd.fid ≠ k → ¬ cmd.fid = x := by
    intro x k h1 h2 h
    rw [h] at h2
    exact h2 h1
  unfold do_features
  dsimp only
  rw [if_neg (key _ 0 i0 (by omega)), if_neg (key _ 1 i1 (by omega)), if_pos hf]

/-- The case that `do_features` takes for the software progress marker. -/
theorem do_features_software_progress_marker (P : NvmeH) (hD : (feature_ids P).Nodup)
    (n : NVMEState) (cmd : NVMECmd) (cqe : NVMECQE)
    (hf : cmd.fid = P.NVME_FEATURE_SOFTWARE_PROGRESS_MARKER) :
    do_features P n cmd cqe =
      if cmd.opcode = P.NVME_ADM_CMD_GET_FEATURES then
        some ⟨n, { cqe with sc := P.NVME_SC_SUCCESS,
                            cmd_specific := n.feature.software_progress_marker }, 0, []⟩
      else some ⟨n, { cqe with sc := P.NVME_SC_SUCCESS }, 0, []⟩ := by
  obtain ⟨idx, i0, i1, i2, i3, i4, i5, i6, i7, i8, i9, i10, i11⟩ := feature_index P hD
  have hp := congrArg idx hf
  have key : ∀ x k, idx x = k → idx cmd.fid ≠ k → ¬ cmd.fid = x := by
    intro x k h1 h2 h
    rw [h] at h2
    exact h2 h1
  unfold do_features
  dsimp only
  rw [if_neg (key _ 0 i0 (by omega)), if_neg (key _ 1 i1 (by omega)),
    if_neg (key _ 2 i2 (by omega)), if_neg (key _ 3 i3 (by omega)),
    if_neg (key _ 4 i4 (by omega)), if_neg (key _ 5 i5 (by omega)),
    if_neg (key _ 6 i6 (by omega)), if_neg (key _ 7 i7 (by omega)),
    if_neg (key _ 8 i8 (by omega)), if_neg (key _ 9 i9 (by omega)),
    if_neg (key _ 10 i10 (by omega)), if_pos hf]

/-- The default case of `do_features`. -/
theorem do_features_default (P : NvmeH) (n : NVMEState) (cmd : NVMECmd) (cqe : NVMECQE)
    (h : cmd.fid ∉ feature_ids P) :
    do_features P n cmd cqe = some ⟨n, { cqe with sc := P.NVME_SC_INVALID_FIELD }, 0, []⟩ := by
  simp only [feature_ids, List.mem_cons, List.mem_singleton, not_or] at h
  obtain ⟨h0, h1, h2, h3, h4, h5, h6, h7, h8, h9, h10, h11, _⟩ := h
  unfold do_features
  dsimp only
  rw [if_neg h0, if_neg h1, if_neg h2, if_neg h3, if_neg h4, if_neg h5, if_neg h6, if_neg h7,
    if_neg h8, if_neg h9, if_neg h10, if_neg h11]

/-- Storing one feature leaves the fields of the other features as they were. -/
theorem feature_store_other (f g : FeatureId) (hg : g ≠ f) (t : NVMEFeatureVal) (v : Nat) :
    g.load (f.store t v) = g.load t ∧
      (f.store t v).software_progress_marker = t.software_progress_marker := by
  cases f <;> cases g <;> first | exact absurd rfl hg | exact ⟨rfl, rfl⟩

theorem feature_load_store (f : FeatureId) (t : NVMEFeatureVal) (v : Nat) :
    f.load (f.store t v) = v := by
  cases f <;> rfl

/-- C14: feature round trip.  For each of the ten readable and writable
features `f` and every value `v`, a Set Features command for `f` with `cdw11 = v`
returns 0 with status `NVME_SC_SUCCESS` and changes the controller state only by
the assignment to the field of `f`; a Get Features command for `f` in the state
that results returns 0 with status `NVME_SC_SUCCESS` and `v` in the result word
`cmd_specific`, and leaves that state as it is.  The field of every other
feature and the software progress marker are as before the Set. -/
theorem feature_round_trip (P : NvmeH) (hD : (feature_ids P).Nodup)
    (hSG : P.NVME_ADM_CMD_GET_FEATURES ≠ P.NVME_ADM_CMD_SET_FEATURES) (n : NVMEState)
    (f : FeatureId) (v : Nat) (set get : NVMECmd) (cqe1 cqe2 : NVMECQE)
    (h1 : set.opcode = P.NVME_ADM_CMD_SET_FEATURES) (h2 : set.fid = f.fid P)
    (h3 : set.cdw11 = v) (h4 : get.opcode = P.NVME_ADM_CMD_GET_FEATURES)
    (h5 : get.fid = f.fid P) :
    adm_cmd_set_features P n set cqe1 =
      some ⟨{ n with feature := f.store n.feature v },
            { cqe1 with sc := P.NVME_SC_SUCCESS }, 0, []⟩ ∧
    adm_cmd_get_features P { n with feature := f.store n.feature v } get cqe2 =
      some ⟨{ n with feature := f.store n.feature v },
            { cqe2 with sc := P.NVME_SC_SUCCESS, cmd_specific := v }, 0, []⟩ ∧
    (∀ g : FeatureId, g ≠ f → g.load (f.store n.feature v) = g.load n.feature) ∧
    (f.store n.feature v).software_progress_marker = n.feature.software_progress_marker := by
  refine ⟨?_, ?_, fun g hg => (feature_store_other f g hg n.feature v).1, ?_⟩
  · unfold adm_cmd_set_features
    rw [if_neg (not_not.mpr h1), do_features_access P hD n set cqe1 f h2]
    unfold feature_access
    rw [if_pos h1, h3]
  · unfold adm_cmd_get_features
    rw [if_neg (not_not.mpr h4), do_features_access P hD _ get cqe2 f h5]
    unfold feature_access
    rw [if_neg (by rw [h4]; exact hSG)]
    dsimp only
    rw [feature_load_store]
  · cases f <;> rfl

/-- Witness for C14: the number-of-queues feature, written and read back. -/
theorem feature_round_trip_witness :
    adm_cmd_set_features nvme_h state_zero (cmd_set_feature 7 0x00030003) cqe_zero =
      some ⟨{ state_zero with
              feature := FeatureId.number_of_queues.store state_zero.feature 0x00030003 },
            { cqe_zero with sc := nvme_h.NVME_SC_SUCCESS }, 0, []⟩ ∧
    adm_cmd_get_features nvme_h
        { state_zero with
          feature := FeatureId.number_of_queues.store state_zero.feature 0x00030003 }
        (cmd_get_feature 7) cqe_zero =
      some ⟨{ state_zero with
              feature := FeatureId.number_of_queues.store state_zero.feature 0x00030003 },
            { cqe_zero with sc := nvme_h.NVME_SC_SUCCESS, cmd_specific := 0x00030003 },
            0, []⟩ ∧
    (∀ g : FeatureId, g ≠ FeatureId.number_of_queues →
      g.load (FeatureId.number_of_queues.store state_zero.feature 0x00030003) =
        g.load state_zero.feature) ∧
    (FeatureId.number_of_queues.store state_zero.feature 0x00030003).software_progress_marker =
      state_zero.feature.software_progress_marker :=
  feature_round_trip nvme_h feature_ids_nodup (by decide) state_zero
    FeatureId.number_of_queues 0x00030003 (cmd_set_feature 7 0x00030003) (cmd_get_feature 7)
    cqe_zero cqe_zero rfl rfl rfl rfl rfl

/-- C15: for a Set Features or a Get Features command whose feature identifier
is none of the case labels of `do_features`, the handler returns 0, the status
code of the completion entry is `NVME_SC_INVALID_FIELD`, the controller state,
the feature table with it, is unchanged, and the result word `cmd_specific` of
the completion entry is not written. -/
theorem features_unknown_id (P : NvmeH) (n : NVMEState) (cmd : NVMECmd) (cqe : NVMECQE)
    (h : cmd.fid ∉ feature_ids P) :
    (cmd.opcode = P.NVME_ADM_CMD_SET_FEATURES →
      adm_cmd_set_features P n cmd cqe =
        some ⟨n, { cqe with sc := P.NVME_SC_INVALID_FIELD }, 0, []⟩) ∧
    (cmd.opcode = P.NVME_ADM_CMD_GET_FEATURES →
      adm_cmd_get_features P n cmd cqe =
        some ⟨n, { cqe with sc := P.NVME_SC_INVALID_FIELD }, 0, []⟩) := by
  constructor
  · intro ho
    unfold adm_cmd_set_features
    rw [if_neg (not_not.mpr ho), do_features_default P n cmd cqe h]
  · intro ho
    unfold adm_cmd_get_features
    rw [if_neg (not_not.mpr ho), do_features_default P n cmd cqe h]

/-- Witness for C15: feature identifier `0x0c`, written and read. -/
theorem features_unknown_id_witness :
    (12 ∉ feature_ids nvme_h) ∧
    adm_cmd_set_features nvme_h state_zero (cmd_set_feature 12 5) cqe_zero =
      some ⟨state_zero, { cqe_zero with sc := nvme_h.NVME_SC_INVALID_FIELD }, 0, []⟩ ∧
    adm_cmd_get_features nvme_h state_zero (cmd_get_feature 12) cqe_zero =
      some ⟨state_zero, { cqe_zero with sc := nvme_h.NVME_SC_INVALID_FIELD }, 0, []⟩ :=
  ⟨by decide,
    (features_unknown_id nvme_h state_zero (cmd_set_feature 12 5) cqe_zero (by decide)).1 rfl,
    (features_unknown_id nvme_h state_zero (cmd_get_feature 12) cqe_zero (by decide)).2 rfl⟩

/-- C16: Set Features on the software progress marker, and Set Features or Get
Features on the LBA range type, return 0 with status `NVME_SC_SUCCESS`, leave the
controller state, the feature table with it, unchanged whatever `cdw11` holds,
and write no result word; Get Features on the software progress marker returns
0 with status `NVME_SC_SUCCESS` and the stored marker in the result word
`cmd_specific`, the state unchanged. -/
theorem features_without_effect (P : NvmeH) (hD : (feature_ids P).Nodup)
    (hSG : P.NVME_ADM_CMD_SET_FEATURES ≠ P.NVME_ADM_CMD_GET_FEATURES) (n : NVMEState)
    (cmd : NVMECmd) (cqe : NVMECQE) :
    (cmd.opcode = P.NVME_ADM_CMD_SET_FEATURES →
      cmd.fid = P.NVME_FEATURE_SOFTWARE_PROGRESS_MARKER →
      adm_cmd_set_features P n cmd cqe =
        some ⟨n, { cqe with sc := P.NVME_SC_SUCCESS }, 0, []⟩) ∧
    (cmd.opcode = P.NVME_ADM_CMD_SET_FEATURES → cmd.fid = P.NVME_FEATURE_LBA_RANGE_TYPE →
      adm_cmd_set_features P n cmd cqe =
        some ⟨n, { cqe with sc := P.NVME_SC_SUCCESS }, 0, []⟩) ∧
    (cmd.opcode = P.NVME_ADM_CMD_GET_FEATURES → cmd.fid = P.NVME_FEATURE_LBA_RANGE_TYPE →
      adm_cmd_get_features P n cmd cqe =
        some ⟨n, { cqe with sc := P.NVME_SC_SUCCESS }, 0, []⟩) ∧
    (cmd.opcode = P.NVME_ADM_CMD_GET_FEATURES →
      cmd.fid = P.NVME_FEATURE_SOFTWARE_PROGRESS_MARKER →
      adm_cmd_get_features P n cmd cqe =
        some ⟨n, { cqe with sc := P.NVME_SC_SUCCESS,
                            cmd_specific := n.feature.software_progress_marker }, 0, []⟩) := by
  refine ⟨?_, ?_, ?_, ?_⟩
  · intro ho hf
    unfold adm_cmd_set_features
    rw [if_neg (not_not.mpr ho), do_features_software_progress_marker P hD n cmd cqe hf,
      if_neg (by rw [ho]; exact hSG)]
  · intro ho hf
    unfold adm_cmd_set_features
    rw [if_neg (not_not.mpr ho), do_features_lba_range_type P hD n cmd cqe hf]
  · intro ho hf
    unfold adm_cmd_get_features
    rw [if_neg (not_not.mpr ho), do_features_lba_range_type P hD n cmd cqe hf]
  · intro ho hf
    unfold adm_cmd_get_features
    rw [if_neg (not_not.mpr ho), do_features_software_progress_marker P hD n cmd cqe hf,
      if_pos ho]

/-- Witness for C16: the four commands on a controller whose marker is 9. -/
theorem features_without_effect_witness :
    adm_cmd_set_features nvme_h
        { state_zero with feature := { state_zero.feature with software_progress_marker := 9 } }
        (cmd_set_feature 0x80 5) cqe_zero =
      some ⟨{ state_zero with
              feature := { state_zero.feature with software_progress_marker := 9 } },
            { cqe_zero with sc := nvme_h.NVME_SC_SUCCESS }, 0, []⟩ ∧
    adm_cmd_get_features nvme_h
        { state_zero with feature := { state_zero.feature with software_progress_marker := 9 } }
        (cmd_get_feature 0x80) cqe_zero =
      some ⟨{ state_zero with
              feature := { state_zero.feature with software_progress_marker := 9 } },
            { cqe_zero with sc := nvme_h.NVME_SC_SUCCESS, cmd_specific := 9 }, 0, []⟩ :=
  ⟨(features_without_effect nvme_h feature_ids_nodup (by decide) _ (cmd_set_feature 0x80 5)
      cqe_zero).1 rfl rfl,
    (features_without_effect nvme_h feature_ids_nodup (by decide) _ (cmd_get_feature 0x80)
      cqe_zero).2.2.2 rfl rfl⟩

/-! ### Identify -/

/-- C17: identify validation.  For an Identify command, a zero `prp1` fails
with `NVME_SC_INVALID_FIELD` whatever the selector; with a non-zero `prp1`, a
namespace identify (selector other than `NVME_IDENTIFY_CONTROLLER`) whose `nsid`
is 0 or greater than the namespace count `nn` fails with
`NVME_SC_INVALID_NAMESPACE`, and a controller identify whose `nsid` is not 0
fails with `NVME_SC_INVALID_NAMESPACE`.  In each case the handler returns `FAIL`,
the state is unchanged and no DMA write is made. -/
theorem adm_cmd_identify_invalid (P : NvmeH) (n : NVMEState) (cmd : NVMECmd) (cqe : NVMECQE)
    (hop : cmd.opcode = P.NVME_ADM_CMD_IDENTIFY) :
    (cmd.prp1 = 0 →
      adm_cmd_identify P n cmd cqe =
        some ⟨n, { cqe with sc := P.NVME_SC_INVALID_FIELD }, P.FAIL, []⟩) ∧
    (cmd.prp1 ≠ 0 → cmd.cns ≠ P.NVME_IDENTIFY_CONTROLLER → (cmd.nsid = 0 ∨ cmd.nsid > n.nn) →
      adm_cmd_identify P n cmd cqe =
        some ⟨n, { cqe with sc := P.NVME_SC_INVALID_NAMESPACE }, P.FAIL, []⟩) ∧
    (cmd.prp1 ≠ 0 → cmd.cns = P.NVME_IDENTIFY_CONTROLLER → cmd.nsid ≠ 0 →
      adm_cmd_identify P n cmd cqe =
        some ⟨n, { cqe with sc := P.NVME_SC_INVALID_NAMESPACE }, P.FAIL, []⟩) := by
  refine ⟨?_, ?_, ?_⟩
  · intro hp
    unfold adm_cmd_identify
    dsimp only
    rw [if_neg (not_not.mpr hop), if_pos hp]
  · intro hp hc hn
    unfold adm_cmd_identify
    dsimp only
    rw [if_neg (not_not.mpr hop), if_neg hp, if_neg hc, if_pos hn]
  · intro hp hc hn
    unfold adm_cmd_identify
    dsimp only
    rw [if_neg (not_not.mpr hop), if_neg hp, if_pos hc, if_pos hn]

/-- Witness for C17: on a controller with one namespace, a namespace identify
with `nsid` 0 and with `nsid` 2, a controller identify with `nsid` 1, and an
identify with `prp1` 0 under each selector. -/
theorem adm_cmd_identify_invalid_witness :
    adm_cmd_identify nvme_h state_zero (cmd_identify 0 0 0x3000 0) cqe_zero =
      some ⟨state_zero, { cqe_zero with sc := nvme_h.NVME_SC_INVALID_NAMESPACE },
            nvme_h.FAIL, []⟩ ∧
    adm_cmd_identify nvme_h state_zero (cmd_identify 0 (state_zero.nn + 1) 0x3000 0) cqe_zero =
      some ⟨state_zero, { cqe_zero with sc := nvme_h.NVME_SC_INVALID_NAMESPACE },
            nvme_h.FAIL, []⟩ ∧
    adm_cmd_identify nvme_h state_zero (cmd_identify 1 1 0x3000 0) cqe_zero =
      some ⟨state_zero, { cqe_zero with sc := nvme_h.NVME_SC_INVALID_NAMESPACE },
            nvme_h.FAIL, []⟩ ∧
    adm_cmd_identify nvme_h state_zero (cmd_identify 0 1 0 0) cqe_zero =
      some ⟨state_zero, { cqe_zero with sc := nvme_h.NVME_SC_INVALID_FIELD },
            nvme_h.FAIL, []⟩ ∧
    adm_cmd_identify nvme_h state_zero (cmd_identify 1 0 0 0) cqe_zero =
      some ⟨state_zero, { cqe_zero with sc := nvme_h.NVME_SC_INVALID_FIELD },
            nvme_h.FAIL, []⟩ :=
  ⟨(adm_cmd_identify_invalid nvme_h state_zero (cmd_identify 0 0 0x3000 0) cqe_zero rfl).2.1
      (by decide) (by decide) (Or.inl rfl),
    (adm_cmd_identify_invalid nvme_h state_zero (cmd_identify 0 (state_zero.nn + 1) 0x3000 0)
      cqe_zero rfl).2.1 (by decide) (by decide) (Or.inr (by decide)),
    (adm_cmd_identify_invalid nvme_h state_zero (cmd_identify 1 1 0x3000 0) cqe_zero rfl).2.2
      (by decide) rfl (by decide),
    (adm_cmd_identify_invalid nvme_h state_zero (cmd_identify 0 1 0 0) cqe_zero rfl).1 rfl,
    (adm_cmd_identify_invalid nvme_h state_zero (cmd_identify 1 0 0 0) cqe_zero rfl).1 rfl⟩

/-- The writes of an identify copy of `S` bytes, as the two copy functions
compute them, are the copy that the specification describes. -/
theorem identify_copy_ok_intro (page S : Nat) (src : IdSource) (prp1 prp2 : Nat)
    (h0 : 0 < page) (h1 : page < 2 ^ 32) (h2 : page ≤ S) (h3 : S < 2 ^ 64) :
    identify_copy_ok page S src prp1 prp2
      (if (page - prp1 % page) % 2 ^ 32 ≠ S then
        [⟨prp1, src, 0, (page - prp1 % page) % 2 ^ 32⟩,
         ⟨prp2, src, (page - prp1 % page) % 2 ^ 32,
           (S + 2 ^ 64 - (page - prp1 % page) % 2 ^ 32) % 2 ^ 64⟩]
      else [⟨prp1, src, 0, (page - prp1 % page) % 2 ^ 32⟩]) := by
  have hm : prp1 % page < page := Nat.mod_lt _ h0
  have hl : (page - prp1 % page) % 2 ^ 32 = page - prp1 % page :=
    Nat.mod_eq_of_lt (by omega)
  rw [hl]
  have hle : page - prp1 % page ≤ S := by omega
  unfold identify_copy_ok
  by_cases hlt : page - prp1 % page < S
  · have hne : page - prp1 % page ≠ S := by omega
    have hsub : (S + 2 ^ 64 - (page - prp1 % page)) % 2 ^ 64 = S - (page - prp1 % page) := by
      have e : S + 2 ^ 64 - (page - prp1 % page) = (S - (page - prp1 % page)) + 2 ^ 64 := by
        omega
      rw [e, Nat.add_mod_right, Nat.mod_eq_of_lt (by omega)]
    rw [if_pos hne, if_pos hlt, hsub]
    refine ⟨by omega, rfl, ?_, ?_⟩
    · simp only [List.map_cons, List.map_nil, List.sum_cons, List.sum_nil]
      omega
    · intro w hw
      simp only [List.mem_cons, List.mem_singleton, List.not_mem_nil, or_false] at hw
      rcases hw with rfl | rfl
      · exact hle
      · exact Nat.sub_le _ _
  · have he : page - prp1 % page = S := by omega
    rw [if_neg (not_not.mpr he), if_neg hlt]
    refine ⟨by omega, rfl, ?_, ?_⟩
    · simp only [List.map_cons, List.map_nil, List.sum_cons, List.sum_nil]
      omega
    · intro w hw
      simp only [List.mem_singleton] at hw
      rw [hw]
      exact hle

/-- C18: identify copy.  Take a page size that is positive and fits 32 bits,
and descriptors that are at least a page and fit 64 bits.  For an Identify
command with a non-zero `prp1`, a namespace identify with `1 ≤ nsid ≤ nn`
succeeds with the writes of `adm_cmd_id_ns`, and a controller identify with
`nsid = 0` succeeds with the writes of `adm_cmd_id_ctrl`; in either the writes
are the copy described: the first write starts at `prp1` with the leading bytes
and ends at the end of the page of `prp1` at the latest, a second write to
`prp2` carries exactly the bytes that remain, from that offset of the
descriptor, when the first is shorter than the descriptor, the lengths add up to
the size of the descriptor, and no write is longer than the descriptor. -/
theorem adm_cmd_identify_copy (P : NvmeH) (h0 : 0 < P.PAGE_SIZE) (h1 : P.PAGE_SIZE < 2 ^ 32)
    (hns : P.PAGE_SIZE ≤ P.sizeof_idtfy_ns) (hns64 : P.sizeof_idtfy_ns < 2 ^ 64)
    (hct : P.PAGE_SIZE ≤ P.sizeof_idtfy_ctrl) (hct64 : P.sizeof_idtfy_ctrl < 2 ^ 64)
    (n : NVMEState) (cmd : NVMECmd) (cqe : NVMECQE)
    (hop : cmd.opcode = P.NVME_ADM_CMD_IDENTIFY) (hp : cmd.prp1 ≠ 0) :
    (cmd.cns ≠ P.NVME_IDENTIFY_CONTROLLER → 1 ≤ cmd.nsid → cmd.nsid ≤ n.nn →
      adm_cmd_identify P n cmd cqe =
        some ⟨n, { cqe with sc := P.NVME_SC_SUCCESS }, 0, (adm_cmd_id_ns P cmd).2⟩ ∧
      identify_copy_ok P.PAGE_SIZE P.sizeof_idtfy_ns (IdSource.ns (cmd.nsid - 1)) cmd.prp1
        cmd.prp2 (adm_cmd_id_ns P cmd).2) ∧
    (cmd.cns = P.NVME_IDENTIFY_CONTROLLER → cmd.nsid = 0 →
      adm_cmd_identify P n cmd cqe =
        some ⟨n, { cqe with sc := P.NVME_SC_SUCCESS }, 0, (adm_cmd_id_ctrl P cmd).2⟩ ∧
      identify_copy_ok P.PAGE_SIZE P.sizeof_idtfy_ctrl IdSource.ctrl cmd.prp1 cmd.prp2
        (adm_cmd_id_ctrl P cmd).2) := by
  have ens : (adm_cmd_id_ns P cmd).1 = 0 := by
    unfold adm_cmd_id_ns
    dsimp only
    split <;> rfl
  have ect : (adm_cmd_id_ctrl P cmd).1 = 0 := by
    unfold adm_cmd_id_ctrl
    dsimp only
    split <;> rfl
  constructor
  · intro hc hn1 hn2
    constructor
    · unfold adm_cmd_identify
      dsimp only
      rw [if_neg (not_not.mpr hop), if_neg hp, if_neg hc, if_neg (by omega), ens]
      rfl
    · have h := identify_copy_ok_intro P.PAGE_SIZE P.sizeof_idtfy_ns
        (IdSource.ns (cmd.nsid - 1)) cmd.prp1 cmd.prp2 h0 h1 hns hns64
      unfold adm_cmd_id_ns
      dsimp only
      split
      · rename_i hne
        rw [if_pos hne] at h
        exact h
      · rename_i hne
        rw [if_neg hne] at h
        exact h
  · intro hc hn
    constructor
    · unfold adm_cmd_identify
      dsimp only
      rw [if_neg (not_not.mpr hop), if_neg hp, if_pos hc, if_neg (not_not.mpr hn), ect]
      rfl
    · have h := identify_copy_ok_intro P.PAGE_SIZE P.sizeof_idtfy_ctrl IdSource.ctrl
        cmd.prp1 cmd.prp2 h0 h1 hct hct64
      unfold adm_cmd_id_ctrl
      dsimp only
      split
      · rename_i hne
        rw [if_pos hne] at h
        exact h
      · rename_i hne
        rw [if_neg hne] at h
        exact h

/-- Witness for C18: a namespace identify whose `prp1` is 256 bytes into its
page is copied as 3840 bytes to `prp1` and 256 bytes to `prp2`; a controller
identify with a page-aligned `prp1` is copied in one write of 4096 bytes. -/
theorem adm_cmd_identify_copy_witness :
    (adm_cmd_identify nvme_h state_zero (cmd_identify 0 1 0x3100 0x5000) cqe_zero =
        some ⟨state_zero, { cqe_zero with sc := nvme_h.NVME_SC_SUCCESS }, 0,
              [⟨0x3100, IdSource.ns 0, 0, 3840⟩, ⟨0x5000, IdSource.ns 0, 3840, 256⟩]⟩ ∧
      identify_copy_ok 4096 4096 (IdSource.ns 0) 0x3100 0x5000
        [⟨0x3100, IdSource.ns 0, 0, 3840⟩, ⟨0x5000, IdSource.ns 0, 3840, 256⟩]) ∧
    (adm_cmd_identify nvme_h state_zero (cmd_identify 1 0 0x3000 0x5000) cqe_zero =
        some ⟨state_zero, { cqe_zero with sc := nvme_h.NVME_SC_SUCCESS }, 0,
              [⟨0x3000, IdSource.ctrl, 0, 4096⟩]⟩ ∧
      identify_copy_ok 4096 4096 IdSource.ctrl 0x3000 0x5000
        [⟨0x3000, IdSource.ctrl, 0, 4096⟩]) :=
  ⟨(adm_cmd_identify_copy nvme_h (by decide) (by decide) (by decide) (by decide) (by decide)
      (by decide) state_zero (cmd_identify 0 1 0x3100 0x5000) cqe_zero rfl (by decide)).1
      (by decide) (by decide) (by decide),
    (adm_cmd_identify_copy nvme_h (by decide) (by decide) (by decide) (by decide) (by decide)
      (by decide) state_zero (cmd_identify 1 0 0x3000 0x5000) cqe_zero rfl (by decide)).2
      rfl rfl⟩

/-! ### Delete with a bad queue identifier -/

theorem adm_get_sq_none (P : NvmeH) (n : NVMEState) (i : Nat)
    (h : i ≥ P.NVME_MAX_QID ∨ ¬ sq_allocated n i) : adm_get_sq P n i = P.NVME_MAX_QID := by
  unfold adm_get_sq
  by_cases h1 : i ≥ P.NVME_MAX_QID
  · rw [if_pos h1]
  · rw [if_neg h1, if_neg (h.resolve_left h1)]

theorem adm_get_cq_none (P : NvmeH) (n : NVMEState) (k : Nat)
    (h : k ≥ P.NVME_MAX_QID ∨ ¬ cq_allocated n k) : adm_get_cq P n k = P.NVME_MAX_QID := by
  unfold adm_get_cq
  by_cases h1 : k ≥ P.NVME_MAX_QID
  · rw [if_pos h1]
  · rw [if_neg h1, if_neg (h.resolve_left h1)]

/-- C19 (as amended): a Delete SQ command whose `qid` is 0 or greater than
`NVME_MAX_QID`, whatever its other fields, and a Delete SQ command with
namespace field 0 whose `qid` is at least `NVME_MAX_QID` or names a slot that
is not allocated, fails with the command-specific status
`NVME_INVALID_QUEUE_IDENTIFIER`, the state unchanged; the same holds of Delete
CQ and the completion queue table. -/
theorem del_queue_invalid_identifier (P : NvmeH) (n : NVMEState) (cmd : NVMECmd)
    (cqe : NVMECQE) :
    (cmd.opcode = P.NVME_ADM_CMD_DELETE_SQ →
      (cmd.qid = 0 ∨ cmd.qid > P.NVME_MAX_QID ∨
        (cmd.nsid = 0 ∧ (cmd.qid ≥ P.NVME_MAX_QID ∨ ¬ sq_allocated n cmd.qid))) →
      adm_cmd_del_sq P n cmd cqe =
        some ⟨n, { cqe with sct := P.NVME_SCT_CMD_SPEC_ERR,
                            sc := P.NVME_INVALID_QUEUE_IDENTIFIER }, P.FAIL, []⟩) ∧
    (cmd.opcode = P.NVME_ADM_CMD_DELETE_CQ →
      (cmd.qid = 0 ∨ cmd.qid > P.NVME_MAX_QID ∨
        (cmd.nsid = 0 ∧ (cmd.qid ≥ P.NVME_MAX_QID ∨ ¬ cq_allocated n cmd.qid))) →
      adm_cmd_del_cq P n cmd cqe =
        some ⟨n, { cqe with sct := P.NVME_SCT_CMD_SPEC_ERR,
                            sc := P.NVME_INVALID_QUEUE_IDENTIFIER }, P.FAIL, []⟩) := by
  constructor
  · intro hop h
    unfold adm_cmd_del_sq
    dsimp only
    rw [if_neg (not_not.mpr hop)]
    by_cases hq : cmd.qid = 0 ∨ cmd.qid > P.NVME_MAX_QID
    · rw [if_pos hq]
    · have h3 : cmd.nsid = 0 ∧ (cmd.qid ≥ P.NVME_MAX_QID ∨ ¬ sq_allocated n cmd.qid) := by
        rcases h with h | h | h
        · exact absurd (Or.inl h) hq
        · exact absurd (Or.inr h) hq
        · exact h
      rw [if_neg hq, if_neg (not_not.mpr h3.1), if_pos (adm_get_sq_none P n cmd.qid h3.2)]
  · intro hop h
    unfold adm_cmd_del_cq
    dsimp only
    rw [if_neg (not_not.mpr hop)]
    by_cases hq : cmd.qid = 0 ∨ cmd.qid > P.NVME_MAX_QID
    · rw [if_pos hq]
    · have h3 : cmd.nsid = 0 ∧ (cmd.qid ≥ P.NVME_MAX_QID ∨ ¬ cq_allocated n cmd.qid) := by
        rcases h with h | h | h
        · exact absurd (Or.inl h) hq
        · exact absurd (Or.inr h) hq
        · exact h
      rw [if_neg hq, if_neg (not_not.mpr h3.1), if_pos (adm_get_cq_none P n cmd.qid h3.2)]

/-- Witness for C19: on the zeroed controller, where no queue is allocated,
Delete SQ for queue 3 with namespace field 0, Delete SQ for queue 0 with
namespace field 1, and Delete CQ for queue 64 with namespace field 0. -/
theorem del_queue_invalid_identifier_witness :
    adm_cmd_del_sq nvme_h state_zero (cmd_delete_sq 3) cqe_zero =
      some ⟨state_zero, { cqe_zero with sct := nvme_h.NVME_SCT_CMD_SPEC_ERR,
                                        sc := nvme_h.NVME_INVALID_QUEUE_IDENTIFIER },
            nvme_h.FAIL, []⟩ ∧
    adm_cmd_del_sq nvme_h state_zero { cmd_delete_sq 0 with nsid := 1 } cqe_zero =
      some ⟨state_zero, { cqe_zero with sct := nvme_h.NVME_SCT_CMD_SPEC_ERR,
                                        sc := nvme_h.NVME_INVALID_QUEUE_IDENTIFIER },
            nvme_h.FAIL, []⟩ ∧
    adm_cmd_del_cq nvme_h state_zero (cmd_delete_cq 64) cqe_zero =
      some ⟨state_zero, { cqe_zero with sct := nvme_h.NVME_SCT_CMD_SPEC_ERR,
                                        sc := nvme_h.NVME_INVALID_QUEUE_IDENTIFIER },
            nvme_h.FAIL, []⟩ :=
  ⟨(del_queue_invalid_identifier nvme_h state_zero (cmd_delete_sq 3) cqe_zero).1 rfl
      (Or.inr (Or.inr ⟨rfl, Or.inr (by decide)⟩)),
    (del_queue_invalid_identifier nvme_h state_zero { cmd_delete_sq 0 with nsid := 1 }
      cqe_zero).1 rfl (Or.inl rfl),
    (del_queue_invalid_identifier nvme_h state_zero (cmd_delete_cq 64) cqe_zero).2 rfl
      (Or.inr (Or.inr ⟨rfl, Or.inl (by decide)⟩))⟩

/-- C19 fails as stated: on the zeroed controller, where slot 3 of neither
table is allocated, Delete SQ and Delete CQ for queue 3 with namespace field 1
are answered with `NVME_SC_INVALID_NAMESPACE`, the status code type left as it
came in, not with `NVME_INVALID_QUEUE_IDENTIFIER`. -/
theorem del_queue_invalid_identifier_counterexample :
    ¬ sq_allocated state_zero 3 ∧ ¬ cq_allocated state_zero 3 ∧
    (adm_cmd_del_sq nvme_h state_zero { cmd_delete_sq 3 with nsid := 1 } cqe_zero).map
        (fun r => (r.cqe.sct, r.cqe.sc, r.ret)) =
      some (cqe_zero.sct, nvme_h.NVME_SC_INVALID_NAMESPACE, nvme_h.FAIL) ∧
    (adm_cmd_del_cq nvme_h state_zero { cmd_delete_cq 3 with nsid := 1 } cqe_zero).map
        (fun r => (r.cqe.sct, r.cqe.sc, r.ret)) =
      some (cqe_zero.sct, nvme_h.NVME_SC_INVALID_NAMESPACE, nvme_h.FAIL) ∧
    nvme_h.NVME_SC_INVALID_NAMESPACE ≠ nvme_h.NVME_INVALID_QUEUE_IDENTIFIER := by
  refine ⟨by decide, by decide, by decide, by decide, by decide⟩

/-! ### The queue-size limit -/

/-- What is left of `adm_cmd_alloc_sq` when the identifier, namespace and
allocation checks pass. -/
theorem adm_cmd_alloc_sq_checked (P : NvmeH) (hF : P.FAIL ≠ 0) (n : NVMEState)
    (cmd : NVMECmd) (cqe : NVMECQE) (h1 : cmd.opcode = P.NVME_ADM_CMD_CREATE_SQ)
    (h2 : cmd.qid ≠ 0) (h3 : cmd.qid < P.NVME_MAX_QID) (h4 : cmd.cqid ≠ 0)
    (h5 : cmd.nsid = 0) (h6 : ¬ sq_allocated n cmd.qid) (h7 : cmd.cqid < P.NVME_MAX_QID)
    (h8 : cq_allocated n cmd.cqid) :
    adm_cmd_alloc_sq P n cmd cqe =
      if cmd.qsize > n.cntrl_reg_mqes + 1 then
        some ⟨n, { cqe with sct := P.NVME_SCT_CMD_SPEC_ERR,
                            sc := P.NVME_MAX_QUEUE_SIZE_EXCEEDED }, P.FAIL, []⟩
      else if cmd.pc = 0 ∧ n.cntrl_reg_cqr % 2 ≠ 0 then
        some ⟨n, { cqe with sc := P.NVME_SC_INVALID_FIELD }, P.FAIL, []⟩
      else if cmd.prp1 = 0 then
        some ⟨n, { cqe with sc := P.NVME_SC_INVALID_FIELD }, P.FAIL, []⟩
      else
        some ⟨alloc_sq_state P n cmd, { cqe with sc := P.NVME_SC_SUCCESS }, 0, []⟩ := by
  have hs : ¬ adm_check_sqid P n cmd.qid = 0 := by
    rw [adm_check_sqid_eq_zero P hF]
    exact fun hh => h6 hh.2
  have hc : ¬ adm_check_cqid P n cmd.cqid ≠ 0 := by
    rw [not_not, adm_check_cqid_eq_zero P hF]
    exact ⟨h7, h8⟩
  unfold adm_cmd_alloc_sq
  dsimp only
  rw [if_neg (not_not.mpr h1), if_neg (by omega), if_neg h4, if_neg (not_not.mpr h5),
    if_neg hs, if_neg hc, alloc_sq_commit_eq P n cmd h7 h8]

/-- What is left of `adm_cmd_alloc_cq` when the identifier, namespace and
allocation checks pass. -/
theorem adm_cmd_alloc_cq_checked (P : NvmeH) (hF : P.FAIL ≠ 0) (n : NVMEState)
    (cmd : NVMECmd) (cqe : NVMECQE) (h1 : cmd.opcode = P.NVME_ADM_CMD_CREATE_CQ)
    (h2 : cmd.qid ≠ 0) (h3 : cmd.qid < P.NVME_MAX_QID) (h4 : cmd.nsid = 0)
    (h5 : ¬ cq_allocated n cmd.qid) :
    adm_cmd_alloc_cq P n cmd cqe =
      if cmd.qsize > n.cntrl_reg_mqes + 1 then
        some ⟨n, { cqe with sct := P.NVME_SCT_CMD_SPEC_ERR,
                            sc := P.NVME_MAX_QUEUE_SIZE_EXCEEDED }, P.FAIL, []⟩
      else if cmd.pc = 0 ∧ n.cntrl_reg_cqr % 2 ≠ 0 then
        some ⟨n, { cqe with sc := P.NVME_SC_INVALID_FIELD }, P.FAIL, []⟩
      else if cmd.prp1 = 0 then
        some ⟨n, { cqe with sc := P.NVME_SC_INVALID_FIELD }, P.FAIL, []⟩
      else if (cmd.iv : Int) > n.msix_entries_nr - 1 ∧ n.is_msix = true then
        some ⟨n, { cqe with sct := P.NVME_SCT_CMD_SPEC_ERR,
                            sc := P.NVME_INVALID_INTERRUPT_VECTOR }, P.FAIL, []⟩
      else
        some ⟨alloc_cq_state n cmd, { cqe with sc := P.NVME_SC_SUCCESS }, 0, []⟩ := by
  have hc : ¬ adm_check_cqid P n cmd.qid = 0 := by
    rw [adm_check_cqid_eq_zero P hF]
    exact fun hh => h5 hh.2
  unfold adm_cmd_alloc_cq
  dsimp only
  rw [if_neg (not_not.mpr h1), if_neg (by omega), if_neg (not_not.mpr h4), if_neg hc]
  rfl

/-- C20 (as amended): queue-size limit.  Let the completion entry come in with
a status code type other than `NVME_SCT_CMD_SPEC_ERR`.  A Create SQ command that
passes the identifier, namespace and allocation checks returns, and its status
is the command-specific `NVME_MAX_QUEUE_SIZE_EXCEEDED` if and only if `qsize`
is greater than the MQES word of the capability register plus 1; when it is,
the handler returns `FAIL` and the state is unchanged.  The same holds of a
Create CQ command that passes its identifier, namespace and allocation
checks. -/
theorem queue_size_limit (P : NvmeH) (hF : P.FAIL ≠ 0)
    (hIV : P.NVME_INVALID_INTERRUPT_VECTOR ≠ P.NVME_MAX_QUEUE_SIZE_EXCEEDED)
    (n : NVMEState) (cmd : NVMECmd) (cqe : NVMECQE)
    (hsct : cqe.sct ≠ P.NVME_SCT_CMD_SPEC_ERR) :
    (cmd.opcode = P.NVME_ADM_CMD_CREATE_SQ → cmd.qid ≠ 0 → cmd.qid < P.NVME_MAX_QID →
      cmd.cqid ≠ 0 → cmd.nsid = 0 → ¬ sq_allocated n cmd.qid →
      cmd.cqid < P.NVME_MAX_QID → cq_allocated n cmd.cqid →
      ∃ r, adm_cmd_alloc_sq P n cmd cqe = some r ∧
        ((r.cqe.sct = P.NVME_SCT_CMD_SPEC_ERR ∧ r.cqe.sc = P.NVME_MAX_QUEUE_SIZE_EXCEEDED) ↔
          cmd.qsize > n.cntrl_reg_mqes + 1) ∧
        (cmd.qsize > n.cntrl_reg_mqes + 1 → r.ret = P.FAIL ∧ r.n = n)) ∧
    (cmd.opcode = P.NVME_ADM_CMD_CREATE_CQ → cmd.qid ≠ 0 → cmd.qid < P.NVME_MAX_QID →
      cmd.nsid = 0 → ¬ cq_allocated n cmd.qid →
      ∃ r, adm_cmd_alloc_cq P n cmd cqe = some r ∧
        ((r.cqe.sct = P.NVME_SCT_CMD_SPEC_ERR ∧ r.cqe.sc = P.NVME_MAX_QUEUE_SIZE_EXCEEDED) ↔
          cmd.qsize > n.cntrl_reg_mqes + 1) ∧
        (cmd.qsize > n.cntrl_reg_mqes + 1 → r.ret = P.FAIL ∧ r.n = n)) := by
  constructor
  · intro h1 h2 h3 h4 h5 h6 h7 h8
    rw [adm_cmd_alloc_sq_checked P hF n cmd cqe h1 h2 h3 h4 h5 h6 h7 h8]
    by_cases hq : cmd.qsize > n.cntrl_reg_mqes + 1
    · rw [if_pos hq]
      exact ⟨_, rfl, ⟨fun _ => hq, fun _ => ⟨rfl, rfl⟩⟩, fun _ => ⟨rfl, rfl⟩⟩
    · rw [if_neg hq]
      by_cases hpc : cmd.pc = 0 ∧ n.cntrl_reg_cqr % 2 ≠ 0
      · rw [if_pos hpc]
        exact ⟨_, rfl, ⟨fun h => absurd h.1 hsct, fun h => absurd h hq⟩, fun h => absurd h hq⟩
      · rw [if_neg hpc]
        by_cases hp : cmd.prp1 = 0
        · rw [if_pos hp]
          exact ⟨_, rfl, ⟨fun h => absurd h.1 hsct, fun h => absurd h hq⟩,
            fun h => absurd h hq⟩
        · rw [if_neg hp]
          exact ⟨_, rfl, ⟨fun h => absurd h.1 hsct, fun h => absurd h hq⟩,
            fun h => absurd h hq⟩
  · intro h1 h2 h3 h4 h5
    rw [adm_cmd_alloc_cq_checked P hF n cmd cqe h1 h2 h3 h4 h5]
    by_cases hq : cmd.qsize > n.cntrl_reg_mqes + 1
    · rw [if_pos hq]
      exact ⟨_, rfl, ⟨fun _ => hq, fun _ => ⟨rfl, rfl⟩⟩, fun _ => ⟨rfl, rfl⟩⟩
    · rw [if_neg hq]
      by_cases hpc : cmd.pc = 0 ∧ n.cntrl_reg_cqr % 2 ≠ 0
      · rw [if_pos hpc]
        exact ⟨_, rfl, ⟨fun h => absurd h.1 hsct, fun h => absurd h hq⟩, fun h => absurd h hq⟩
      · rw [if_neg hpc]
        by_cases hp : cmd.prp1 = 0
        · rw [if_pos hp]
          exact ⟨_, rfl, ⟨fun h => absurd h.1 hsct, fun h => absurd h hq⟩,
            fun h => absurd h hq⟩
        · rw [if_neg hp]
          by_cases hv : (cmd.iv : Int) > n.msix_entries_nr - 1 ∧ n.is_msix = true
          · rw [if_pos hv]
            exact ⟨_, rfl, ⟨fun h => absurd h.2 hIV, fun h => absurd h hq⟩,
              fun h => absurd h hq⟩
          · rw [if_neg hv]
            exact ⟨_, rfl, ⟨fun h => absurd h.1 hsct, fun h => absurd h hq⟩,
              fun h => absurd h hq⟩

/-- Witness for C20: with MQES 1023, Create SQ for queue 3 on the allocated
completion queue 5 with `qsize` 1025, and Create CQ for queue 5 with `qsize`
1025. -/
theorem queue_size_limit_witness :
    (∃ r, adm_cmd_alloc_sq nvme_h (state_cq 5 0) { cmd_create_sq 3 5 with qsize := 1025 }
          cqe_zero = some r ∧
        ((r.cqe.sct = nvme_h.NVME_SCT_CMD_SPEC_ERR ∧
            r.cqe.sc = nvme_h.NVME_MAX_QUEUE_SIZE_EXCEEDED) ↔
          ({ cmd_create_sq 3 5 with qsize := 1025 } : NVMECmd).qsize >
            (state_cq 5 0).cntrl_reg_mqes + 1) ∧
        (({ cmd_create_sq 3 5 with qsize := 1025 } : NVMECmd).qsize >
            (state_cq 5 0).cntrl_reg_mqes + 1 → r.ret = nvme_h.FAIL ∧ r.n = state_cq 5 0)) ∧
    (∃ r, adm_cmd_alloc_cq nvme_h state_zero { cmd_create_cq 5 with qsize := 1025 }
          cqe_zero = some r ∧
        ((r.cqe.sct = nvme_h.NVME_SCT_CMD_SPEC_ERR ∧
            r.cqe.sc = nvme_h.NVME_MAX_QUEUE_SIZE_EXCEEDED) ↔
          ({ cmd_create_cq 5 with qsize := 1025 } : NVMECmd).qsize >
            state_zero.cntrl_reg_mqes + 1) ∧
        (({ cmd_create_cq 5 with qsize := 1025 } : NVMECmd).qsize >
            state_zero.cntrl_reg_mqes + 1 → r.ret = nvme_h.FAIL ∧ r.n = state_zero)) :=
  ⟨(queue_size_limit nvme_h (by decide) (by decide) (state_cq 5 0)
      { cmd_create_sq 3 5 with qsize := 1025 } cqe_zero (by decide)).1 rfl (by decide)
      (by decide) (by decide) rfl (by decide) (by decide) ⟨by decide, rfl⟩,
    (queue_size_limit nvme_h (by decide) (by decide) state_zero
      { cmd_create_cq 5 with qsize := 1025 } cqe_zero (by decide)).2 rfl (by decide)
      (by decide) rfl (by decide)⟩

/-- C20 fails as stated: with MQES 1023, a Create SQ and a Create CQ command
that pass every check and ask for `qsize` 1024, which exceeds the MQES value,
are accepted: the handler returns 0 with status `NVME_SC_SUCCESS` and the queue
is allocated with 1024 entries. -/
theorem queue_size_limit_counterexample :
    ({ cmd_create_sq 3 5 with qsize := 1024 } : NVMECmd).qsize >
      (state_cq 5 0).cntrl_reg_mqes ∧
    adm_cmd_alloc_sq nvme_h (state_cq 5 0) { cmd_create_sq 3 5 with qsize := 1024 } cqe_zero =
      some ⟨alloc_sq_state nvme_h (state_cq 5 0) { cmd_create_sq 3 5 with qsize := 1024 },
            { cqe_zero with sc := nvme_h.NVME_SC_SUCCESS }, 0, []⟩ ∧
    ((alloc_sq_state nvme_h (state_cq 5 0)
        { cmd_create_sq 3 5 with qsize := 1024 }).sq 3).size = 1024 ∧
    ({ cmd_create_cq 5 with qsize := 1024 } : NVMECmd).qsize > state_zero.cntrl_reg_mqes ∧
    adm_cmd_alloc_cq nvme_h state_zero { cmd_create_cq 5 with qsize := 1024 } cqe_zero =
      some ⟨alloc_cq_state state_zero { cmd_create_cq 5 with qsize := 1024 },
            { cqe_zero with sc := nvme_h.NVME_SC_SUCCESS }, 0, []⟩ ∧
    ((alloc_cq_state state_zero { cmd_create_cq 5 with qsize := 1024 }).cq 5).size = 1024 := by
  refine ⟨by decide, rfl, rfl, by decide, rfl, rfl⟩

/-! ### Create CQ: what success leaves behind -/

/-- C21: when `adm_cmd_alloc_cq` returns 0, slot `qid` of the CQ table is
allocated and holds `id = qid`, `dma_addr = prp1`, `size = qsize`,
`phys_contig = pc`, `irq_enabled = ien`, `vector = iv` and `phase_tag = 1`; its
usage counter, and its head and tail, are as before; every other CQ descriptor,
every SQ descriptor, the feature table, the abort counter and the remaining
controller fields are unchanged, the status code is `NVME_SC_SUCCESS` and no DMA
write is made. -/
theorem adm_cmd_alloc_cq_success (P : NvmeH) (hF : P.FAIL ≠ 0) (n : NVMEState)
    (cmd : NVMECmd) (cqe : NVMECQE) (r : Res) (h : adm_cmd_alloc_cq P n cmd cqe = some r)
    (h0 : r.ret = 0) :
    r.n.cq cmd.qid =
        { n.cq cmd.qid with id := cmd.qid, dma_addr := cmd.prp1, size := cmd.qsize,
                            phys_contig := cmd.pc, irq_enabled := cmd.ien, vector := cmd.iv,
                            phase_tag := 1 } ∧
      cq_allocated r.n cmd.qid ∧
      (r.n.cq cmd.qid).usage_cnt = (n.cq cmd.qid).usage_cnt ∧
      (∀ k, k ≠ cmd.qid → r.n.cq k = n.cq k) ∧
      r.n.sq = n.sq ∧ r.n.feature = n.feature ∧ r.n.abort = n.abort ∧
      r.n.cntrl_reg_mqes = n.cntrl_reg_mqes ∧ r.n.cntrl_reg_cqr = n.cntrl_reg_cqr ∧
      r.n.msix_entries_nr = n.msix_entries_nr ∧ r.n.is_msix = n.is_msix ∧ r.n.nn = n.nn ∧
      r.cqe = { cqe with sc := P.NVME_SC_SUCCESS } ∧ r.writes = [] := by
  have hok := adm_cmd_alloc_cq_ret_zero P hF n cmd cqe r h h0
  rw [adm_cmd_alloc_cq_run P hF n cmd cqe hok] at h
  cases h
  obtain ⟨_, _, _, _, _, _, _, h8, _⟩ := hok
  have hcq : (alloc_cq_state n cmd).cq cmd.qid =
      { n.cq cmd.qid with id := cmd.qid, dma_addr := cmd.prp1, irq_enabled := cmd.ien,
                          vector := cmd.iv, phase_tag := 1, size := cmd.qsize,
                          phys_contig := cmd.pc } :=
    arr_set_same _ _ _
  refine ⟨hcq, ⟨?_, ?_⟩, ?_, ?_, rfl, rfl, rfl, rfl, rfl, rfl, rfl, rfl, rfl, rfl⟩
  · show ((alloc_cq_state n cmd).cq cmd.qid).dma_addr ≠ 0
    rw [hcq]
    exact h8
  · show ((alloc_cq_state n cmd).cq cmd.qid).id = cmd.qid
    rw [hcq]
  · show ((alloc_cq_state n cmd).cq cmd.qid).usage_cnt = _
    rw [hcq]
  · intro k hk
    exact arr_set_other _ _ _ _ hk

/-- Witness for C21: Create CQ for queue 5, vector 3 with interrupts enabled,
on the zeroed controller. -/
theorem adm_cmd_alloc_cq_success_witness :
    adm_cmd_alloc_cq nvme_h state_zero { cmd_create_cq 5 with ien := 1, iv := 3 } cqe_zero =
      some ⟨alloc_cq_state state_zero { cmd_create_cq 5 with ien := 1, iv := 3 },
            cqe_zero, 0, []⟩ ∧
    (alloc_cq_state state_zero { cmd_create_cq 5 with ien := 1, iv := 3 }).cq 5 =
      { cq_zero with id := 5, dma_addr := 0x2000, size := 16, phys_contig := 1,
                     irq_enabled := 1, vector := 3, phase_tag := 1 } :=
  ⟨rfl,
    (adm_cmd_alloc_cq_success nvme_h (by decide) state_zero
      { cmd_create_cq 5 with ien := 1, iv := 3 } cqe_zero
      ⟨alloc_cq_state state_zero { cmd_create_cq 5 with ien := 1, iv := 3 }, cqe_zero, 0, []⟩
      rfl rfl).1⟩

/-! ### Create CQ: the interrupt vector -/

/-- C22: interrupt-vector check.  For a Create CQ command that passes every
other check (opcode, identifier, namespace, slot not allocated, size,
contiguity, base address), `adm_cmd_alloc_cq` fails with the command-specific
status `NVME_INVALID_INTERRUPT_VECTOR`, the state unchanged, if and only if
MSI-X is in use and `iv` is at least `msix_entries_nr`; otherwise it succeeds,
in particular whenever MSI-X is not in use.  For every command, a completion
queue created (return value 0) while MSI-X is in use stores a vector below
`msix_entries_nr`. -/
theorem adm_cmd_alloc_cq_interrupt_vector (P : NvmeH) (hF : P.FAIL ≠ 0) (n : NVMEState)
    (cmd : NVMECmd) (cqe : NVMECQE) :
    (cmd.opcode = P.NVME_ADM_CMD_CREATE_CQ → cmd.qid ≠ 0 → cmd.qid < P.NVME_MAX_QID →
      cmd.nsid = 0 → ¬ cq_allocated n cmd.qid → cmd.qsize ≤ n.cntrl_reg_mqes + 1 →
      ¬ (cmd.pc = 0 ∧ n.cntrl_reg_cqr % 2 ≠ 0) → cmd.prp1 ≠ 0 →
      (adm_cmd_alloc_cq P n cmd cqe =
          some ⟨n, { cqe with sct := P.NVME_SCT_CMD_SPEC_ERR,
                              sc := P.NVME_INVALID_INTERRUPT_VECTOR }, P.FAIL, []⟩ ↔
        (n.is_msix = true ∧ n.msix_entries_nr ≤ (cmd.iv : Int))) ∧
      (¬ (n.is_msix = true ∧ n.msix_entries_nr ≤ (cmd.iv : Int)) →
        adm_cmd_alloc_cq P n cmd cqe =
          some ⟨alloc_cq_state n cmd, { cqe with sc := P.NVME_SC_SUCCESS }, 0, []⟩) ∧
      (n.is_msix = false →
        adm_cmd_alloc_cq P n cmd cqe =
          some ⟨alloc_cq_state n cmd, { cqe with sc := P.NVME_SC_SUCCESS }, 0, []⟩)) ∧
    (∀ r, adm_cmd_alloc_cq P n cmd cqe = some r → r.ret = 0 → n.is_msix = true →
      ((r.n.cq cmd.qid).vector : Int) < n.msix_entries_nr) := by
  constructor
  · intro h1 h2 h3 h4 h5 h6 h7 h8
    rw [adm_cmd_alloc_cq_checked P hF n cmd cqe h1 h2 h3 h4 h5, if_neg (by omega), if_neg h7,
      if_neg h8]
    have hok : ¬ (n.is_msix = true ∧ n.msix_entries_nr ≤ (cmd.iv : Int)) →
        ¬ ((cmd.iv : Int) > n.msix_entries_nr - 1 ∧ n.is_msix = true) := by
      intro hc hv
      exact hc ⟨hv.2, by omega⟩
    refine ⟨⟨?_, ?_⟩, ?_, ?_⟩
    · intro h
      by_contra hc
      rw [if_neg (hok hc)] at h
      have hret := congrArg (fun o => o.map Res.ret) h
      exact hF (Option.some.inj hret).symm
    · intro hc
      rw [if_pos ⟨by omega, hc.1⟩]
    · intro hc
      rw [if_neg (hok hc)]
    · intro hm
      rw [if_neg (hok (fun hc => by rw [hm] at hc; exact Bool.false_ne_true hc.1))]
  · intro r h h0 hm
    have hok := adm_cmd_alloc_cq_ret_zero P hF n cmd cqe r h h0
    rw [adm_cmd_alloc_cq_run P hF n cmd cqe hok] at h
    cases h
    obtain ⟨_, _, _, _, _, _, _, _, h9⟩ := hok
    have hcq : ((alloc_cq_state n cmd).cq cmd.qid).vector = cmd.iv := by
      show (arr_set n.cq cmd.qid _ cmd.qid).vector = _
      rw [arr_set_same]
    show (((alloc_cq_state n cmd).cq cmd.qid).vector : Int) < n.msix_entries_nr
    rw [hcq]
    by_contra hge
    exact h9 ⟨by omega, hm⟩

/-- Witness for C22: with eight MSI-X vectors in use, Create CQ with vector 8 is
refused and with vector 7 is accepted; without MSI-X, vector 100 is accepted. -/
theorem adm_cmd_alloc_cq_interrupt_vector_witness :
    adm_cmd_alloc_cq nvme_h state_zero { cmd_create_cq 5 with iv := 8 } cqe_zero =
      some ⟨state_zero, { cqe_zero with sct := nvme_h.NVME_SCT_CMD_SPEC_ERR,
                                        sc := nvme_h.NVME_INVALID_INTERRUPT_VECTOR },
            nvme_h.FAIL, []⟩ ∧
    adm_cmd_alloc_cq nvme_h state_zero { cmd_create_cq 5 with iv := 7 } cqe_zero =
      some ⟨alloc_cq_state state_zero { cmd_create_cq 5 with iv := 7 },
            { cqe_zero with sc := nvme_h.NVME_SC_SUCCESS }, 0, []⟩ ∧
    adm_cmd_alloc_cq nvme_h { state_zero with is_msix := false }
        { cmd_create_cq 5 with iv := 100 } cqe_zero =
      some ⟨alloc_cq_state { state_zero with is_msix := false }
              { cmd_create_cq 5 with iv := 100 },
            { cqe_zero with sc := nvme_h.NVME_SC_SUCCESS }, 0, []⟩ :=
  ⟨((adm_cmd_alloc_cq_interrupt_vector nvme_h (by decide) state_zero
      { cmd_create_cq 5 with iv := 8 } cqe_zero).1 rfl (by decide) (by decide) rfl
      (by decide) (by decide) (by decide) (by decide)).1.2 ⟨rfl, by decide⟩,
    ((adm_cmd_alloc_cq_interrupt_vector nvme_h (by decide) state_zero
      { cmd_create_cq 5 with iv := 7 } cqe_zero).1 rfl (by decide) (by decide) rfl
      (by decide) (by decide) (by decide) (by decide)).2.1 (by decide),
    ((adm_cmd_alloc_cq_interrupt_vector nvme_h (by decide) { state_zero with is_msix := false }
      { cmd_create_cq 5 with iv := 100 } cqe_zero).1 rfl (by decide) (by decide) rfl
      (by decide) (by decide) (by decide) (by decide)).2.2 rfl⟩

/-! ### Abort: the scan terminates -/

/-- The scan returns exactly when its list of reads is defined. -/
theorem abort_scan_reads_isSome (P : NvmeH) (mem : HostMem) (sq : NVMEIOSQueue)
    (cmdid : Nat) :
    ∀ fuel i, (abort_scan P mem sq cmdid fuel i).isSome =
      (abort_scan_reads P mem sq cmdid fuel i).isSome := by
  intro fuel
  induction fuel with
  | zero =>
    intro i
    rfl
  | succ fuel ih =>
    intro i
    unfold abort_scan abort_scan_reads
    by_cases h1 : i = sq.tail
    · rw [if_pos h1, if_pos h1]
      rfl
    · rw [if_neg h1, if_neg h1]
      by_cases h2 : mem ((sq.dma_addr + i * P.sizeof_sqe) % 2 ^ 64) = cmdid
      · rw [if_pos h2, if_pos h2]
        rfl
      · rw [if_neg h2, if_neg h2]
        dsimp only
        rw [ih]
        cases abort_scan_reads P mem sq cmdid fuel
          (if (i + 1) % 65536 = sq.size then 0 else (i + 1) % 65536) <;> rfl

/-- From an index below `M`, the smaller of the queue size and 65536, the scan
reaches `tail` within the circular distance to it, reading only indices below
`M`. -/
theorem abort_scan_reads_spec (P : NvmeH) (mem : HostMem) (sq : NVMEIOSQueue) (cmdid : Nat)
    (M : Nat) (hM1 : M ≤ sq.size) (hM2 : M ≤ 65536) (hM3 : M = sq.size ∨ M = 65536)
    (ht : sq.tail < M) :
    ∀ fuel i, i < M →
      (if i ≤ sq.tail then sq.tail - i else M - i + sq.tail) + 1 ≤ fuel →
      ∃ l, abort_scan_reads P mem sq cmdid fuel i = some l ∧
        l.length ≤ (if i ≤ sq.tail then sq.tail - i else M - i + sq.tail) ∧
        ∀ j ∈ l, j < M := by
  intro fuel
  induction fuel with
  | zero =>
    intro i _ hd
    omega
  | succ fuel ih =>
    intro i hi hd
    unfold abort_scan_reads
    by_cases h1 : i = sq.tail
    · rw [if_pos h1]
      exact ⟨[], rfl, Nat.zero_le _, fun j hj => absurd hj (List.not_mem_nil j)⟩
    · rw [if_neg h1]
      by_cases h2 : mem ((sq.dma_addr + i * P.sizeof_sqe) % 2 ^ 64) = cmdid
      · rw [if_pos h2]
        refine ⟨[i], rfl, ?_, ?_⟩
        · show 1 ≤ _
          split_ifs <;> omega
        · intro j hj
          rw [List.mem_singleton] at hj
          omega
      · rw [if_neg h2]
        dsimp only
        have hnext : (if (i + 1) % 65536 = sq.size then 0 else (i + 1) % 65536) =
            if i + 1 = M then 0 else i + 1 := by
          by_cases h3 : i + 1 = 65536
          · have hz : (i + 1) % 65536 = 0 := by rw [h3]
            rw [hz, if_neg (by omega), if_pos (by omega)]
          · have hmod : (i + 1) % 65536 = i + 1 := Nat.mod_eq_of_lt (by omega)
            rw [hmod]
            by_cases h4 : i + 1 = sq.size
            · rw [if_pos h4, if_pos (by omega)]
            · rw [if_neg h4, if_neg (by omega)]
        rw [hnext]
        by_cases h5 : i + 1 = M
        · rw [if_pos h5]
          obtain ⟨l, e, hl, hj⟩ := ih 0 (by omega) (by
            rw [if_pos (Nat.zero_le _)]
            split_ifs at hd <;> omega)
          rw [e]
          refine ⟨i :: l, rfl, ?_, ?_⟩
          · rw [if_pos (Nat.zero_le _)] at hl
            rw [List.length_cons]
            split_ifs <;> omega
          · intro j hjm
            rcases List.mem_cons.mp hjm with rfl | hjm
            · exact hi
            · exact hj j hjm
        · rw [if_neg h5]
          obtain ⟨l, e, hl, hj⟩ := ih (i + 1) (by omega) (by
            split_ifs at hd ⊢ <;> omega)
          rw [e]
          refine ⟨i :: l, rfl, ?_, ?_⟩
          · rw [List.length_cons]
            split_ifs at hl ⊢ <;> omega
          · intro j hjm
            rcases List.mem_cons.mp hjm with rfl | hjm
            · exact hi
            · exact hj j hjm

theorem isSome_ite {α : Type} {c : Prop} [Decidable c] {a b : Option α}
    (ha : c → a.isSome = true) (hb : ¬c → b.isSome = true) :
    (if c then a else b).isSome = true := by
  by_cases h : c
  · rw [if_pos h]
    exact ha h
  · rw [if_neg h]
    exact hb h

/-- C23: abort scan termination.  Let the submission queue that an Abort
command names have `head < size` and `tail < size` (so `size > 0`), the cursors
being 16-bit values like the index that walks them.  Then the scan loop of
`adm_cmd_abort`, started at `head`, ends within `size` iterations (any fuel of
at least `size` gives an outcome): it reads fewer than `size` entries, each at
an index below `size`, and `adm_cmd_abort` itself returns. -/
theorem abort_scan_terminates (P : NvmeH) (fuel : Nat) (mem : HostMem) (n : NVMEState)
    (cmd : NVMECmd) (cqe : NVMECQE)
    (hh : (n.sq cmd.sqid).head < (n.sq cmd.sqid).size)
    (ht : (n.sq cmd.sqid).tail < (n.sq cmd.sqid).size)
    (hh16 : (n.sq cmd.sqid).head < 65536) (ht16 : (n.sq cmd.sqid).tail < 65536)
    (hfuel : (n.sq cmd.sqid).size ≤ fuel) :
    (∃ found l,
      abort_scan P mem (n.sq cmd.sqid) cmd.cmdid fuel (n.sq cmd.sqid).head = some found ∧
      abort_scan_reads P mem (n.sq cmd.sqid) cmd.cmdid fuel (n.sq cmd.sqid).head = some l ∧
      l.length < (n.sq cmd.sqid).size ∧ ∀ j ∈ l, j < (n.sq cmd.sqid).size) ∧
    (adm_cmd_abort P fuel mem n cmd cqe).isSome = true := by
  have hscan : ∃ found l,
      abort_scan P mem (n.sq cmd.sqid) cmd.cmdid fuel (n.sq cmd.sqid).head = some found ∧
      abort_scan_reads P mem (n.sq cmd.sqid) cmd.cmdid fuel (n.sq cmd.sqid).head = some l ∧
      l.length < (n.sq cmd.sqid).size ∧ ∀ j ∈ l, j < (n.sq cmd.sqid).size := by
    have hM : ∃ M, M ≤ (n.sq cmd.sqid).size ∧ M ≤ 65536 ∧
        (M = (n.sq cmd.sqid).size ∨ M = 65536) := by
      by_cases hs : (n.sq cmd.sqid).size ≤ 65536
      · exact ⟨_, le_refl _, hs, Or.inl rfl⟩
      · exact ⟨65536, by omega, le_refl _, Or.inr rfl⟩
    obtain ⟨M, hM1, hM2, hM3⟩ := hM
    obtain ⟨l, e, hl, hj⟩ := abort_scan_reads_spec P mem (n.sq cmd.sqid) cmd.cmdid M hM1 hM2
      hM3 (by omega) fuel (n.sq cmd.sqid).head (by omega) (by split_ifs <;> omega)
    have hsome := abort_scan_reads_isSome P mem (n.sq cmd.sqid) cmd.cmdid fuel
      (n.sq cmd.sqid).head
    rw [e] at hsome
    obtain ⟨found, hf⟩ := Option.isSome_iff_exists.mp hsome
    refine ⟨found, l, hf, e, ?_, fun j hjm => lt_of_lt_of_le (hj j hjm) hM1⟩
    split_ifs at hl <;> omega
  refine ⟨hscan, ?_⟩
  obtain ⟨found, _, hf, _⟩ := hscan
  unfold adm_cmd_abort
  dsimp only
  repeat' first
    | rfl
    | (apply isSome_ite <;> intro _)
  rename_i h1 h2 h3 h4 h5 h6 h7
  obtain ⟨_, _, h10⟩ := adm_get_sq_ne P n cmd.sqid h5
  rw [h10, hf]
  dsimp only
  apply isSome_ite <;> intro _ <;> rfl

/-- Witness for C23: the scan of queue 3 of `state_abort` (16 entries, head 0,
tail 2) for a command identifier that is not there reads entries 0 and 1. -/
theorem abort_scan_terminates_witness :
    abort_scan nvme_h mem_abort (state_abort.sq 3) 9 16 (state_abort.sq 3).head = some false ∧
    abort_scan_reads nvme_h mem_abort (state_abort.sq 3) 9 16 (state_abort.sq 3).head =
      some [0, 1] ∧
    (∃ found l,
      abort_scan nvme_h mem_abort (state_abort.sq (cmd_abort 3 9).sqid) (cmd_abort 3 9).cmdid 16
        (state_abort.sq (cmd_abort 3 9).sqid).head = some found ∧
      abort_scan_reads nvme_h mem_abort (state_abort.sq (cmd_abort 3 9).sqid)
        (cmd_abort 3 9).cmdid 16 (state_abort.sq (cmd_abort 3 9).sqid).head = some l ∧
      l.length < (state_abort.sq (cmd_abort 3 9).sqid).size ∧
      ∀ j ∈ l, j < (state_abort.sq (cmd_abort 3 9).sqid).size) ∧
    (adm_cmd_abort nvme_h 16 mem_abort state_abort (cmd_abort 3 9) cqe_zero).isSome = true :=
  ⟨by decide, by decide,
    abort_scan_terminates nvme_h 16 mem_abort state_abort (cmd_abort 3 9) cqe_zero
      (by decide) (by decide) (by decide) (by decide) (by decide)⟩

/-! ### The status and the incoming completion entry -/

theorem status_rel_ite (P : NvmeH) (c1 c2 : NVMECQE) {c : Prop} [Decidable c]
    {a1 a2 b1 b2 : Option Res} (ha : c → status_rel P c1 c2 a1 a2)
    (hb : ¬c → status_rel P c1 c2 b1 b2) :
    status_rel P c1 c2 (if c then a1 else b1) (if c then a2 else b2) := by
  by_cases h : c
  · rw [if_pos h, if_pos h]
    exact ha h
  · rw [if_neg h, if_neg h]
    exact hb h

theorem status_rel_some (P : NvmeH) (c1 c2 : NVMECQE) (r1 r2 : Res) (hn : r1.n = r2.n)
    (hr : r1.ret = r2.ret) (hw : r1.writes = r2.writes) (hs : r1.cqe.sc = r2.cqe.sc)
    (ht : (r1.cqe.sct = P.NVME_SCT_CMD_SPEC_ERR ∧ r2.cqe.sct = P.NVME_SCT_CMD_SPEC_ERR) ∨
      (r1.cqe.sct = c1.sct ∧ r2.cqe.sct = c2.sct)) :
    status_rel P c1 c2 (some r1) (some r2) :=
  Or.inr ⟨r1, r2, rfl, rfl, hn, hr, hw, hs, ht⟩

theorem status_rel_none (P : NvmeH) (c1 c2 : NVMECQE) : status_rel P c1 c2 none none :=
  Or.inl ⟨rfl, rfl⟩

theorem adm_cmd_del_sq_status (P : NvmeH) (n : NVMEState) (cmd : NVMECmd)
    (c1 c2 : NVMECQE) :
    status_rel P c1 c2 (adm_cmd_del_sq P n cmd c1) (adm_cmd_del_sq P n cmd c2) := by
  unfold adm_cmd_del_sq
  dsimp only
  repeat' first
    | apply status_rel_none
    | (apply status_rel_some <;> first | rfl | exact Or.inl ⟨rfl, rfl⟩ | exact Or.inr ⟨rfl, rfl⟩)
    | (apply status_rel_ite <;> intro _)

theorem adm_cmd_del_cq_status (P : NvmeH) (n : NVMEState) (cmd : NVMECmd)
    (c1 c2 : NVMECQE) :
    status_rel P c1 c2 (adm_cmd_del_cq P n cmd c1) (adm_cmd_del_cq P n cmd c2) := by
  unfold adm_cmd_del_cq
  dsimp only
  repeat' first
    | (apply status_rel_some <;> first | rfl | exact Or.inl ⟨rfl, rfl⟩ | exact Or.inr ⟨rfl, rfl⟩)
    | (apply status_rel_ite <;> intro _)

theorem adm_cmd_alloc_cq_status (P : NvmeH) (n : NVMEState) (cmd : NVMECmd)
    (c1 c2 : NVMECQE) :
    status_rel P c1 c2 (adm_cmd_alloc_cq P n cmd c1) (adm_cmd_alloc_cq P n cmd c2) := by
  unfold adm_cmd_alloc_cq
  dsimp only
  repeat' first
    | (apply status_rel_some <;> first | rfl | exact Or.inl ⟨rfl, rfl⟩ | exact Or.inr ⟨rfl, rfl⟩)
    | (apply status_rel_ite <;> intro _)

theorem adm_cmd_get_log_page_status (P : NvmeH) (n : NVMEState) (cmd : NVMECmd)
    (c1 c2 : NVMECQE) :
    status_rel P c1 c2 (adm_cmd_get_log_page P n cmd c1) (adm_cmd_get_log_page P n cmd c2) := by
  unfold adm_cmd_get_log_page
  dsimp only
  repeat' first
    | (apply status_rel_some <;> first | rfl | exact Or.inr ⟨rfl, rfl⟩)
    | (apply status_rel_ite <;> intro _)

theorem adm_cmd_identify_status (P : NvmeH) (n : NVMEState) (cmd : NVMECmd)
    (c1 c2 : NVMECQE) :
    status_rel P c1 c2 (adm_cmd_identify P n cmd c1) (adm_cmd_identify P n cmd c2) := by
  unfold adm_cmd_identify
  dsimp only
  repeat' first
    | (apply status_rel_some <;> first | rfl | exact Or.inr ⟨rfl, rfl⟩)
    | (apply status_rel_ite <;> intro _)

theorem adm_cmd_async_ev_req_status (P : NvmeH) (n : NVMEState) (cmd : NVMECmd)
    (c1 c2 : NVMECQE) :
    status_rel P c1 c2 (adm_cmd_async_ev_req P n cmd c1) (adm_cmd_async_ev_req P n cmd c2) := by
  unfold adm_cmd_async_ev_req
  dsimp only
  repeat' first
    | (apply status_rel_some <;> first | rfl | exact Or.inr ⟨rfl, rfl⟩)
    | (apply status_rel_ite <;> intro _)

theorem do_features_status (P : NvmeH) (n : NVMEState) (cmd : NVMECmd) (c1 c2 : NVMECQE) :
    status_rel P c1 c2 (do_features P n cmd c1) (do_features P n cmd c2) := by
  unfold do_features feature_access
  dsimp only
  repeat' first
    | (apply status_rel_some <;> first | rfl | exact Or.inr ⟨rfl, rfl⟩)
    | (apply status_rel_ite <;> intro _)

theorem adm_cmd_set_features_status (P : NvmeH) (n : NVMEState) (cmd : NVMECmd)
    (c1 c2 : NVMECQE) :
    status_rel P c1 c2 (adm_cmd_set_features P n cmd c1) (adm_cmd_set_features P n cmd c2) := by
  unfold adm_cmd_set_features
  apply status_rel_ite <;> intro _
  · apply status_rel_some <;> first | rfl | exact Or.inr ⟨rfl, rfl⟩
  · exact do_features_status P n cmd c1 c2

theorem adm_cmd_get_features_status (P : NvmeH) (n : NVMEState) (cmd : NVMECmd)
    (c1 c2 : NVMECQE) :
    status_rel P c1 c2 (adm_cmd_get_features P n cmd c1) (adm_cmd_get_features P n cmd c2) := by
  unfold adm_cmd_get_features
  apply status_rel_ite <;> intro _
  · apply status_rel_some <;> first | rfl | exact Or.inr ⟨rfl, rfl⟩
  · exact do_features_status P n cmd c1 c2

theorem adm_cmd_alloc_sq_status (P : NvmeH) (n : NVMEState) (cmd : NVMECmd)
    (c1 c2 : NVMECQE) :
    status_rel P c1 c2 (adm_cmd_alloc_sq P n cmd c1) (adm_cmd_alloc_sq P n cmd c2) := by
  unfold adm_cmd_alloc_sq
  dsimp only
  repeat' first
    | (apply status_rel_some <;> first | rfl | exact Or.inl ⟨rfl, rfl⟩ | exact Or.inr ⟨rfl, rfl⟩)
    | (apply status_rel_ite <;> intro _)
  cases alloc_sq_commit P n cmd
  · exact status_rel_none P c1 c2
  · apply status_rel_some <;> first | rfl | exact Or.inr ⟨rfl, rfl⟩

theorem adm_cmd_abort_status (P : NvmeH) (fuel : Nat) (mem : HostMem) (n : NVMEState)
    (cmd : NVMECmd) (c1 c2 : NVMECQE) :
    status_rel P c1 c2 (adm_cmd_abort P fuel mem n cmd c1)
      (adm_cmd_abort P fuel mem n cmd c2) := by
  unfold adm_cmd_abort
  dsimp only
  repeat' first
    | (apply status_rel_some <;> first | rfl | exact Or.inl ⟨rfl, rfl⟩ | exact Or.inr ⟨rfl, rfl⟩)
    | (apply status_rel_ite <;> intro _)
  cases abort_scan P mem (n.sq (adm_get_sq P n cmd.sqid)) cmd.cmdid fuel
    (n.sq (adm_get_sq P n cmd.sqid)).head
  · exact status_rel_none P c1 c2
  · dsimp only
    apply status_rel_ite <;> intro _ <;> apply status_rel_some <;>
      first | rfl | exact Or.inl ⟨rfl, rfl⟩ | exact Or.inr ⟨rfl, rfl⟩

theorem call_status (P : NvmeH) (f : AdmFunc) (fuel : Nat) (mem : HostMem) (n : NVMEState)
    (cmd : NVMECmd) (c1 c2 : NVMECQE) :
    status_rel P c1 c2 (f.call P fuel mem n cmd c1) (f.call P fuel mem n cmd c2) := by
  cases f
  · exact adm_cmd_del_sq_status P n cmd c1 c2
  · exact adm_cmd_alloc_sq_status P n cmd c1 c2
  · exact adm_cmd_get_log_page_status P n cmd c1 c2
  · exact adm_cmd_del_cq_status P n cmd c1 c2
  · exact adm_cmd_alloc_cq_status P n cmd c1 c2
  · exact adm_cmd_identify_status P n cmd c1 c2
  · exact adm_cmd_abort_status P fuel mem n cmd c1 c2
  · exact adm_cmd_set_features_status P n cmd c1 c2
  · exact adm_cmd_get_features_status P n cmd c1 c2
  · exact adm_cmd_async_ev_req_status P n cmd c1 c2

theorem nvme_admin_command_status_rel (P : NvmeH) (fuel : Nat) (mem : HostMem)
    (n : NVMEState) (sqe : NVMECmd) (c1 c2 : NVMECQE) :
    status_rel P c1 c2 (nvme_admin_command P fuel mem n sqe c1)
      (nvme_admin_command P fuel mem n sqe c2) := by
  unfold nvme_admin_command
  cases adm_dispatch P sqe with
  | none =>
    dsimp only
    apply status_rel_some <;> first | rfl | exact Or.inr ⟨rfl, rfl⟩
  | some f =>
    dsimp only
    rcases call_status P f fuel mem n sqe c1 c2 with ⟨e1, e2⟩ |
      ⟨r1, r2, e1, e2, hn, hr, hw, hs, ht⟩
    · rw [e1, e2]
      exact status_rel_none P c1 c2
    · rw [e1, e2]
      apply status_rel_some
      · exact hn
      · show r1.ret % 256 = r2.ret % 256
        rw [hr]
      · exact hw
      · exact hs
      · exact ht

/-- C24 (as amended): for every controller state and command, run
`nvme_admin_command` on two completion entries `c1` and `c2`.  Either both runs
have no outcome, or both have one, with the same state, returned value and DMA
writes; the status code left in the entry is the same in both, so it is
determined by the command and the state alone; the status code type is
`NVME_SCT_CMD_SPEC_ERR` in both or is left as it came in in both; hence the
status pair is the same whenever `c1` and `c2` came in with the same status code
type. -/
theorem nvme_admin_command_status (P : NvmeH) (fuel : Nat) (mem : HostMem) (n : NVMEState)
    (sqe : NVMECmd) (c1 c2 : NVMECQE) :
    (nvme_admin_command P fuel mem n sqe c1 = none ∧
      nvme_admin_command P fuel mem n sqe c2 = none) ∨
    ∃ r1 r2, nvme_admin_command P fuel mem n sqe c1 = some r1 ∧
      nvme_admin_command P fuel mem n sqe c2 = some r2 ∧
      r1.n = r2.n ∧ r1.ret = r2.ret ∧ r1.writes = r2.writes ∧ r1.cqe.sc = r2.cqe.sc ∧
      ((r1.cqe.sct = P.NVME_SCT_CMD_SPEC_ERR ∧ r2.cqe.sct = P.NVME_SCT_CMD_SPEC_ERR) ∨
        (r1.cqe.sct = c1.sct ∧ r2.cqe.sct = c2.sct)) ∧
      (c1.sct = c2.sct → (r1.cqe.sc, r1.cqe.sct) = (r2.cqe.sc, r2.cqe.sct)) := by
  rcases nvme_admin_command_status_rel P fuel mem n sqe c1 c2 with h |
    ⟨r1, r2, e1, e2, hn, hr, hw, hs, ht⟩
  · exact Or.inl h
  · refine Or.inr ⟨r1, r2, e1, e2, hn, hr, hw, hs, ht, ?_⟩
    intro hc
    rcases ht with ⟨t1, t2⟩ | ⟨t1, t2⟩
    · rw [hs, t1, t2]
    · rw [hs, t1, t2, hc]

/-- C24 fails as stated: the same Identify command with `prp1 = 0`, on the same
controller, leaves the status pair `(NVME_SC_INVALID_FIELD, 0)` in a zeroed
completion entry and `(NVME_SC_INVALID_FIELD, NVME_SCT_CMD_SPEC_ERR)` in an entry
whose status code type was `NVME_SCT_CMD_SPEC_ERR` before the call. -/
theorem nvme_admin_command_status_counterexample :
    (nvme_admin_command nvme_h 16 mem_abort state_zero (cmd_identify 0 1 0 0) cqe_zero).map
        (fun r => (r.cqe.sc, r.cqe.sct)) = some (nvme_h.NVME_SC_INVALID_FIELD, 0) ∧
    (nvme_admin_command nvme_h 16 mem_abort state_zero (cmd_identify 0 1 0 0)
        { cqe_zero with sct := nvme_h.NVME_SCT_CMD_SPEC_ERR }).map
        (fun r => (r.cqe.sc, r.cqe.sct)) =
      some (nvme_h.NVME_SC_INVALID_FIELD, nvme_h.NVME_SCT_CMD_SPEC_ERR) ∧
    (nvme_h.NVME_SC_INVALID_FIELD, 0) ≠
      (nvme_h.NVME_SC_INVALID_FIELD, nvme_h.NVME_SCT_CMD_SPEC_ERR) := by
  refine ⟨by decide, by decide, by decide⟩

/-- Witness for C24: a Create CQ command whose vector is out of range, run on a
zeroed completion entry and on one with a stale result word. -/
theorem nvme_admin_command_status_witness :
    (nvme_admin_command nvme_h 16 mem_abort state_zero { cmd_create_cq 5 with iv := 8 }
        cqe_zero = none ∧
      nvme_admin_command nvme_h 16 mem_abort state_zero { cmd_create_cq 5 with iv := 8 }
        { cqe_zero with cmd_specific := 77 } = none) ∨
    ∃ r1 r2,
      nvme_admin_command nvme_h 16 mem_abort state_zero { cmd_create_cq 5 with iv := 8 }
        cqe_zero = some r1 ∧
      nvme_admin_command nvme_h 16 mem_abort state_zero { cmd_create_cq 5 with iv := 8 }
        { cqe_zero with cmd_specific := 77 } = some r2 ∧
      r1.n = r2.n ∧ r1.ret = r2.ret ∧ r1.writes = r2.writes ∧ r1.cqe.sc = r2.cqe.sc ∧
      ((r1.cqe.sct = nvme_h.NVME_SCT_CMD_SPEC_ERR ∧
          r2.cqe.sct = nvme_h.NVME_SCT_CMD_SPEC_ERR) ∨
        (r1.cqe.sct = cqe_zero.sct ∧
          r2.cqe.sct = ({ cqe_zero with cmd_specific := 77 } : NVMECQE).sct)) ∧
      (cqe_zero.sct = ({ cqe_zero with cmd_specific := 77 } : NVMECQE).sct →
        (r1.cqe.sc, r1.cqe.sct) = (r2.cqe.sc, r2.cqe.sct)) :=
  nvme_admin_command_status nvme_h 16 mem_abort state_zero { cmd_create_cq 5 with iv := 8 }
    cqe_zero { cqe_zero with cmd_specific := 77 }

end NvmeAdm
